import Mathlib

/-!
# 2D Zombie Survival Shooter: a shallow embedding of the simulation core

JavaScript numbers are modelled as rationals (`ℚ`); `Infinity` only occurs as an ammunition
count and has its own type `Ammo`.  `Date.now()` is the explicit argument `now` (milliseconds),
every `Math.random()` result is an explicit argument, and the transcendental functions of
`Math` are the fields of an uninterpreted `JsMath` record, so that every statement below
holds for all their possible results.  A thrown JavaScript exception is an `Except.error`.
Rendering, DOM and audio calls have no effect on the simulation state and are left out.
-/

namespace ZombieShooter

/-! ## Shared primitives -/

/-- The functions of the JavaScript `Math` object whose results are not rational. -/
structure JsMath where
  sqrt : ℚ → ℚ
  atan2 : ℚ → ℚ → ℚ
  cos : ℚ → ℚ
  sin : ℚ → ℚ
  pi : ℚ

/-- A thrown JavaScript exception. -/
inductive JsError where
  | typeError (msg : String)
deriving DecidableEq

/-- Ammunition count: a JavaScript number that is a finite count or `Infinity`. -/
inductive Ammo where
  | finite (n : ℤ)
  | infinity
deriving DecidableEq

/-- The test `ammo <= 0`. -/
def Ammo.leZero : Ammo → Bool
  | .finite n => decide (n ≤ 0)
  | .infinity => false

/-- The test `a < b` on ammunition counts (`Infinity < Infinity` is false). -/
def Ammo.lt : Ammo → Ammo → Bool
  | .finite a, .finite b => decide (a < b)
  | .finite _, .infinity => true
  | .infinity, _ => false

/-- The statement `ammo--` (`Infinity - 1` is `Infinity`). -/
def Ammo.dec : Ammo → Ammo
  | .finite n => .finite (n - 1)
  | .infinity => .infinity

/-- JavaScript `s.replace(' ', '')` on a character list: only the first blank is removed. -/
def removeFirstSpace : List Char → List Char
  | [] => []
  | c :: cs => if c = ' ' then cs else c :: removeFirstSpace cs

/-- The expression `name.toLowerCase().replace(' ', '')`. -/
def weaponTypeTag (name : String) : String :=
  String.mk (removeFirstSpace name.toLower.data)

/-! ## Player (player.js) -/

/-- One entry of `Player.weapons`. -/
structure Weapon where
  name : String
  damage : ℚ
  fireRate : ℚ
  ammo : Ammo
  maxAmmo : Ammo
  reloadTime : ℚ
  range : ℚ
  spread : ℚ
  bulletCount : ℕ
  unlocked : Bool
deriving DecidableEq

/-- A timed buff stored by `Player.addBuff`. -/
structure Buff where
  multiplier : ℚ
  endTime : ℚ
deriving DecidableEq

/-- The object `Player.buffs`; `addBuff` is only ever called with these four keys. -/
structure Buffs where
  damage : Option Buff
  speed : Option Buff
  multishot : Option Buff
  shield : Option Buff
deriving DecidableEq

/-- The keys of `Player.buffs`. -/
inductive BuffType where
  | damage | speed | multishot | shield
deriving DecidableEq

/-- The eight entries of `allPerks` in `Player.getAvailablePerks`, in catalog order. -/
inductive Perk where
  | healthBoost | speedBoost | damageBoost | fireRate
  | staminaBoost | healthRegen | unlockShotgun | unlockRifle
deriving DecidableEq

/-- The `name` property of a perk. -/
def Perk.name : Perk → String
  | .healthBoost => "Health Boost"
  | .speedBoost => "Speed Boost"
  | .damageBoost => "Damage Boost"
  | .fireRate => "Fire Rate"
  | .staminaBoost => "Stamina Boost"
  | .healthRegen => "Health Regen"
  | .unlockShotgun => "Unlock Shotgun"
  | .unlockRifle => "Unlock Rifle"

/-- The `description` property of a perk. -/
def Perk.description : Perk → String
  | .healthBoost => "Increase maximum health by 25"
  | .speedBoost => "Increase movement speed by 20%"
  | .damageBoost => "Increase weapon damage by 25%"
  | .fireRate => "Increase fire rate by 15%"
  | .staminaBoost => "Increase maximum stamina by 30"
  | .healthRegen => "Faster health regeneration"
  | .unlockShotgun => "Unlock the shotgun weapon"
  | .unlockRifle => "Unlock the assault rifle"

/-- The literal `allPerks`. -/
def allPerks : List Perk :=
  [.healthBoost, .speedBoost, .damageBoost, .fireRate,
   .staminaBoost, .healthRegen, .unlockShotgun, .unlockRifle]

/-- The key map read by `Player.handleMovement`. -/
structure Keys where
  keyW : Bool
  arrowUp : Bool
  keyS : Bool
  arrowDown : Bool
  keyA : Bool
  arrowLeft : Bool
  keyD : Bool
  arrowRight : Bool
  space : Bool
deriving DecidableEq

/-- The object `Game.mouse`. -/
structure Mouse where
  x : ℚ
  y : ℚ
  pressed : Bool
deriving DecidableEq

/-- The record pushed by `Player.shoot` and `Zombie.handleSpitterBehavior`, the argument of
`new Bullet(data)`.  The properties read through `data.f || default` may be absent. -/
structure BulletData where
  x : ℚ
  y : ℚ
  vx : ℚ
  vy : ℚ
  damage : ℚ
  radius : Option ℚ
  color : Option String
  lifetime : Option ℚ
  type : Option String
deriving DecidableEq

/-- The fields of a `Player` object.  `weapons` is the five-element array literal of the
constructor, which is never resized; `currentWeaponIndex` is assigned only by the constructor
(0) and by `switchWeapon` under the guard `index >= 0 && index < this.weapons.length`. -/
structure Player where
  x : ℚ
  y : ℚ
  rotation : ℚ
  radius : ℚ
  health : ℚ
  maxHealth : ℚ
  lastDamageTime : ℚ
  healthRegenDelay : ℚ
  healthRegenRate : ℚ
  speed : ℚ
  velocity : ℚ × ℚ
  stamina : ℚ
  maxStamina : ℚ
  dashCost : ℚ
  dashSpeed : ℚ
  dashDuration : ℚ
  dashTime : ℚ
  isDashing : Bool
  staminaRegenRate : ℚ
  xp : ℚ
  level : ℕ
  xpToNextLevel : ℚ
  perks : List Perk
  levelUpPending : Bool
  availablePerks : Option (List Perk)
  weapons : Fin 5 → Weapon
  currentWeaponIndex : Fin 5
  lastShotTime : ℚ
  isReloading : Bool
  reloadStartTime : ℚ
  buffs : Buffs

/-- The weapon table of the constructor. -/
def initialWeapons : Fin 5 → Weapon :=
  ![{ name := "Pistol", damage := 25, fireRate := 300, ammo := .infinity, maxAmmo := .infinity,
      reloadTime := 1000, range := 400, spread := 0, bulletCount := 1, unlocked := true },
    { name := "Shotgun", damage := 15, fireRate := 800, ammo := .finite 8, maxAmmo := .finite 8,
      reloadTime := 2000, range := 200, spread := 1/2, bulletCount := 5, unlocked := false },
    { name := "Assault Rifle", damage := 20, fireRate := 150, ammo := .finite 30,
      maxAmmo := .finite 30, reloadTime := 1500, range := 350, spread := 1/10,
      bulletCount := 1, unlocked := false },
    { name := "Sniper Rifle", damage := 80, fireRate := 1500, ammo := .finite 5,
      maxAmmo := .finite 5, reloadTime := 3000, range := 600, spread := 0,
      bulletCount := 1, unlocked := false },
    { name := "Flamethrower", damage := 5, fireRate := 50, ammo := .finite 100,
      maxAmmo := .finite 100, reloadTime := 2500, range := 150, spread := 3/10,
      bulletCount := 3, unlocked := false }]

/-- The expression `new Player(x, y)`. -/
def Player.new (x y : ℚ) : Player where
  x := x
  y := y
  rotation := 0
  radius := 20
  health := 100
  maxHealth := 100
  lastDamageTime := 0
  healthRegenDelay := 5000
  healthRegenRate := 5
  speed := 250
  velocity := (0, 0)
  stamina := 100
  maxStamina := 100
  dashCost := 30
  dashSpeed := 500
  dashDuration := 1/5
  dashTime := 0
  isDashing := false
  staminaRegenRate := 25
  xp := 0
  level := 1
  xpToNextLevel := 100
  perks := []
  levelUpPending := false
  availablePerks := none
  weapons := initialWeapons
  currentWeaponIndex := 0
  lastShotTime := 0
  isReloading := false
  reloadStartTime := 0
  buffs := { damage := none, speed := none, multishot := none, shield := none }

/-- The getter `currentWeapon`. -/
def Player.currentWeapon (p : Player) : Weapon :=
  p.weapons p.currentWeaponIndex

/-- Assignment to one property bundle of the current weapon: `this.currentWeapon.f = v`. -/
def Player.setCurrentWeapon (p : Player) (w : Weapon) : Player :=
  { p with weapons := Function.update p.weapons p.currentWeaponIndex w }

/-- One entry of the loop in `Player.updateBuffs`: the buff is deleted when
`buff.endTime < now`. -/
def expireBuff (now : ℚ) : Option Buff → Option Buff
  | none => none
  | some b => if b.endTime < now then none else some b

/-- The method `Player.updateBuffs`. -/
def Player.updateBuffs (p : Player) (now : ℚ) : Player :=
  { p with buffs :=
      { damage := expireBuff now p.buffs.damage
        speed := expireBuff now p.buffs.speed
        multishot := expireBuff now p.buffs.multishot
        shield := expireBuff now p.buffs.shield } }

/-- The method `Player.addBuff(type, multiplier, duration)`. -/
def Player.addBuff (p : Player) (now : ℚ) (type : BuffType) (multiplier duration : ℚ) :
    Player :=
  let b : Buff := { multiplier := multiplier, endTime := now + duration * 1000 }
  match type with
  | .damage => { p with buffs := { p.buffs with damage := some b } }
  | .speed => { p with buffs := { p.buffs with speed := some b } }
  | .multishot => { p with buffs := { p.buffs with multishot := some b } }
  | .shield => { p with buffs := { p.buffs with shield := some b } }

/-- The loop `this.perks.forEach(perk => if (perk.name === n) multiplier *= f)`. -/
def perkMultiplier (n : String) (f : ℚ) (perks : List Perk) (multiplier : ℚ) : ℚ :=
  perks.foldl (fun m perk => if perk.name = n then m * f else m) multiplier

/-- The method `Player.getModifiedDamage`. -/
def Player.getModifiedDamage (p : Player) (baseDamage : ℚ) : ℚ :=
  let multiplier : ℚ := 1
  let multiplier := match p.buffs.damage with
    | some b => multiplier * b.multiplier
    | none => multiplier
  let multiplier := perkMultiplier "Damage Boost" (5/4) p.perks multiplier
  baseDamage * multiplier

/-- The method `Player.getModifiedSpeed`. -/
def Player.getModifiedSpeed (p : Player) : ℚ :=
  let multiplier : ℚ := 1
  let multiplier := match p.buffs.speed with
    | some b => multiplier * b.multiplier
    | none => multiplier
  let multiplier := perkMultiplier "Speed Boost" (6/5) p.perks multiplier
  p.speed * multiplier

/-- The method `Player.getModifiedHealthRegen`. -/
def Player.getModifiedHealthRegen (p : Player) : ℚ :=
  let multiplier := perkMultiplier "Health Regen" (3/2) p.perks 1
  p.healthRegenRate * multiplier

/-- The method `Player.handleMovement`. -/
def Player.handleMovement (p : Player) (deltaTime : ℚ) (keys : Keys) : Player :=
  let moveX : ℚ := 0
  let moveY : ℚ := 0
  let moveY := if keys.keyW || keys.arrowUp then moveY - 1 else moveY
  let moveY := if keys.keyS || keys.arrowDown then moveY + 1 else moveY
  let moveX := if keys.keyA || keys.arrowLeft then moveX - 1 else moveX
  let moveX := if keys.keyD || keys.arrowRight then moveX + 1 else moveX
  -- Normalize diagonal movement
  let diagonal : Bool := decide (moveX ≠ 0 ∧ moveY ≠ 0)
  let moveX := if diagonal then moveX * (707/1000) else moveX
  let moveY := if diagonal then moveY * (707/1000) else moveY
  -- Handle dash
  let p : Player := if keys.space = true ∧ p.isDashing = false ∧ p.stamina ≥ p.dashCost then
      { p with isDashing := true, dashTime := p.dashDuration, stamina := p.stamina - p.dashCost }
    else p
  -- Calculate speed
  let currentSpeed := if p.isDashing then p.dashSpeed else p.getModifiedSpeed
  -- Update position
  { p with x := p.x + moveX * currentSpeed * deltaTime,
           y := p.y + moveY * currentSpeed * deltaTime }

/-- The method `Player.update(deltaTime, keys, mouse)`. -/
def Player.update (M : JsMath) (p : Player) (now deltaTime : ℚ) (keys : Keys) (mouse : Mouse) :
    Player :=
  -- Update buffs
  let p := p.updateBuffs now
  -- Handle reloading
  let p : Player := if p.isReloading = true ∧ now - p.reloadStartTime ≥ p.currentWeapon.reloadTime then
      { p.setCurrentWeapon { p.currentWeapon with ammo := p.currentWeapon.maxAmmo } with
        isReloading := false }
    else p
  -- Calculate rotation to mouse
  let dx := mouse.x - p.x
  let dy := mouse.y - p.y
  let p : Player := { p with rotation := M.atan2 dy dx }
  -- Handle movement
  let p := p.handleMovement deltaTime keys
  -- Handle stamina regeneration
  let p : Player := if p.isDashing = false ∧ p.stamina < p.maxStamina then
      { p with stamina := min p.maxStamina (p.stamina + p.staminaRegenRate * deltaTime) }
    else p
  -- Handle health regeneration
  let p : Player := if now - p.lastDamageTime > p.healthRegenDelay ∧ p.health < p.maxHealth then
      { p with health := min p.maxHealth (p.health + p.getModifiedHealthRegen * deltaTime) }
    else p
  -- Update dash
  if p.isDashing then
    let p : Player := { p with dashTime := p.dashTime - deltaTime }
    if p.dashTime ≤ 0 then { p with isDashing := false } else p
  else p

/-- The bullet record pushed in iteration `i` of the loop of `Player.shoot`; `r` is the
result of that iteration's `Math.random()`. -/
def Player.makeBullet (M : JsMath) (p : Player) (weapon : Weapon) (angle r : ℚ) : BulletData :=
  let spread := (r - 1/2) * weapon.spread
  let bulletAngle := angle + spread
  let speed : ℚ := 600
  { x := p.x + M.cos p.rotation * 25
    y := p.y + M.sin p.rotation * 25
    vx := M.cos bulletAngle * speed
    vy := M.sin bulletAngle * speed
    damage := p.getModifiedDamage weapon.damage
    radius := some 3
    color := some "#ffff44"
    lifetime := some (weapon.range / speed)
    type := some (weaponTypeTag weapon.name) }

/-- The method `Player.shoot(targetX, targetY)`: the returned value (`none` is `null`) and the
player afterwards.  `rand i` is the `Math.random()` result of loop iteration `i`. -/
def Player.shoot (M : JsMath) (p : Player) (now targetX targetY : ℚ) (rand : ℕ → ℚ) :
    Option (List BulletData) × Player :=
  let weapon := p.currentWeapon
  -- Check if can shoot
  if p.isReloading = true ∨ now - p.lastShotTime < weapon.fireRate ∨ weapon.ammo.leZero = true then
    (none, p)
  else
    let angle := M.atan2 (targetY - p.y) (targetX - p.x)
    let bullets := (List.range weapon.bulletCount).map fun i => p.makeBullet M weapon angle (rand i)
    -- Consume ammo
    let p : Player := if weapon.ammo ≠ Ammo.infinity then
        p.setCurrentWeapon { weapon with ammo := weapon.ammo.dec }
      else p
    (some bullets, { p with lastShotTime := now })

/-- The method `Player.reload`. -/
def Player.reload (p : Player) (now : ℚ) : Player :=
  let weapon := p.currentWeapon
  if weapon.ammo.lt weapon.maxAmmo = true ∧ p.isReloading = false then
    { p with isReloading := true, reloadStartTime := now }
  else p

/-- The method `Player.switchWeapon(index)` for an integer `index`. -/
def Player.switchWeapon (p : Player) (index : ℤ) : Player :=
  if h : 0 ≤ index ∧ index < 5 then
    let i : Fin 5 := ⟨index.toNat, by omega⟩
    if (p.weapons i).unlocked then
      { p with currentWeaponIndex := i, isReloading := false }
    else p
  else p

/-- The method `Player.takeDamage(damage)`. -/
def Player.takeDamage (p : Player) (now damage : ℚ) : Player :=
  let shielded : Bool := match p.buffs.shield with
    | some b => decide (b.endTime > now)
    | none => false
  if shielded then p -- Invincible
  else
    let p : Player := { p with health := p.health - damage, lastDamageTime := now }
    if p.health ≤ 0 then { p with health := 0 } else p

/-- The statement `this.weapons[i].unlocked = true`. -/
def Player.unlockWeapon (p : Player) (i : Fin 5) : Player :=
  { p with weapons := Function.update p.weapons i { p.weapons i with unlocked := true } }

/-- The statement `if (this.level === level) this.weapons[i].unlocked = true`. -/
def Player.unlockAtLevel (p : Player) (level : ℕ) (i : Fin 5) : Player :=
  if p.level = level then p.unlockWeapon i else p

/-- The method `Player.getAvailablePerks`.  The outcome of
`allPerks.sort(() => 0.5 - Math.random())` is the argument `shuffle` applied to the catalog. -/
def Player.getAvailablePerks (shuffle : List Perk → List Perk) : List Perk :=
  let shuffled := shuffle allPerks
  shuffled.take 3

/-- The method `Player.levelUp`. -/
def Player.levelUp (p : Player) (shuffle : List Perk → List Perk) : Player :=
  let p : Player := { p with level := p.level + 1 }
  let p : Player := { p with xp := p.xp - p.xpToNextLevel }
  let p : Player := { p with xpToNextLevel := ((⌊p.xpToNextLevel * (6/5)⌋ : ℤ) : ℚ) }
  -- Unlock weapons at certain levels
  let p := p.unlockAtLevel 3 1
  let p := p.unlockAtLevel 5 2
  let p := p.unlockAtLevel 8 3
  let p := p.unlockAtLevel 12 4
  { p with levelUpPending := true, availablePerks := some (Player.getAvailablePerks shuffle) }

/-- The method `Player.gainXP(amount)`. -/
def Player.gainXP (p : Player) (amount : ℚ) (shuffle : List Perk → List Perk) : Player :=
  let p : Player := { p with xp := p.xp + amount }
  if p.xp ≥ p.xpToNextLevel then p.levelUp shuffle else p

/-- The method `Player.heal(amount)`. -/
def Player.heal (p : Player) (amount : ℚ) : Player :=
  { p with health := min p.maxHealth (p.health + amount) }

/-- The method `Player.refillAmmo`. -/
def Player.refillAmmo (p : Player) : Player :=
  { p with weapons := fun i =>
      let weapon := p.weapons i
      if weapon.maxAmmo ≠ Ammo.infinity then { weapon with ammo := weapon.maxAmmo } else weapon }

/-- The `effect` closure of a perk, run on the player that created it. -/
def Perk.effect : Perk → Player → Player
  | .healthBoost, p => { p with maxHealth := p.maxHealth + 25, health := p.health + 25 }
  | .speedBoost, p => { p with speed := p.speed * (6/5) }
  | .damageBoost, p =>
      { p with weapons := fun i => { p.weapons i with damage := (p.weapons i).damage * (5/4) } }
  | .fireRate, p =>
      { p with weapons := fun i =>
          { p.weapons i with fireRate := (p.weapons i).fireRate * (17/20) } }
  | .staminaBoost, p => { p with maxStamina := p.maxStamina + 30, stamina := p.stamina + 30 }
  | .healthRegen, p => { p with healthRegenRate := p.healthRegenRate * (3/2) }
  | .unlockShotgun, p => p.unlockWeapon 1
  | .unlockRifle, p => p.unlockWeapon 2

/-- The method `Player.selectPerk(index)`. -/
def Player.selectPerk (p : Player) (index : ℕ) : Player :=
  match p.availablePerks with
  | none => p
  | some available =>
    match available[index]? with
    | none => p
    | some perk =>
      let p := perk.effect p
      { p with perks := p.perks ++ [perk], availablePerks := none }

/-- The method `Player.getXPForNextLevel`. -/
def Player.getXPForNextLevel (p : Player) : ℤ :=
  ⌊(100 : ℚ) * (6/5 : ℚ) ^ ((p.level : ℤ) - 1)⌋

/-! ## Bullets (bullet.js) -/

/-- The size of the DOM canvas read through `canvas.width` and `canvas.height`. -/
structure Canvas where
  width : ℚ
  height : ℚ
deriving DecidableEq

/-- The fields of a `Bullet` object. -/
structure Bullet where
  x : ℚ
  y : ℚ
  vx : ℚ
  vy : ℚ
  damage : ℚ
  radius : ℚ
  color : String
  lifetime : ℚ
  maxLifetime : ℚ
  active : Bool
  type : String
  trail : List (ℚ × ℚ)
  maxTrailLength : ℕ
deriving DecidableEq

/-- The expression `v || d` for a possibly absent number: `undefined` and `0` are falsy. -/
def numOr (v : Option ℚ) (d : ℚ) : ℚ :=
  match v with
  | some q => if q = 0 then d else q
  | none => d

/-- The expression `v || d` for a possibly absent string: `undefined` and `''` are falsy. -/
def strOr (v : Option String) (d : String) : String :=
  match v with
  | some t => if t = "" then d else t
  | none => d

/-- The expression `new Bullet(data)`. -/
def Bullet.new (data : BulletData) : Bullet :=
  let lifetime := numOr data.lifetime 2
  { x := data.x
    y := data.y
    vx := data.vx
    vy := data.vy
    damage := data.damage
    radius := numOr data.radius 3
    color := strOr data.color "#ffff44"
    lifetime := lifetime
    maxLifetime := lifetime
    active := true
    type := strOr data.type "normal"
    trail := []
    maxTrailLength := 5 }

/-- The method `Bullet.update(deltaTime, canvas)`. -/
def Bullet.update (b : Bullet) (deltaTime : ℚ) (canvas : Canvas) : Bullet :=
  if b.active = false then b
  else
    -- Update position
    let b : Bullet := { b with x := b.x + b.vx * deltaTime, y := b.y + b.vy * deltaTime }
    -- Add to trail
    let b : Bullet := { b with trail := b.trail ++ [(b.x, b.y)] }
    let b : Bullet := if b.trail.length > b.maxTrailLength then { b with trail := b.trail.tail }
      else b
    -- Update lifetime
    let b : Bullet := { b with lifetime := b.lifetime - deltaTime }
    let b : Bullet := if b.lifetime ≤ 0 then { b with active := false } else b
    -- Check bounds
    if b.x < -50 ∨ b.x > canvas.width + 50 ∨ b.y < -50 ∨ b.y > canvas.height + 50 then
      { b with active := false }
    else b

/-- The fields of a `BulletManager` object. -/
structure BulletManager where
  bullets : List Bullet
  enemyBullets : List Bullet
  bulletPool : List Bullet
  maxPoolSize : ℕ
deriving DecidableEq

/-- The expression `new BulletManager()`. -/
def BulletManager.new : BulletManager :=
  { bullets := [], enemyBullets := [], bulletPool := [], maxPoolSize := 100 }

/-- The call `Object.assign(bullet, data)`: the properties present in `data` overwrite those
of `bullet`. -/
def Bullet.assign (bullet : Bullet) (data : BulletData) : Bullet :=
  { bullet with
    x := data.x
    y := data.y
    vx := data.vx
    vy := data.vy
    damage := data.damage
    radius := data.radius.getD bullet.radius
    color := data.color.getD bullet.color
    lifetime := data.lifetime.getD bullet.lifetime
    type := data.type.getD bullet.type }

/-- The method `BulletManager.createBullet(data)`: the bullet returned and the manager
afterwards (`bulletPool.pop()` removes the last pool entry). -/
def BulletManager.createBullet (bm : BulletManager) (data : BulletData) :
    Bullet × BulletManager :=
  -- Try to reuse from pool
  match bm.bulletPool.getLast? with
  | some pooled =>
    let bullet := pooled.assign data
    let bullet : Bullet := { bullet with active := true, trail := [] }
    let bullet : Bullet := { bullet with lifetime := numOr data.lifetime 2 }
    let bullet : Bullet := { bullet with maxLifetime := bullet.lifetime }
    (bullet, { bm with bulletPool := bm.bulletPool.dropLast })
  | none => (Bullet.new data, bm)

/-- The method `BulletManager.addBullet(bulletData)` for an array argument. -/
def BulletManager.addBullet (bm : BulletManager) (bulletData : List BulletData) :
    BulletManager :=
  bulletData.foldl (fun bm data =>
    let (bullet, bm) := bm.createBullet data
    { bm with bullets := bm.bullets ++ [bullet] }) bm

/-- The method `BulletManager.addEnemyBullet(bulletData)`. -/
def BulletManager.addEnemyBullet (bm : BulletManager) (bulletData : BulletData) :
    BulletManager :=
  let (bullet, bm) := bm.createBullet bulletData
  { bm with enemyBullets := bm.enemyBullets ++ [bullet] }

/-- The method `BulletManager.recycleBullet(bullet)`. -/
def BulletManager.recycleBullet (bm : BulletManager) (bullet : Bullet) : BulletManager :=
  if bm.bulletPool.length < bm.maxPoolSize then
    { bm with bulletPool := bm.bulletPool ++ [{ bullet with active := false }] }
  else bm

/-- The method `BulletManager.reset`. -/
def BulletManager.reset (bm : BulletManager) : BulletManager :=
  -- Return all bullets to pool
  let bm := bm.bullets.foldl (fun bm bullet => bm.recycleBullet bullet) bm
  let bm := bm.enemyBullets.foldl (fun bm bullet => bm.recycleBullet bullet) bm
  { bm with bullets := [], enemyBullets := [] }

/-- One loop of `BulletManager.update` over an array of bullets (last index first): every
bullet is updated, and one that is no longer active is recycled and spliced out. -/
def BulletManager.updateList (deltaTime : ℚ) (canvas : Canvas) :
    List Bullet → BulletManager → List Bullet × BulletManager
  | [], bm => ([], bm)
  | bullet :: rest, bm =>
    let (rest, bm) := BulletManager.updateList deltaTime canvas rest bm
    let bullet := bullet.update deltaTime canvas
    if bullet.active = false then (rest, bm.recycleBullet bullet) else (bullet :: rest, bm)

/-- The method `BulletManager.update(deltaTime, canvas)`. -/
def BulletManager.update (bm : BulletManager) (deltaTime : ℚ) (canvas : Canvas) :
    BulletManager :=
  -- Update player bullets
  let (bullets, bm) := BulletManager.updateList deltaTime canvas bm.bullets bm
  let bm : BulletManager := { bm with bullets := bullets }
  -- Update enemy bullets
  let (enemyBullets, bm) := BulletManager.updateList deltaTime canvas bm.enemyBullets bm
  { bm with enemyBullets := enemyBullets }

/-- The loop of `BulletManager.checkPlayerCollisions(player)` over the indices below `i`,
highest first: the returned boolean, the manager and the player afterwards. -/
def BulletManager.checkPlayerCollisionsFrom (M : JsMath) (now : ℚ) :
    ℕ → BulletManager → Player → Bool × BulletManager × Player
  | 0, bm, player => (false, bm, player)
  | i + 1, bm, player =>
    match bm.enemyBullets[i]? with
    | none => BulletManager.checkPlayerCollisionsFrom M now i bm player
    | some bullet =>
      if bullet.active = false then BulletManager.checkPlayerCollisionsFrom M now i bm player
      else
        let dx := bullet.x - player.x
        let dy := bullet.y - player.y
        let distance := M.sqrt (dx * dx + dy * dy)
        if distance < bullet.radius + player.radius then
          (true,
           { bm with enemyBullets := bm.enemyBullets.set i { bullet with active := false } },
           player.takeDamage now bullet.damage)
        else BulletManager.checkPlayerCollisionsFrom M now i bm player

/-- The method `BulletManager.checkPlayerCollisions(player)`. -/
def BulletManager.checkPlayerCollisions (M : JsMath) (bm : BulletManager) (now : ℚ)
    (player : Player) : Bool × BulletManager × Player :=
  BulletManager.checkPlayerCollisionsFrom M now bm.enemyBullets.length bm player

/-! ## Zombies (zombie.js) -/

/-- The four strings passed as `type` to `new Zombie`. -/
inductive ZombieType where
  | walker | runner | spitter | brute
deriving DecidableEq

/-- The fields of a `Zombie` object.  `lastShotTime`, `shootCooldown` and `range` are only
assigned for a spitter and are `undefined` (`none`) otherwise. -/
structure Zombie where
  x : ℚ
  y : ℚ
  type : ZombieType
  alive : Bool
  radius : ℚ
  health : ℚ
  speed : ℚ
  damage : ℚ
  scoreValue : ℚ
  xpValue : ℚ
  color : String
  lastShotTime : Option ℚ
  shootCooldown : Option ℚ
  range : Option ℚ
  maxHealth : ℚ
  hitFlash : ℚ
  lastAttackTime : ℚ
deriving DecidableEq

/-- The expression `new Zombie(x, y, type)`: the constructor followed by
`setTypeProperties`. -/
def Zombie.new (x y : ℚ) (type : ZombieType) : Zombie :=
  match type with
  | .walker =>
    { x := x, y := y, type := type, alive := true, radius := 15, health := 50, speed := 60,
      damage := 15, scoreValue := 10, xpValue := 5, color := "#ff4444", lastShotTime := none,
      shootCooldown := none, range := none, maxHealth := 50, hitFlash := 0,
      lastAttackTime := 0 }
  | .runner =>
    { x := x, y := y, type := type, alive := true, radius := 12, health := 25, speed := 120,
      damage := 10, scoreValue := 15, xpValue := 8, color := "#ff8844", lastShotTime := none,
      shootCooldown := none, range := none, maxHealth := 25, hitFlash := 0,
      lastAttackTime := 0 }
  | .spitter =>
    { x := x, y := y, type := type, alive := true, radius := 15, health := 40, speed := 40,
      damage := 8, scoreValue := 20, xpValue := 12, color := "#44ff44", lastShotTime := some 0,
      shootCooldown := some 2000, range := some 300, maxHealth := 40, hitFlash := 0,
      lastAttackTime := 0 }
  | .brute =>
    { x := x, y := y, type := type, alive := true, radius := 25, health := 200, speed := 30,
      damage := 30, scoreValue := 50, xpValue := 25, color := "#8844ff", lastShotTime := none,
      shootCooldown := none, range := none, maxHealth := 200, hitFlash := 0,
      lastAttackTime := 0 }

/-- The method `Zombie.takeDamage(damage)`. -/
def Zombie.takeDamage (z : Zombie) (damage : ℚ) : Zombie :=
  let z : Zombie := { z with health := z.health - damage, hitFlash := 200 }
  if z.health ≤ 0 then { z with alive := false } else z

/-- The objects that reach the `bulletManager` parameter of `Zombie.update`.  The only call of
`Zombie.update` is `zombie.update(deltaTime, player, this)` in `ZombieManager.update`, whose
`this` is the `ZombieManager`; a `BulletManager` is what the parameter name announces. -/
inductive ManagerObject where
  | zombieManager
  | bulletManager (bm : BulletManager)
deriving DecidableEq

/-- The call `bulletManager.addEnemyBullet(data)` on the object received.  Class
`ZombieManager` (methods `update`, `spawnZombie`, `spawnBoss`, `getRandomSpawnPosition`,
`cleanupDistantZombies`, `increaseDifficulty`, `reset`, `render`) has no such property, so
calling it throws a `TypeError`. -/
def ManagerObject.addEnemyBullet (o : ManagerObject) (data : BulletData) :
    Except JsError ManagerObject :=
  match o with
  | .bulletManager bm => .ok (.bulletManager (bm.addEnemyBullet data))
  | .zombieManager => .error (.typeError "bulletManager.addEnemyBullet is not a function")

/-- The test `now - this.lastShotTime >= this.shootCooldown`; a comparison with an
`undefined` operand is false. -/
def Zombie.cooldownElapsed (z : Zombie) (now : ℚ) : Bool :=
  match z.lastShotTime, z.shootCooldown with
  | some t, some c => decide (now - t ≥ c)
  | _, _ => false

/-- The method `Zombie.handleSpitterBehavior(player, bulletManager)`. -/
def Zombie.handleSpitterBehavior (M : JsMath) (z : Zombie) (now : ℚ) (player : Player)
    (bulletManager : ManagerObject) : Except JsError (Zombie × ManagerObject) :=
  if z.cooldownElapsed now then
    let angle := M.atan2 (player.y - z.y) (player.x - z.x)
    match bulletManager.addEnemyBullet
      { x := z.x
        y := z.y
        vx := M.cos angle * 200
        vy := M.sin angle * 200
        damage := z.damage
        radius := some 6
        color := some "#44ff44"
        lifetime := some 3
        type := some "poison" } with
    | .error e => .error e
    | .ok bulletManager => .ok ({ z with lastShotTime := some now }, bulletManager)
  else .ok (z, bulletManager)

/-- The test `distance <= this.range`; false when `range` is `undefined`. -/
def Zombie.withinRange (z : Zombie) (distance : ℚ) : Bool :=
  match z.range with
  | some r => decide (distance ≤ r)
  | none => false

/-- The method `Zombie.update(deltaTime, player, bulletManager)`. -/
def Zombie.update (M : JsMath) (z : Zombie) (now deltaTime : ℚ) (player : Player)
    (bulletManager : ManagerObject) : Except JsError (Zombie × ManagerObject) :=
  if z.alive = false then .ok (z, bulletManager)
  else
    let dx := player.x - z.x
    let dy := player.y - z.y
    let distance := M.sqrt (dx * dx + dy * dy)
    -- Update hit flash
    let z : Zombie := if z.hitFlash > 0 then { z with hitFlash := z.hitFlash - deltaTime * 1000 }
      else z
    -- Special behavior for spitter
    if z.type = ZombieType.spitter ∧ z.withinRange distance = true then
      z.handleSpitterBehavior M now player bulletManager
    else if distance > z.radius + player.radius then
      -- Move towards player
      let moveX := (dx / distance) * z.speed * deltaTime
      let moveY := (dy / distance) * z.speed * deltaTime
      .ok ({ z with x := z.x + moveX, y := z.y + moveY }, bulletManager)
    else .ok (z, bulletManager)

/-- The fields of a `ZombieManager` object (its `canvas` is the shared DOM canvas, passed to
the methods that read it). -/
structure ZombieManager where
  zombies : List Zombie
  spawnTimer : ℚ
  spawnInterval : ℚ
  waveMultiplier : ℚ
  maxZombies : ℚ
deriving DecidableEq

/-- The expression `new ZombieManager(canvas)`. -/
def ZombieManager.new : ZombieManager :=
  { zombies := [], spawnTimer := 0, spawnInterval := 2000, waveMultiplier := 1,
    maxZombies := 50 }

/-- The method `ZombieManager.getRandomSpawnPosition`; `sideDraw` and `coordDraw` are its two
`Math.random()` results.  The `switch` has no default case: `none` is `undefined`. -/
def ZombieManager.getRandomSpawnPosition (canvas : Canvas) (sideDraw coordDraw : ℚ) :
    Option (ℚ × ℚ) :=
  let margin : ℚ := 100
  let side : ℤ := ⌊sideDraw * 4⌋
  if side = 0 then some (coordDraw * canvas.width, -margin) -- Top
  else if side = 1 then some (canvas.width + margin, coordDraw * canvas.height) -- Right
  else if side = 2 then some (coordDraw * canvas.width, canvas.height + margin) -- Bottom
  else if side = 3 then some (-margin, coordDraw * canvas.height) -- Left
  else none

/-- The `Math.random()` results consumed by one spawn: the two of `getRandomSpawnPosition`
and the type roll of `spawnZombie`. -/
structure SpawnDraws where
  sideDraw : ℚ
  coordDraw : ℚ
  typeDraw : ℚ

/-- The method `ZombieManager.spawnZombie(wave)`. -/
def ZombieManager.spawnZombie (zm : ZombieManager) (canvas : Canvas) (wave : ℚ)
    (d : SpawnDraws) : Except JsError ZombieManager :=
  match ZombieManager.getRandomSpawnPosition canvas d.sideDraw d.coordDraw with
  | none => .error (.typeError "Cannot read properties of undefined (reading x)")
  | some spawnPos =>
    let type := ZombieType.walker
    -- Determine zombie type based on wave
    let rand := d.typeDraw
    let type := if wave ≥ 3 ∧ rand < 1/5 then ZombieType.runner else type
    let type := if wave ≥ 5 ∧ rand < 1/10 then ZombieType.spitter else type
    let type := if wave ≥ 10 ∧ rand < 1/20 then ZombieType.brute else type
    let zombie := Zombie.new spawnPos.1 spawnPos.2 type
    -- Scale zombie stats with wave
    let zombie : Zombie := { zombie with
      health := ((⌊zombie.health * (1 + (wave - 1) * (1/10))⌋ : ℤ) : ℚ) }
    let zombie : Zombie := { zombie with maxHealth := zombie.health }
    let zombie : Zombie := { zombie with speed := zombie.speed * (1 + (wave - 1) * (1/20)) }
    let zombie : Zombie := { zombie with
      damage := ((⌊zombie.damage * (1 + (wave - 1) * (2/25))⌋ : ℤ) : ℚ) }
    .ok { zm with zombies := zm.zombies ++ [zombie] }

/-- The method `ZombieManager.spawnBoss`. -/
def ZombieManager.spawnBoss (zm : ZombieManager) (canvas : Canvas) (sideDraw coordDraw : ℚ) :
    Except JsError ZombieManager :=
  match ZombieManager.getRandomSpawnPosition canvas sideDraw coordDraw with
  | none => .error (.typeError "Cannot read properties of undefined (reading x)")
  | some spawnPos =>
    let boss := Zombie.new spawnPos.1 spawnPos.2 ZombieType.brute
    -- Make boss extra tough
    let boss : Zombie := { boss with health := boss.health * 3 }
    let boss : Zombie := { boss with maxHealth := boss.health }
    let boss : Zombie := { boss with damage := boss.damage * 2 }
    let boss : Zombie := { boss with scoreValue := boss.scoreValue * 5 }
    let boss : Zombie := { boss with xpValue := boss.xpValue * 5 }
    let boss : Zombie := { boss with radius := boss.radius * (3/2) }
    .ok { zm with zombies := zm.zombies ++ [boss] }

/-- The loop `for (let i = this.zombies.length - 1; i >= 0; i--)` of `ZombieManager.update`:
the last zombie is visited first, each is updated with the manager itself as third argument,
and a zombie that is not alive is spliced out. -/
def ZombieManager.updateZombies (M : JsMath) (now deltaTime : ℚ) (player : Player) :
    List Zombie → Except JsError (List Zombie)
  | [] => .ok []
  | zombie :: rest =>
    match ZombieManager.updateZombies M now deltaTime player rest with
    | .error e => .error e
    | .ok rest =>
      match zombie.update M now deltaTime player ManagerObject.zombieManager with
      | .error e => .error e
      | .ok (zombie, _) => .ok (if zombie.alive then zombie :: rest else rest)

/-- The method `ZombieManager.cleanupDistantZombies(player)`. -/
def ZombieManager.cleanupDistantZombies (M : JsMath) (zm : ZombieManager) (canvas : Canvas)
    (player : Player) : ZombieManager :=
  let maxDistance := max canvas.width canvas.height * (3/2)
  { zm with zombies := zm.zombies.filter fun zombie =>
      let dx := zombie.x - player.x
      let dy := zombie.y - player.y
      let distance := M.sqrt (dx * dx + dy * dy)
      !decide (distance > maxDistance) }

/-- The method `ZombieManager.update(deltaTime, player, wave)`. -/
def ZombieManager.update (M : JsMath) (zm : ZombieManager) (canvas : Canvas)
    (now deltaTime : ℚ) (player : Player) (wave : ℚ) (d : SpawnDraws) :
    Except JsError ZombieManager :=
  -- Update spawn timer
  let zm : ZombieManager := { zm with spawnTimer := zm.spawnTimer + deltaTime * 1000 }
  -- Spawn zombies
  let spawned : Except JsError ZombieManager :=
    if zm.spawnTimer ≥ zm.spawnInterval ∧ (zm.zombies.length : ℚ) < zm.maxZombies then
      match zm.spawnZombie canvas wave d with
      | .error e => .error e
      | .ok zm => .ok { zm with spawnTimer := 0 }
    else .ok zm
  match spawned with
  | .error e => .error e
  | .ok zm =>
    -- Update existing zombies
    match ZombieManager.updateZombies M now deltaTime player zm.zombies with
    | .error e => .error e
    | .ok zombies =>
      -- Remove zombies that are too far from player
      .ok (ZombieManager.cleanupDistantZombies M { zm with zombies := zombies } canvas player)

/-- The method `ZombieManager.increaseDifficulty`. -/
def ZombieManager.increaseDifficulty (zm : ZombieManager) : ZombieManager :=
  { zm with spawnInterval := max 500 (zm.spawnInterval * (19/20)),
            maxZombies := min 100 (zm.maxZombies + 5) }

/-- The method `ZombieManager.reset`. -/
def ZombieManager.reset (zm : ZombieManager) : ZombieManager :=
  { zm with zombies := [], spawnTimer := 0, spawnInterval := 2000, maxZombies := 50 }

/-! ## Power-ups (powerup.js) -/

/-- The seven power-up type strings. -/
inductive PowerUpType where
  | health | ammo | damage | speed | multishot | shield | xp
deriving DecidableEq

/-- The `effect` text of `types[type]` in the `PowerUp` constructor. -/
def PowerUpType.effectText : PowerUpType → String
  | .health => "Restores 50 health"
  | .ammo => "Refills current weapon ammo"
  | .damage => "Increases damage for 30 seconds"
  | .speed => "Increases movement speed for 30 seconds"
  | .multishot => "Fires multiple bullets for 20 seconds"
  | .shield => "Temporary invincibility for 10 seconds"
  | .xp => "Grants bonus XP"

/-- The simulation fields of a `PowerUp` object. -/
structure PowerUp where
  x : ℚ
  y : ℚ
  type : PowerUpType
  radius : ℚ
  collected : Bool
  lifetime : ℚ
  maxLifetime : ℚ
  pulseTime : ℚ
  floatOffset : ℚ
deriving DecidableEq

/-- The expression `new PowerUp(x, y, type)`; `floatDraw` is its `Math.random()` result. -/
def PowerUp.new (M : JsMath) (x y : ℚ) (type : PowerUpType) (floatDraw : ℚ) : PowerUp :=
  { x := x, y := y, type := type, radius := 15, collected := false, lifetime := 30,
    maxLifetime := 30, pulseTime := 0, floatOffset := floatDraw * M.pi * 2 }

/-- The method `PowerUp.update(deltaTime)`. -/
def PowerUp.update (pu : PowerUp) (deltaTime : ℚ) : PowerUp :=
  if pu.collected then pu
  else
    let pu : PowerUp := { pu with lifetime := pu.lifetime - deltaTime,
                                  pulseTime := pu.pulseTime + deltaTime * 2 }
    -- Float animation
    let pu : PowerUp := { pu with floatOffset := pu.floatOffset + deltaTime * 2 }
    -- Check if expired
    if pu.lifetime ≤ 0 then { pu with collected := true } else pu

/-- The method `PowerUp.checkCollision(player)`. -/
def PowerUp.checkCollision (M : JsMath) (pu : PowerUp) (player : Player) : Bool :=
  if pu.collected then false
  else
    let dx := pu.x - player.x
    let dy := pu.y - player.y
    let distance := M.sqrt (dx * dx + dy * dy)
    decide (distance < pu.radius + player.radius)

/-- The method `PowerUp.applyEffect(player)`; `shuffle` is the outcome of the perk draw of a
level-up that `gainXP` may trigger. -/
def PowerUp.applyEffect (pu : PowerUp) (now : ℚ) (player : Player)
    (shuffle : List Perk → List Perk) : Player :=
  match pu.type with
  | .health => player.heal 50
  | .ammo => player.refillAmmo
  | .damage => player.addBuff now BuffType.damage (3/2) 30
  | .speed => player.addBuff now BuffType.speed (13/10) 30
  | .multishot => player.addBuff now BuffType.multishot 3 20
  | .shield => player.addBuff now BuffType.shield 1 10
  | .xp => player.gainXP 100 shuffle

/-- The method `PowerUp.collect(player)`: the returned boolean, the power-up and the player
afterwards. -/
def PowerUp.collect (pu : PowerUp) (now : ℚ) (player : Player)
    (shuffle : List Perk → List Perk) : Bool × PowerUp × Player :=
  if pu.collected then (false, pu, player)
  else
    let pu : PowerUp := { pu with collected := true }
    (true, pu, pu.applyEffect now player shuffle)

/-- The fields of a `PowerUpManager` object. -/
structure PowerUpManager where
  powerUps : List PowerUp
  spawnRate : ℚ
  maxPowerUps : ℕ
  dropWeights : List (PowerUpType × ℚ)
  totalWeight : ℚ
deriving DecidableEq

/-- The literal `dropWeights`, in property order. -/
def dropWeightTable : List (PowerUpType × ℚ) :=
  [(.health, 30), (.ammo, 25), (.xp, 20), (.damage, 10), (.speed, 8), (.multishot, 5),
   (.shield, 2)]

/-- The expression `new PowerUpManager()`. -/
def PowerUpManager.new : PowerUpManager :=
  { powerUps := [], spawnRate := 1/20, maxPowerUps := 10, dropWeights := dropWeightTable,
    totalWeight := (dropWeightTable.map Prod.snd).foldl (fun a b => a + b) 0 }

/-- The loop of `getRandomPowerUpType` over the entries of `dropWeights`, with the fallback
after the loop. -/
def PowerUpManager.pickType : List (PowerUpType × ℚ) → ℚ → PowerUpType
  | [], _ => PowerUpType.health -- Fallback
  | (type, weight) :: rest, random =>
    let random := random - weight
    if random ≤ 0 then type else PowerUpManager.pickType rest random

/-- The method `PowerUpManager.getRandomPowerUpType`; `draw` is its `Math.random()` result. -/
def PowerUpManager.getRandomPowerUpType (pm : PowerUpManager) (draw : ℚ) : PowerUpType :=
  PowerUpManager.pickType pm.dropWeights (draw * pm.totalWeight)

/-- The `Math.random()` results consumed by one `trySpawnPowerUp` call, in call order. -/
structure DropDraws where
  spawnDraw : ℚ
  typeDraw : ℚ
  offsetXDraw : ℚ
  offsetYDraw : ℚ
  floatDraw : ℚ

/-- The method `PowerUpManager.spawnPowerUp(x, y, type)` with a type given. -/
def PowerUpManager.spawnPowerUp (M : JsMath) (pm : PowerUpManager) (x y : ℚ)
    (type : PowerUpType) (d : DropDraws) : PowerUpManager :=
  -- Add some randomness to position
  let offsetX := (d.offsetXDraw - 1/2) * 60
  let offsetY := (d.offsetYDraw - 1/2) * 60
  let powerUp := PowerUp.new M (x + offsetX) (y + offsetY) type d.floatDraw
  { pm with powerUps := pm.powerUps ++ [powerUp] }

/-- The method `PowerUpManager.trySpawnPowerUp(x, y)`. -/
def PowerUpManager.trySpawnPowerUp (M : JsMath) (pm : PowerUpManager) (x y : ℚ)
    (d : DropDraws) : Bool × PowerUpManager :=
  if d.spawnDraw < pm.spawnRate ∧ pm.powerUps.length < pm.maxPowerUps then
    let type := pm.getRandomPowerUpType d.typeDraw
    (true, pm.spawnPowerUp M x y type d)
  else (false, pm)

/-- The method `PowerUpManager.update(deltaTime)`. -/
def PowerUpManager.update (pm : PowerUpManager) (deltaTime : ℚ) : PowerUpManager :=
  { pm with powerUps :=
      (pm.powerUps.map fun powerUp => powerUp.update deltaTime).filter fun powerUp =>
        !(powerUp.collected || decide (powerUp.lifetime ≤ 0)) }

/-- The loop of `PowerUpManager.checkCollisions(player)` from position `i` on: the power-ups
afterwards, the player afterwards and the array `collected`.  `shuffle i` is the perk draw
available to the power-up at position `i`. -/
def PowerUpManager.collectFrom (M : JsMath) (now : ℚ) (shuffle : ℕ → List Perk → List Perk) :
    ℕ → List PowerUp → Player → List PowerUp × Player × List PowerUp
  | _, [], player => ([], player, [])
  | i, powerUp :: rest, player =>
    if powerUp.checkCollision M player then
      let (ok, powerUp, player) := powerUp.collect now player (shuffle i)
      let (rest, player, collected) :=
        PowerUpManager.collectFrom M now shuffle (i + 1) rest player
      (powerUp :: rest, player, if ok then powerUp :: collected else collected)
    else
      let (rest, player, collected) :=
        PowerUpManager.collectFrom M now shuffle (i + 1) rest player
      (powerUp :: rest, player, collected)

/-- The method `PowerUpManager.checkCollisions(player)`. -/
def PowerUpManager.checkCollisions (M : JsMath) (pm : PowerUpManager) (now : ℚ)
    (player : Player) (shuffle : ℕ → List Perk → List Perk) :
    PowerUpManager × Player × List PowerUp :=
  let (powerUps, player, collected) :=
    PowerUpManager.collectFrom M now shuffle 0 pm.powerUps player
  ({ pm with powerUps := powerUps }, player, collected)

/-- The method `PowerUpManager.adjustSpawnRate(waveNumber)`. -/
def PowerUpManager.adjustSpawnRate (pm : PowerUpManager) (waveNumber : ℚ) : PowerUpManager :=
  -- Increase spawn rate slightly with waves
  { pm with spawnRate := min (3/20) (1/20 + waveNumber * (1/100)) }

/-- The method `PowerUpManager.reset`. -/
def PowerUpManager.reset (pm : PowerUpManager) : PowerUpManager :=
  { pm with powerUps := [], spawnRate := 1/20 }

/-! ## The session (game.js) -/

/-- The four values of `Game.gameState`. -/
inductive GameState where
  | playing | paused | gameOver | levelUp
deriving DecidableEq

/-- The simulation fields of the `Game` object (the UI manager and the particle system only
draw). -/
structure Game where
  canvas : Canvas
  gameState : GameState
  lastTime : ℚ
  deltaTime : ℚ
  keys : Keys
  mouse : Mouse
  score : ℚ
  kills : ℕ
  wave : ℕ
  waveProgress : ℚ
  waveZombiesKilled : ℕ
  waveZombiesTotal : ℤ
  player : Player
  zombieManager : ZombieManager
  bulletManager : BulletManager
  powerUpManager : PowerUpManager
  maxZombies : ℕ
  frameCount : ℕ

/-- The field initialisation of `new Game()` on a canvas of the given size. -/
def Game.new (canvas : Canvas) : Game :=
  { canvas := canvas
    gameState := GameState.playing
    lastTime := 0
    deltaTime := 0
    keys := { keyW := false, arrowUp := false, keyS := false, arrowDown := false,
              keyA := false, arrowLeft := false, keyD := false, arrowRight := false,
              space := false }
    mouse := { x := 0, y := 0, pressed := false }
    score := 0
    kills := 0
    wave := 1
    waveProgress := 0
    waveZombiesKilled := 0
    waveZombiesTotal := 10
    player := Player.new (canvas.width / 2) (canvas.height / 2)
    zombieManager := ZombieManager.new
    bulletManager := BulletManager.new
    powerUpManager := PowerUpManager.new
    maxZombies := 50
    frameCount := 0 }

/-- The random outcomes consumed by one `onZombieKilled` call: the perk draw of a level-up
that `gainXP` may trigger and the draws of `trySpawnPowerUp`. -/
structure KillDraws where
  shuffle : List Perk → List Perk
  drop : DropDraws

/-- The method `Game.onZombieKilled(zombie, isCritical)`. -/
def Game.onZombieKilled (M : JsMath) (g : Game) (zombie : Zombie) (isCritical : Bool)
    (d : KillDraws) : Game :=
  let baseScore := zombie.scoreValue
  let scoreGained := if isCritical then baseScore * 2 else baseScore
  let g : Game := { g with score := g.score + scoreGained }
  let g : Game := { g with kills := g.kills + 1 }
  let g : Game := { g with waveZombiesKilled := g.waveZombiesKilled + 1 }
  -- Give XP
  let g : Game := { g with player := g.player.gainXP zombie.xpValue d.shuffle }
  -- Chance to drop power-up
  { g with powerUpManager := (g.powerUpManager.trySpawnPowerUp M zombie.x zombie.y d.drop).2 }

/-- The inner loop of the bullet-zombie pass of `Game.checkCollisions` for the player bullet
at index `i`: the zombie indices below `j` are visited, highest first, until the first hit
(`break`). -/
def Game.hitScan (M : JsMath) (d : KillDraws) (i : ℕ) : ℕ → Game → Game
  | 0, g => g
  | j + 1, g =>
    match g.bulletManager.bullets[i]?, g.zombieManager.zombies[j]? with
    | some bullet, some zombie =>
      if zombie.alive = false then Game.hitScan M d i j g
      else
        let dx := bullet.x - zombie.x
        let dy := bullet.y - zombie.y
        let distance := M.sqrt (dx * dx + dy * dy)
        if distance < bullet.radius + zombie.radius then
          -- Check for critical hit (headshot)
          let isCritical : Bool := decide (distance < zombie.radius * (3/10))
          let damage := if isCritical then bullet.damage * 2 else bullet.damage
          let zombie := zombie.takeDamage damage
          let bullet : Bullet := { bullet with active := false }
          let g : Game := { g with
            zombieManager := { g.zombieManager with
              zombies := g.zombieManager.zombies.set j zombie }
            bulletManager := { g.bulletManager with
              bullets := g.bulletManager.bullets.set i bullet } }
          -- Check if zombie died
          if zombie.alive = false then g.onZombieKilled M zombie isCritical d else g
        else Game.hitScan M d i j g
    | _, _ => g

/-- The outer loop of the bullet-zombie pass of `Game.checkCollisions`: the bullet indices
below `i` are visited, highest first; `kill i` holds the random outcomes for a kill by the
bullet at index `i`. -/
def Game.bulletZombiePass (M : JsMath) (kill : ℕ → KillDraws) : ℕ → Game → Game
  | 0, g => g
  | i + 1, g =>
    match g.bulletManager.bullets[i]? with
    | none => Game.bulletZombiePass M kill i g
    | some bullet =>
      if bullet.active = false then Game.bulletZombiePass M kill i g
      else
        Game.bulletZombiePass M kill i
          (Game.hitScan M (kill i) i g.zombieManager.zombies.length g)

/-- The zombie-player pass of `Game.checkCollisions`. -/
def Game.zombiePlayerPass (M : JsMath) (now deltaTime : ℚ) (zombies : List Zombie)
    (player : Player) : Player :=
  zombies.foldl (fun player zombie =>
    if zombie.alive = false then player
    else
      let dx := player.x - zombie.x
      let dy := player.y - zombie.y
      let distance := M.sqrt (dx * dx + dy * dy)
      if distance < player.radius + zombie.radius then
        player.takeDamage now (zombie.damage * deltaTime)
      else player) player

/-- The method `Game.checkCollisions`.  `kill i` holds the random outcomes for a kill by the
player bullet at index `i`, `pickup k` the perk draw for the power-up at position `k`. -/
def Game.checkCollisions (M : JsMath) (g : Game) (now : ℚ) (kill : ℕ → KillDraws)
    (pickup : ℕ → List Perk → List Perk) : Game :=
  -- Bullet vs Zombie collisions
  let g := Game.bulletZombiePass M kill g.bulletManager.bullets.length g
  -- Enemy bullet vs Player collisions
  let (_, bulletManager, player) := g.bulletManager.checkPlayerCollisions M now g.player
  let g : Game := { g with bulletManager := bulletManager, player := player }
  -- Zombie vs Player collisions
  let g : Game := { g with
    player := Game.zombiePlayerPass M now g.deltaTime g.zombieManager.zombies g.player }
  -- Player vs PowerUp collisions
  let (powerUpManager, player, _) := g.powerUpManager.checkCollisions M now g.player pickup
  { g with powerUpManager := powerUpManager, player := player }

/-- The method `Game.nextWave`; the two draws are those of `spawnBoss`. -/
def Game.nextWave (g : Game) (sideDraw coordDraw : ℚ) : Except JsError Game :=
  let g : Game := { g with wave := g.wave + 1 }
  let g : Game := { g with waveZombiesKilled := 0 }
  let g : Game := { g with waveZombiesTotal := ⌊(10 : ℚ) + (g.wave : ℚ) * (5/2)⌋ }
  -- Increase difficulty
  let g : Game := { g with zombieManager := g.zombieManager.increaseDifficulty }
  let g : Game := { g with powerUpManager := g.powerUpManager.adjustSpawnRate g.wave }
  -- Every 5 waves, spawn boss
  if g.wave % 5 = 0 then
    match g.zombieManager.spawnBoss g.canvas sideDraw coordDraw with
    | .error e => .error e
    | .ok zombieManager => .ok { g with zombieManager := zombieManager }
  else .ok g

/-- The method `Game.updateWaveProgression`. -/
def Game.updateWaveProgression (g : Game) (sideDraw coordDraw : ℚ) : Except JsError Game :=
  -- Check if wave is complete
  if (g.waveZombiesKilled : ℤ) ≥ g.waveZombiesTotal ∧ g.zombieManager.zombies.length = 0 then
    g.nextWave sideDraw coordDraw
  else .ok g

/-- The method `Game.restart`. -/
def Game.restart (g : Game) : Game :=
  { g with
    gameState := GameState.playing
    score := 0
    kills := 0
    wave := 1
    waveZombiesKilled := 0
    waveZombiesTotal := 10
    player := Player.new (g.canvas.width / 2) (g.canvas.height / 2)
    zombieManager := g.zombieManager.reset
    bulletManager := g.bulletManager.reset
    powerUpManager := g.powerUpManager.reset }

/-- The method `Game.handleShoot`; `rand` holds the spread draws of `Player.shoot`. -/
def Game.handleShoot (M : JsMath) (g : Game) (now : ℚ) (rand : ℕ → ℚ) : Game :=
  if g.gameState = GameState.playing then
    match g.player.shoot M now g.mouse.x g.mouse.y rand with
    | (some bullets, player) =>
      { g with player := player, bulletManager := g.bulletManager.addBullet bullets }
    | (none, player) => { g with player := player }
  else g

/-- The method `Game.showLevelUpScreen`: the game afterwards and the perks handed to
`uiManager.showLevelUpScreen`, the result of a `getAvailablePerks()` call of its own whose
draw has the outcome `shuffle`. -/
def Game.showLevelUpScreen (g : Game) (shuffle : List Perk → List Perk) : Game × List Perk :=
  let g : Game := { g with gameState := GameState.levelUp }
  let perks := Player.getAvailablePerks shuffle
  (g, perks)

/-- The method `Game.selectPerk(index)`. -/
def Game.selectPerk (g : Game) (index : ℕ) : Game :=
  let g : Game := { g with player := g.player.selectPerk index }
  { g with gameState := GameState.playing }

/-- The method `Game.pause`. -/
def Game.pause (g : Game) : Game :=
  { g with gameState := GameState.paused }

/-- The method `Game.resume`. -/
def Game.resume (g : Game) : Game :=
  { g with gameState := GameState.playing }

/-- The method `Game.togglePause`. -/
def Game.togglePause (g : Game) : Game :=
  if g.gameState = GameState.playing then g.pause
  else if g.gameState = GameState.paused then g.resume
  else g

/-- The state change of the method `Game.gameOver` (the rest writes to the DOM and to
`localStorage`). -/
def Game.gameOver (g : Game) : Game :=
  { g with gameState := GameState.gameOver }

/-- The key codes that `Game.handleKeyPress` tells apart; `digit i` is `Digit1` to `Digit5`
for `i` from 0 to 4. -/
inductive KeyCode where
  | keyP | keyR | digit (i : Fin 5) | escape | other
deriving DecidableEq

/-- The method `Game.handleKeyPress(e)` for `e.code = code`. -/
def Game.handleKeyPress (g : Game) (now : ℚ) (code : KeyCode) : Game :=
  match code with
  | .keyP => g.togglePause
  | .keyR =>
    if g.gameState = GameState.playing then { g with player := g.player.reload now } else g
  | .digit i =>
    if g.gameState = GameState.playing then
      let weaponIndex : ℤ := ((i : ℕ) : ℤ) + 1 - 1
      { g with player := g.player.switchWeapon weaponIndex }
    else g
  | .escape => if g.gameState = GameState.playing then g.pause else g
  | .other => g

/-- What one `Game.update` call reads from outside the `Game` object: the clock and the
outcomes of the random draws (`display` is the draw of `showLevelUpScreen`). -/
structure TickDraws where
  now : ℚ
  spawn : SpawnDraws
  kill : ℕ → KillDraws
  pickup : ℕ → List Perk → List Perk
  bossSide : ℚ
  bossCoord : ℚ
  display : List Perk → List Perk

/-- The method `Game.update`: the game afterwards and, when the level-up screen was shown,
the perks shown on it. -/
def Game.update (M : JsMath) (g : Game) (t : TickDraws) :
    Except JsError (Game × Option (List Perk)) :=
  -- Update player
  let g : Game := { g with player := g.player.update M t.now g.deltaTime g.keys g.mouse }
  -- Update managers
  match g.zombieManager.update M g.canvas t.now g.deltaTime g.player g.wave t.spawn with
  | .error e => .error e
  | .ok zombieManager =>
    let g : Game := { g with zombieManager := zombieManager }
    let g : Game := { g with bulletManager := g.bulletManager.update g.deltaTime g.canvas }
    let g : Game := { g with powerUpManager := g.powerUpManager.update g.deltaTime }
    -- Check collisions
    let g := g.checkCollisions M t.now t.kill t.pickup
    -- Update wave progression
    match g.updateWaveProgression t.bossSide t.bossCoord with
    | .error e => .error e
    | .ok g =>
      -- Check for level up
      let shown : Game × Option (List Perk) :=
        if g.player.levelUpPending then
          let (g, perks) := g.showLevelUpScreen t.display
          ({ g with player := { g.player with levelUpPending := false } }, some perks)
        else (g, none)
      -- Check game over
      if shown.1.player.health ≤ 0 then .ok (shown.1.gameOver, shown.2) else .ok shown

/-- The method `Game.gameLoop(currentTime)` up to the `render` call. -/
def Game.gameLoop (M : JsMath) (g : Game) (currentTime : ℚ) (t : TickDraws) :
    Except JsError (Game × Option (List Perk)) :=
  let g : Game := { g with deltaTime := min ((currentTime - g.lastTime) / 1000) (1/30) }
  let g : Game := { g with lastTime := currentTime }
  let g : Game := { g with frameCount := g.frameCount + 1 }
  if g.gameState = GameState.playing then g.update M t else .ok (g, none)

/-! ## Worked inputs -/

/-- A `Math` table that is exact at the arguments on which the worked results below depend:
`sqrt 0 = 0`, `sqrt 100 = 10`, `sqrt 10000 = 100`, `atan2 0 x = 0` for `x > 0`, `cos 0 = 1`
and `sin 0 = 0`. -/
def tableMath : JsMath :=
  { sqrt := fun q => if q = 10000 then 100 else if q = 100 then 10 else 0
    atan2 := fun _ _ => 0
    cos := fun _ => 1
    sin := fun _ => 0
    pi := 355/113 }

/-- The canvas at its largest size, 1600 by 900. -/
def fullCanvas : Canvas := { width := 1600, height := 900 }

/-- Draws for a tick in which nothing is spawned. -/
def idleSpawnDraws : SpawnDraws := { sideDraw := 0, coordDraw := 1/2, typeDraw := 1/2 }

/-- A zombie manager holding one fresh spitter 100 units to the right of the origin. -/
def spitterManager : ZombieManager :=
  { ZombieManager.new with zombies := [Zombie.new 100 0 ZombieType.spitter] }

/-- Random outcomes under which a kill drops nothing and a level-up offers the first three
catalog perks. -/
def quietKill : KillDraws :=
  { shuffle := fun perks => perks
    drop := { spawnDraw := 1/2, typeDraw := 1/2, offsetXDraw := 1/2, offsetYDraw := 1/2,
              floatDraw := 0 } }

/-- A fresh walker 100 units above the player of a new game on the full canvas. -/
def duelZombie : Zombie := Zombie.new 800 350 ZombieType.walker

/-- A pistol bullet (damage 25, radius 3) at height 350 and abscissa `bx`. -/
def duelBullet (bx : ℚ) : Bullet :=
  Bullet.new { x := bx, y := 350, vx := 600, vy := 0, damage := 25, radius := some 3,
               color := some "#ffff44", lifetime := some (2/3), type := some "pistol" }

/-- A new game on the full canvas holding `duelZombie` and `duelBullet bx`. -/
def duelGame (bx : ℚ) : Game :=
  { Game.new fullCanvas with
    zombieManager := { ZombieManager.new with zombies := [duelZombie] }
    bulletManager := { BulletManager.new with bullets := [duelBullet bx] } }

/-- A new player at the origin carrying a shield buff that ends at time 9000. -/
def shieldedPlayer : Player :=
  { Player.new 0 0 with
    buffs := { damage := none, speed := none, multishot := none,
               shield := some { multiplier := 1, endTime := 9000 } } }

/-- A new player at the origin holding the shotgun with an empty magazine. -/
def emptyShotgunPlayer : Player :=
  { Player.new 0 0 with
    currentWeaponIndex := 1
    weapons := Function.update initialWeapons 1 { initialWeapons 1 with ammo := Ammo.finite 0 } }

/-- A new player at the origin holding the (unlocked) shotgun with its full magazine. -/
def shotgunPlayer : Player :=
  { (Player.new 0 0).unlockWeapon 1 with currentWeaponIndex := 1 }

/-- Spread draws that are all one half: no pellet is deflected. -/
def centredSpread : ℕ → ℚ := fun _ => 1/2

/-- The predicate of C5: `0 <= health <= maxHealth` and `0 <= stamina <= maxStamina`. -/
def Player.vitalsInRange (p : Player) : Prop :=
  0 ≤ p.health ∧ p.health ≤ p.maxHealth ∧ 0 ≤ p.stamina ∧ p.stamina ≤ p.maxStamina

/-- The player states reachable from `new Player(x, y)` by the methods of `Player` and by
collecting power-ups, with non-negative time steps, damage, healing and XP amounts. -/
inductive Player.Reachable : Player → Prop
  | new (x y : ℚ) : Player.Reachable (Player.new x y)
  | update {p : Player} (M : JsMath) (now deltaTime : ℚ) (keys : Keys) (mouse : Mouse) :
      Player.Reachable p → 0 ≤ deltaTime →
      Player.Reachable (p.update M now deltaTime keys mouse)
  | shoot {p : Player} (M : JsMath) (now targetX targetY : ℚ) (rand : ℕ → ℚ) :
      Player.Reachable p → Player.Reachable (p.shoot M now targetX targetY rand).2
  | reload {p : Player} (now : ℚ) : Player.Reachable p → Player.Reachable (p.reload now)
  | switchWeapon {p : Player} (index : ℤ) :
      Player.Reachable p → Player.Reachable (p.switchWeapon index)
  | takeDamage {p : Player} (now damage : ℚ) :
      Player.Reachable p → 0 ≤ damage → Player.Reachable (p.takeDamage now damage)
  | gainXP {p : Player} (amount : ℚ) (shuffle : List Perk → List Perk) :
      Player.Reachable p → 0 ≤ amount → Player.Reachable (p.gainXP amount shuffle)
  | heal {p : Player} (amount : ℚ) :
      Player.Reachable p → 0 ≤ amount → Player.Reachable (p.heal amount)
  | collect {p : Player} (pu : PowerUp) (now : ℚ) (shuffle : List Perk → List Perk) :
      Player.Reachable p → Player.Reachable (pu.collect now p shuffle).2.2
  | selectPerk {p : Player} (index : ℕ) :
      Player.Reachable p → Player.Reachable (p.selectPerk index)

/-- The inductive strengthening of `vitalsInRange`: the rates and the dash cost that the
operations add or subtract are not negative. -/
def Player.vitalsInv (p : Player) : Prop :=
  p.vitalsInRange ∧ 0 ≤ p.healthRegenRate ∧ 0 ≤ p.dashCost ∧ 0 ≤ p.staminaRegenRate

/-- The "handle reloading" step of `Player.update`. -/
def Player.finishReload (p : Player) (now : ℚ) : Player :=
  if p.isReloading = true ∧ now - p.reloadStartTime ≥ p.currentWeapon.reloadTime then
    { p.setCurrentWeapon { p.currentWeapon with ammo := p.currentWeapon.maxAmmo } with
      isReloading := false }
  else p

/-- The "rotation to mouse" step of `Player.update`. -/
def Player.aim (M : JsMath) (p : Player) (mouse : Mouse) : Player :=
  { p with rotation := M.atan2 (mouse.y - p.y) (mouse.x - p.x) }

/-- The "stamina regeneration" step of `Player.update`. -/
def Player.regenStamina (p : Player) (deltaTime : ℚ) : Player :=
  if p.isDashing = false ∧ p.stamina < p.maxStamina then
    { p with stamina := min p.maxStamina (p.stamina + p.staminaRegenRate * deltaTime) }
  else p

/-- The "health regeneration" step of `Player.update`. -/
def Player.regenHealth (p : Player) (now deltaTime : ℚ) : Player :=
  if now - p.lastDamageTime > p.healthRegenDelay ∧ p.health < p.maxHealth then
    { p with health := min p.maxHealth (p.health + p.getModifiedHealthRegen * deltaTime) }
  else p

/-- The "update dash" step of `Player.update`. -/
def Player.updateDash (p : Player) (deltaTime : ℚ) : Player :=
  if p.isDashing then
    let p : Player := { p with dashTime := p.dashTime - deltaTime }
    if p.dashTime ≤ 0 then { p with isDashing := false } else p
  else p

/-- A new player who levels up on 100 XP, is offered the first three catalog perks and
selects the third, Damage Boost. -/
def boostedPlayer : Player :=
  ((Player.new 0 0).gainXP 100 (fun perks => perks)).selectPerk 2

/-- A new player who collects a multishot power-up at time 1000. -/
def multishotPlayer : Player :=
  ((PowerUp.new tableMath 0 0 PowerUpType.multishot 0).collect 1000 (Player.new 0 0)
    (fun perks => perks)).2.2

/-- The session states reachable from `new Game()` by restarts, wave advances, ticks, key
presses, the resume button, perk clicks, input events and the other session operations
modelled above. -/
inductive Game.Reachable : Game → Prop
  | new (canvas : Canvas) : Game.Reachable (Game.new canvas)
  | restart {g : Game} : Game.Reachable g → Game.Reachable g.restart
  | nextWave {g g1 : Game} (sideDraw coordDraw : ℚ) :
      Game.Reachable g → g.nextWave sideDraw coordDraw = .ok g1 → Game.Reachable g1
  | updateWaveProgression {g g1 : Game} (sideDraw coordDraw : ℚ) :
      Game.Reachable g → g.updateWaveProgression sideDraw coordDraw = .ok g1 →
      Game.Reachable g1
  | onZombieKilled {g : Game} (M : JsMath) (zombie : Zombie) (isCritical : Bool)
      (d : KillDraws) :
      Game.Reachable g → Game.Reachable (g.onZombieKilled M zombie isCritical d)
  | checkCollisions {g : Game} (M : JsMath) (now : ℚ) (kill : ℕ → KillDraws)
      (pickup : ℕ → List Perk → List Perk) :
      Game.Reachable g → Game.Reachable (g.checkCollisions M now kill pickup)
  | handleShoot {g : Game} (M : JsMath) (now : ℚ) (rand : ℕ → ℚ) :
      Game.Reachable g → Game.Reachable (g.handleShoot M now rand)
  | update {g : Game} {r : Game × Option (List Perk)} (M : JsMath) (t : TickDraws) :
      Game.Reachable g → g.update M t = .ok r → Game.Reachable r.1
  | gameLoop {g : Game} {r : Game × Option (List Perk)} (M : JsMath) (currentTime : ℚ)
      (t : TickDraws) :
      Game.Reachable g → g.gameLoop M currentTime t = .ok r → Game.Reachable r.1
  | handleKeyPress {g : Game} (now : ℚ) (code : KeyCode) :
      Game.Reachable g → Game.Reachable (g.handleKeyPress now code)
  | resume {g : Game} : Game.Reachable g → Game.Reachable g.resume
  | selectPerk {g : Game} (index : ℕ) :
      Game.Reachable g → Game.Reachable (g.selectPerk index)
  | input {g : Game} (keys : Keys) (mouse : Mouse) :
      Game.Reachable g → Game.Reachable { g with keys := keys, mouse := mouse }

/-- The session after the first wave advance of a new game on the full canvas. -/
def waveTwoGame : Game :=
  { Game.new fullCanvas with
    wave := 2
    waveZombiesKilled := 0
    waveZombiesTotal := 15
    zombieManager := ZombieManager.new.increaseDifficulty
    powerUpManager := PowerUpManager.new.adjustSpawnRate 2 }

/-- The loop of `getRandomPowerUpType` on its own: `none` when the loop ends without
returning, which is where the method falls back to `'health'`. -/
def PowerUpManager.pickInLoop : List (PowerUpType × ℚ) → ℚ → Option PowerUpType
  | [], _ => none
  | (type, weight) :: rest, random =>
    let random := random - weight
    if random ≤ 0 then some type else PowerUpManager.pickInLoop rest random

/-- A session in wave 4 (20 required kills) on the full canvas, otherwise new. -/
def waveFourGame : Game :=
  { Game.new fullCanvas with wave := 4, waveZombiesTotal := 20 }

/-- The walker `duelZombie` after a hit of 50: health 0, not alive. -/
def deadWalker : Zombie := duelZombie.takeDamage 50

/-- A new game on the full canvas with ten kills counted in wave 1 and a killed walker still
in the zombie array, as after the `checkCollisions` call that killed it. -/
def justClearedGame : Game :=
  { Game.new fullCanvas with
    waveZombiesKilled := 10
    zombieManager := { ZombieManager.new with zombies := [deadWalker] } }

/-- The movement intent `(moveX, moveY)` that `handleMovement` reads from the keys, before the
diagonal normalisation. -/
def Keys.rawMove (keys : Keys) : ℚ × ℚ :=
  let moveX : ℚ := 0
  let moveY : ℚ := 0
  let moveY := if keys.keyW || keys.arrowUp then moveY - 1 else moveY
  let moveY := if keys.keyS || keys.arrowDown then moveY + 1 else moveY
  let moveX := if keys.keyA || keys.arrowLeft then moveX - 1 else moveX
  let moveX := if keys.keyD || keys.arrowRight then moveX + 1 else moveX
  (moveX, moveY)

/-- The movement intent `(moveX, moveY)` of `handleMovement` after the "normalize diagonal
movement" step. -/
def Keys.move (keys : Keys) : ℚ × ℚ :=
  let diagonal : Bool := decide (keys.rawMove.1 ≠ 0 ∧ keys.rawMove.2 ≠ 0)
  (if diagonal then keys.rawMove.1 * (707/1000) else keys.rawMove.1,
   if diagonal then keys.rawMove.2 * (707/1000) else keys.rawMove.2)

/-- The "handle dash" step of `handleMovement`. -/
def Player.startDash (p : Player) (keys : Keys) : Player :=
  if keys.space = true ∧ p.isDashing = false ∧ p.stamina ≥ p.dashCost then
    { p with isDashing := true, dashTime := p.dashDuration, stamina := p.stamina - p.dashCost }
  else p

/-- The value `currentSpeed` of `handleMovement`. -/
def Player.currentSpeed (p : Player) : ℚ :=
  if p.isDashing then p.dashSpeed else p.getModifiedSpeed

/-- The fields that the constructor sets and no method assigns have the constructor's
values. -/
def Player.tuned (p : Player) : Prop :=
  p.radius = 20 ∧ p.healthRegenDelay = 5000 ∧ p.dashCost = 30 ∧ p.dashSpeed = 500 ∧
  p.dashDuration = 1/5 ∧ p.staminaRegenRate = 25

/-- The keys with nothing held. -/
def noKeys : Keys :=
  { keyW := false, arrowUp := false, keyS := false, arrowDown := false, keyA := false,
    arrowLeft := false, keyD := false, arrowRight := false, space := false }

/-- Only the D key held: movement to the right. -/
def rightKeys : Keys := { noKeys with keyD := true }

/-- Only the space bar held: a dash request without a movement key. -/
def dashKeys : Keys := { noKeys with space := true }

/-- The W and D keys held: diagonal movement. -/
def diagonalKeys : Keys := { noKeys with keyW := true, keyD := true }

/-- A new player at the origin after one 1/30 s movement step to the right. -/
def movedPlayer : Player := (Player.new 0 0).handleMovement (1/30) rightKeys

/-- A mouse position 100 units to the right of the origin. -/
def rightMouse : Mouse := { x := 100, y := 0, pressed := false }

/-- A new player who levels up on 100 XP, is offered the last three catalog perks (the draw
reverses the catalog), selects the third of them, Health Regen, and is then hit for 25 at time
1000. -/
def regenPlayer : Player :=
  (((Player.new 0 0).gainXP 100 List.reverse).selectPerk 2).takeDamage 1000 25

/-- Successive `Bullet.update` calls on one bullet, one per tick length in `dts`. -/
def Bullet.run (b : Bullet) (canvas : Canvas) (dts : List ℚ) : Bullet :=
  dts.foldl (fun b deltaTime => b.update deltaTime canvas) b

/-- The record of a flamethrower pellet (range 150, lifetime 150/600) fired to the right from
the origin. -/
def flameData : BulletData :=
  { x := 0, y := 0, vx := 600, vy := 0, damage := 5, radius := some 3,
    color := some "#ffff44", lifetime := some (150/600), type := some "flamethrower" }

/-- The number of zombies of an array whose `alive` flag is `false`. -/
def deadCount (zombies : List Zombie) : ℕ := zombies.countP (fun z => !z.alive)

/-- One `Game.checkCollisions` call of a session: the bullet manager as it stands when the
call is made (bullets are fired and moved between calls), the clock, and the random outcomes
the call consumes. -/
structure CollisionCall where
  bulletManager : BulletManager
  now : ℚ
  kill : ℕ → KillDraws
  pickup : ℕ → List Perk → List Perk

/-- One `Game.checkCollisions` call on the bullet manager of the call. -/
def Game.collide (M : JsMath) (g : Game) (c : CollisionCall) : Game :=
  Game.checkCollisions M { g with bulletManager := c.bulletManager } c.now c.kill c.pickup

/-- A sequence of `Game.checkCollisions` calls on the same zombie array. -/
def Game.runCollisions (M : JsMath) (g : Game) (calls : List CollisionCall) : Game :=
  calls.foldl (Game.collide M) g

/-- The kill ledger between an earlier state `g` and a later state `g1`: the zombie array has
kept its length; a zombie that was not alive is exactly as it was; a zombie that was alive
with positive health is now alive exactly when its health is positive; and each of the two
kill counters has grown by the number of zombies that were alive and are no longer. -/
def Game.KillLedger (g g1 : Game) : Prop :=
  g1.zombieManager.zombies.length = g.zombieManager.zombies.length ∧
  (∀ (j : ℕ) (z : Zombie), g.zombieManager.zombies[j]? = some z → z.alive = false →
    g1.zombieManager.zombies[j]? = some z) ∧
  (∀ (j : ℕ) (z z1 : Zombie), g.zombieManager.zombies[j]? = some z →
    g1.zombieManager.zombies[j]? = some z1 → z.alive = true →
    (z1.alive = false → z1.health ≤ 0) ∧ (0 < z.health → z1.alive = true → 0 < z1.health)) ∧
  g1.kills + deadCount g.zombieManager.zombies
    = g.kills + deadCount g1.zombieManager.zombies ∧
  g1.waveZombiesKilled + deadCount g.zombieManager.zombies
    = g.waveZombiesKilled + deadCount g1.zombieManager.zombies

/-- A new game on the full canvas holding `duelZombie` (a walker, health 50) and no bullet. -/
def walkerGame : Game :=
  { Game.new fullCanvas with zombieManager := { ZombieManager.new with zombies := [duelZombie] } }

/-- A `Game.checkCollisions` call at time 1000 with one pistol bullet (damage 25) 10 units
off the centre of `duelZombie`: a hit that is not critical. -/
def pistolCall : CollisionCall :=
  { bulletManager := { BulletManager.new with bullets := [duelBullet 810] }
    now := 1000
    kill := fun _ => quietKill
    pickup := fun _ perks => perks }

/-- The game `duelGame 810` after its walker has taken one pistol hit (health 25). -/
def hurtGame : Game :=
  { duelGame 810 with
    zombieManager := { ZombieManager.new with zombies := [duelZombie.takeDamage 25] } }

/-- The relation between a player before and after an operation that keeps the weapon slot in
hand and locks no weapon. -/
def Player.keepsArmed (p q : Player) : Prop :=
  q.currentWeaponIndex = p.currentWeaponIndex ∧
  ∀ i : Fin 5, (p.weapons i).unlocked = true → (q.weapons i).unlocked = true

/-- A health power-up lying at the origin, not yet collected. -/
def healthPack : PowerUp := PowerUp.new tableMath 0 0 PowerUpType.health 0

/-- A new player at the origin who has been hit for 80 at time 0 (health 20). -/
def woundedPlayer : Player := (Player.new 0 0).takeDamage 0 80

/-- A player holding the unlocked shotgun with one shell spent (7 of 8), who started to
reload at time 1000. -/
def reloadingPlayer : Player :=
  { shotgunPlayer with
    weapons := Function.update shotgunPlayer.weapons 1
      { shotgunPlayer.weapons 1 with ammo := Ammo.finite 7 }
    lastShotTime := 900
    isReloading := true
    reloadStartTime := 1000 }

/-- The predicate of C29: `0 <= xp < xpToNextLevel`. -/
def Player.xpInRange (p : Player) : Prop :=
  0 ≤ p.xp ∧ p.xp < p.xpToNextLevel

/-- The inductive strengthening of `xpInRange`: the threshold is at least 100, and at least
120 from level 2 on. -/
def Player.xpInv (p : Player) : Prop :=
  p.xpInRange ∧ 100 ≤ p.xpToNextLevel ∧ (2 ≤ p.level → 120 ≤ p.xpToNextLevel)

/-- A new player who has killed three brutes, a spitter and a runner:
`25 + 25 + 25 + 12 + 8 = 95` XP at level 1. -/
def veteranPlayer : Player :=
  (((((Player.new 0 0).gainXP 25 id).gainXP 25 id).gainXP 25 id).gainXP 12 id).gainXP 8 id

/-- A new player after `n` calls of `Player.levelUp` (every perk draw keeps the catalog
order). -/
def Player.afterLevelUps : ℕ → Player
  | 0 => Player.new 0 0
  | n + 1 => (Player.afterLevelUps n).levelUp id

/-- The record of a spitter projectile fired to the right from the origin. -/
def poisonData : BulletData :=
  { x := 0, y := 0, vx := 200, vy := 0, damage := 10, radius := some 6,
    color := some "#44ff44", lifetime := some 3, type := some "poison" }

/-- A bullet record that leaves `radius`, `color` and `type` to the defaults. -/
def bareData : BulletData :=
  { x := 5, y := 7, vx := 600, vy := 0, damage := 25, radius := none, color := none,
    lifetime := some 1, type := none }

/-- A spitter projectile (radius 6, type `poison`). -/
def staleBullet : Bullet := Bullet.new poisonData

/-- A bullet manager whose pool holds the recycled `staleBullet`. -/
def stalePool : BulletManager := BulletManager.new.recycleBullet staleBullet

/-- The game after the "update player" and "update managers" steps of `Game.update`, given
the zombie manager `zombieManager` that `ZombieManager.update` returned. -/
def Game.entitiesUpdated (M : JsMath) (g : Game) (t : TickDraws)
    (zombieManager : ZombieManager) : Game :=
  { g with
    player := g.player.update M t.now g.deltaTime g.keys g.mouse
    zombieManager := zombieManager
    bulletManager := g.bulletManager.update g.deltaTime g.canvas
    powerUpManager := g.powerUpManager.update g.deltaTime }

/-- The "check for level up" and "check game over" steps that end `Game.update`. -/
def Game.closeTick (g : Game) (display : List Perk → List Perk) : Game × Option (List Perk) :=
  let shown : Game × Option (List Perk) :=
    if g.player.levelUpPending then
      let (g, perks) := g.showLevelUpScreen display
      ({ g with player := { g.player with levelUpPending := false } }, some perks)
    else (g, none)
  if shown.1.player.health ≤ 0 then (shown.1.gameOver, shown.2) else shown

/-- The wave director's bookkeeping: in wave 1 the wave needs 10 kills and a kill drops a
power-up with chance 5%; from wave 2 on the wave needs `floor(10 + wave * 2.5)` kills and the
chance is `min(0.15, 0.05 + wave * 0.01)`; at most 10 power-ups are kept. -/
def Game.directorInv (g : Game) : Prop :=
  ((g.wave = 1 ∧ g.waveZombiesTotal = 10 ∧ g.powerUpManager.spawnRate = 1/20) ∨
    (2 ≤ g.wave ∧ g.waveZombiesTotal = ⌊(10 : ℚ) + (g.wave : ℚ) * (5/2)⌋ ∧
      g.powerUpManager.spawnRate = min (3/20) (1/20 + (g.wave : ℚ) * (1/100)))) ∧
  g.powerUpManager.maxPowerUps = 10

/-- A `Math` table that is exact at the arguments on which the worked tick below depends:
`sqrt 0 = 0`, `sqrt 100 = 10`, `sqrt 9604 = 98`, `sqrt 10000 = 100`, `atan2 0 100 = 0`. -/
def tickMath : JsMath :=
  { sqrt := fun q =>
      if q = 10000 then 100 else if q = 9604 then 98 else if q = 100 then 10 else 0
    atan2 := fun _ _ => 0
    cos := fun _ => 1
    sin := fun _ => 0
    pi := 355/113 }

/-- A pistol bullet flying to the right, 20 units left of the point (800, 352). -/
def standBullet : Bullet :=
  Bullet.new { x := 780, y := 352, vx := 600, vy := 0, damage := 25, radius := some 3,
               color := some "#ffff44", lifetime := some (2/3), type := some "pistol" }

/-- A level-1 player at the centre of the full canvas with the given health and 95 XP, last
hit at time 4000. -/
def standPlayer (health : ℚ) : Player :=
  { Player.new 800 450 with health := health, xp := 95, lastDamageTime := 4000 }

/-- The walker that touches the player of `standGame`, 10 units to the right. -/
def nearWalker : Zombie := Zombie.new 810 450 ZombieType.walker

/-- A session in wave 1 on the full canvas: `standPlayer health` aiming to the right,
`nearWalker` in contact with the player, a second fresh walker 100 units above the player, and
`standBullet` in flight. -/
def standGame (health : ℚ) : Game :=
  { Game.new fullCanvas with
    mouse := { x := 900, y := 450, pressed := false }
    player := standPlayer health
    zombieManager := { ZombieManager.new with
      zombies := [nearWalker, Zombie.new 800 350 ZombieType.walker] }
    bulletManager := { BulletManager.new with bullets := [standBullet] } }

/-- The clock and the draws of the worked tick: time 5000, nothing spawned, no drop, the
level-up draw keeps the catalog order and the draw of the level-up screen reverses it. -/
def standDraws : TickDraws :=
  { now := 5000
    spawn := idleSpawnDraws
    kill := fun _ => quietKill
    pickup := fun _ perks => perks
    bossSide := 0
    bossCoord := 1/2
    display := List.reverse }

/-- The second walker of `standGame` after the worked tick: it has walked 2 units towards the
player and has been killed by a critical hit. -/
def shotWalker : Zombie :=
  (Zombie.new 800 352 ZombieType.walker).takeDamage 50

/-- The bullet `standBullet` after the bullet update of the worked tick: moved to
(800, 352). -/
def flyingBullet : Bullet :=
  { standBullet with
    x := 800
    trail := [(800, 352)]
    lifetime := 2/3 - 1/30 }

/-- The bullet `flyingBullet` after its hit: spent. -/
def spentBullet : Bullet := { flyingBullet with active := false }

/-- The session `standGame health` in the worked tick after the "update player" and "update
managers" steps. -/
def standGameMoved (health : ℚ) : Game :=
  { standGame health with
    deltaTime := 1/30
    lastTime := 5000
    frameCount := 1
    zombieManager := { ZombieManager.new with
      spawnTimer := 100/3
      zombies := [nearWalker, Zombie.new 800 352 ZombieType.walker] }
    bulletManager := { BulletManager.new with bullets := [flyingBullet] } }

/-- The player `standPlayer health` after the 5 XP of a walker: level 2, offered the first
three catalog perks. -/
def leveledPlayer (health : ℚ) : Player :=
  { standPlayer health with
    xp := 0
    level := 2
    xpToNextLevel := 120
    levelUpPending := true
    availablePerks := some [Perk.healthBoost, Perk.speedBoost, Perk.damageBoost] }

/-- The session `standGame health` after the worked tick, before the closing checks: the
shot walker is dead and still in the array, the kill is rewarded (critical: 20 points), the
player has levelled up on the 5 XP and has taken the contact damage `15 * (1/30)`. -/
def standGameHit (health : ℚ) : Game :=
  { standGame health with
    deltaTime := 1/30
    lastTime := 5000
    frameCount := 1
    score := 20
    kills := 1
    waveZombiesKilled := 1
    player := (leveledPlayer health).takeDamage 5000 (1/2)
    zombieManager := { ZombieManager.new with
      spawnTimer := 100/3
      zombies := [nearWalker, shotWalker] }
    bulletManager := { BulletManager.new with bullets := [spentBullet] } }

/-- The session `standGame health` at the start of `Game.update` in the worked tick:
`gameLoop(5000)` has clamped the 5 s since the last frame to `deltaTime = 1/30`. -/
def standGameTimed (health : ℚ) : Game :=
  { standGame health with deltaTime := 1/30, lastTime := 5000, frameCount := 1 }

/-- The session `standGame health` at the end of the worked tick, in the phase `state`: the
level-up screen has been shown and the pending flag cleared. -/
def standGameEnd (health : ℚ) (state : GameState) : Game :=
  { standGameHit health with
    gameState := state
    player := { (standGameHit health).player with levelUpPending := false } }

/-- The perks on the level-up screen of the worked tick: the first three of the reversed
catalog. -/
def standShown : List Perk := [Perk.unlockRifle, Perk.unlockShotgun, Perk.healthRegen]

/-- A power-up manager that holds ten uncollected health packs. -/
def fullManager : PowerUpManager :=
  { PowerUpManager.new with powerUps := List.replicate 10 healthPack }

/-! ## Zombie update: the spitter attack -/

/-- A live spitter inside its range whose cooldown has expired makes `Zombie.update` throw
when the third argument is the zombie manager. -/
theorem Zombie.update_spitter_throws (M : JsMath) (z : Zombie) (now deltaTime : ℚ)
    (player : Player) (r t c : ℚ) (halive : z.alive = true)
    (htype : z.type = ZombieType.spitter) (hrange : z.range = some r)
    (hdist : M.sqrt ((player.x - z.x) * (player.x - z.x) + (player.y - z.y) * (player.y - z.y))
      ≤ r)
    (hlast : z.lastShotTime = some t) (hcd : z.shootCooldown = some c) (hcool : now - t ≥ c) :
    z.update M now deltaTime player ManagerObject.zombieManager
      = .error (.typeError "bulletManager.addEnemyBullet is not a function") := by
  unfold Zombie.update
  simp only [halive, Bool.true_eq_false, if_false]
  split_ifs with h1 h2 h3 h4 <;>
    simp_all [Zombie.handleSpitterBehavior, ManagerObject.addEnemyBullet,
      Zombie.cooldownElapsed, Zombie.withinRange]

/-- The only exception `Zombie.update` throws on the zombie manager is the missing-method
`TypeError`. -/
theorem Zombie.update_error_eq (M : JsMath) (z : Zombie) (now deltaTime : ℚ)
    (player : Player) (e : JsError)
    (h : z.update M now deltaTime player ManagerObject.zombieManager = .error e) :
    e = .typeError "bulletManager.addEnemyBullet is not a function" := by
  simp only [Zombie.update, Zombie.handleSpitterBehavior, ManagerObject.addEnemyBullet] at h
  split_ifs at h <;> (injection h with h; exact h.symm)

/-- The only exception the zombie loop throws is the missing-method `TypeError`. -/
theorem ZombieManager.updateZombies_error_eq (M : JsMath) (now deltaTime : ℚ)
    (player : Player) (zs : List Zombie) (e : JsError)
    (h : ZombieManager.updateZombies M now deltaTime player zs = .error e) :
    e = .typeError "bulletManager.addEnemyBullet is not a function" := by
  induction zs with
  | nil => simp [ZombieManager.updateZombies] at h
  | cons z rest ih =>
    unfold ZombieManager.updateZombies at h
    split at h
    · next e1 h1 =>
      injection h with h
      subst h
      exact ih h1
    · next rest1 h1 =>
      split at h
      · next e2 h2 =>
        injection h with h
        subst h
        exact Zombie.update_error_eq M z now deltaTime player _ h2
      · next z1 o h2 => simp at h

/-- The zombie loop throws as soon as the array holds one live spitter inside its range whose
cooldown has expired. -/
theorem ZombieManager.updateZombies_throws (M : JsMath) (now deltaTime : ℚ)
    (player : Player) (zs : List Zombie) (z : Zombie) (r t c : ℚ) (hmem : z ∈ zs)
    (halive : z.alive = true) (htype : z.type = ZombieType.spitter) (hrange : z.range = some r)
    (hdist : M.sqrt ((player.x - z.x) * (player.x - z.x) + (player.y - z.y) * (player.y - z.y))
      ≤ r)
    (hlast : z.lastShotTime = some t) (hcd : z.shootCooldown = some c) (hcool : now - t ≥ c) :
    ZombieManager.updateZombies M now deltaTime player zs
      = .error (.typeError "bulletManager.addEnemyBullet is not a function") := by
  induction zs with
  | nil => simp at hmem
  | cons z0 rest ih =>
    unfold ZombieManager.updateZombies
    split
    · next e1 h1 =>
      rw [ZombieManager.updateZombies_error_eq M now deltaTime player rest e1 h1]
    · next rest1 h1 =>
      rcases List.mem_cons.mp hmem with h0 | hr
      · subst h0
        rw [Zombie.update_spitter_throws M z now deltaTime player r t c halive htype hrange
          hdist hlast hcd hcool]
      · rw [ih hr] at h1
        simp at h1

/-! ## C1 -/

/-- C1 (evaluation at the failing input): one tick of `ZombieManager.update` with a live
spitter 100 units from the player and its 2000 ms cooldown expired does not complete; it
throws the `TypeError` of calling the missing method `addEnemyBullet` on the zombie manager,
so no enemy bullet is produced and `lastShotTime` is not set. -/
theorem C1_spitter_tick_throws :
    ZombieManager.update tableMath spitterManager fullCanvas 5000 (1/60) (Player.new 0 0) 5
        idleSpawnDraws
      = .error (.typeError "bulletManager.addEnemyBullet is not a function") := by
  have hz : ZombieManager.updateZombies tableMath 5000 (1/60) (Player.new 0 0)
      [Zombie.new 100 0 ZombieType.spitter]
      = .error (.typeError "bulletManager.addEnemyBullet is not a function") :=
    ZombieManager.updateZombies_throws tableMath 5000 (1/60) (Player.new 0 0) _
      (Zombie.new 100 0 ZombieType.spitter) 300 0 2000 (by simp) rfl rfl rfl
      (by norm_num [tableMath, Player.new, Zombie.new]) rfl rfl (by norm_num)
  have hspawn : ¬ ((0 : ℚ) + 1 / 60 * 1000 ≥ 2000 ∧ ((1 : ℕ) : ℚ) < 50) := by norm_num
  simp only [ZombieManager.update, spitterManager, ZombieManager.new, List.length_singleton,
    hspawn, if_false, hz]

/-! ## The bullet-zombie pass of `Game.checkCollisions` -/

/-- A kill leaves the zombie manager as it is. -/
theorem Game.onZombieKilled_zombieManager (M : JsMath) (g : Game) (zombie : Zombie)
    (isCritical : Bool) (d : KillDraws) :
    (g.onZombieKilled M zombie isCritical d).zombieManager = g.zombieManager := rfl

/-- The inner loop over the zombie indices below `k` leaves every zombie at an index `j ≥ k`
untouched. -/
theorem Game.hitScan_zombies_above (M : JsMath) (d : KillDraws) (i : ℕ) :
    ∀ (k : ℕ) (g : Game) (j : ℕ), k ≤ j →
      (Game.hitScan M d i k g).zombieManager.zombies[j]? = g.zombieManager.zombies[j]? := by
  intro k
  induction k with
  | zero => intro g j _; rfl
  | succ k ih =>
    intro g j hkj
    have hk : k ≤ j := by omega
    have hne : k ≠ j := by omega
    unfold Game.hitScan
    split
    · next bullet zombie hb hz =>
      by_cases h1 : zombie.alive = false
      · rw [if_pos h1]
        exact ih g j hk
      · rw [if_neg h1]
        dsimp only
        split_ifs <;> first
          | exact ih g j hk
          | simp [Game.onZombieKilled_zombieManager, List.getElem?_set_ne hne]
    · rfl

/-- One iteration of the inner loop on a live zombie: a hit damages the zombie, deactivates
the bullet, rewards a kill and ends the loop; a miss goes on with the next lower index. -/
theorem Game.hitScan_succ (M : JsMath) (d : KillDraws) (i j : ℕ) (g : Game) (bullet : Bullet)
    (zombie : Zombie) (hb : g.bulletManager.bullets[i]? = some bullet)
    (hz : g.zombieManager.zombies[j]? = some zombie) (halive : zombie.alive = true)
    (dist : ℚ)
    (hdist : dist = M.sqrt ((bullet.x - zombie.x) * (bullet.x - zombie.x)
      + (bullet.y - zombie.y) * (bullet.y - zombie.y))) :
    Game.hitScan M d i (j + 1) g =
      if dist < bullet.radius + zombie.radius then
        (let isCritical : Bool := decide (dist < zombie.radius * (3/10))
         let damage := if isCritical then bullet.damage * 2 else bullet.damage
         let zombie1 := zombie.takeDamage damage
         let g1 : Game := { g with
            zombieManager := { g.zombieManager with
              zombies := g.zombieManager.zombies.set j zombie1 }
            bulletManager := { g.bulletManager with
              bullets := g.bulletManager.bullets.set i { bullet with active := false } } }
         if zombie1.alive = false then g1.onZombieKilled M zombie1 isCritical d else g1)
      else Game.hitScan M d i j g := by
  subst hdist
  rw [Game.hitScan]
  simp only [hb, hz, halive, Bool.true_eq_false, if_false]

/-! ## C3 -/

/-- C3: in the bullet-zombie pass of `Game.checkCollisions`, when the player bullet at index
`i` is tested against the live zombie at index `j` and their centre distance is `dist`, the
zombie becomes `zombie.takeDamage (2 * bullet.damage)` if `dist` is below both the radius sum
and `0.3 * zombie.radius`, `zombie.takeDamage (1 * bullet.damage)` if `dist` is below the
radius sum and at least `0.3 * zombie.radius`, and stays as it was (no damage applied) if
`dist` is at least the radius sum. -/
theorem C3_hit_damage (M : JsMath) (d : KillDraws) (i j : ℕ) (g : Game) (bullet : Bullet)
    (zombie : Zombie) (hb : g.bulletManager.bullets[i]? = some bullet)
    (hz : g.zombieManager.zombies[j]? = some zombie) (halive : zombie.alive = true) :
    let dist := M.sqrt ((bullet.x - zombie.x) * (bullet.x - zombie.x)
      + (bullet.y - zombie.y) * (bullet.y - zombie.y))
    let after := (Game.hitScan M d i (j + 1) g).zombieManager.zombies[j]?
    (dist < bullet.radius + zombie.radius → dist < zombie.radius * (3/10) →
        after = some (zombie.takeDamage (2 * bullet.damage))) ∧
    (dist < bullet.radius + zombie.radius → dist ≥ zombie.radius * (3/10) →
        after = some (zombie.takeDamage (1 * bullet.damage))) ∧
    (dist ≥ bullet.radius + zombie.radius → after = some zombie) := by
  intro dist after
  have hlen : j < g.zombieManager.zombies.length := by
    rcases Nat.lt_or_ge j g.zombieManager.zombies.length with h | h
    · exact h
    · rw [List.getElem?_eq_none h] at hz
      simp at hz
  have hstep := Game.hitScan_succ M d i j g bullet zombie hb hz halive dist rfl
  refine ⟨?_, ?_, ?_⟩
  · intro hhit hcrit
    simp only [after, hstep, if_pos hhit, decide_eq_true hcrit, if_true]
    split_ifs <;>
      simp [Game.onZombieKilled_zombieManager, List.getElem?_set_self, hlen, mul_comm]
  · intro hhit hcrit
    have hnc : ¬ dist < zombie.radius * (3/10) := not_lt.mpr hcrit
    simp only [after, hstep, if_pos hhit, decide_eq_false hnc, Bool.false_eq_true, if_false]
    split_ifs <;>
      simp [Game.onZombieKilled_zombieManager, List.getElem?_set_self, hlen]
  · intro hmiss
    have hnh : ¬ dist < bullet.radius + zombie.radius := not_lt.mpr hmiss
    simp only [after, hstep, if_neg hnh]
    rw [Game.hitScan_zombies_above M d i j g j le_rfl, hz]

/-- C3 (worked inputs): a pistol bullet at the centre of a fresh walker passes `2 * 25` to
`takeDamage`, one 10 units off the centre passes `1 * 25`, and one 100 units away leaves the
walker as it was. -/
theorem C3_hit_damage_witness :
    ((Game.hitScan tableMath quietKill 0 1 (duelGame 800)).zombieManager.zombies[0]?
        = some (duelZombie.takeDamage (2 * 25))) ∧
    ((Game.hitScan tableMath quietKill 0 1 (duelGame 810)).zombieManager.zombies[0]?
        = some (duelZombie.takeDamage (1 * 25))) ∧
    ((Game.hitScan tableMath quietKill 0 1 (duelGame 900)).zombieManager.zombies[0]?
        = some duelZombie) :=
  ⟨(C3_hit_damage tableMath quietKill 0 0 (duelGame 800) (duelBullet 800) duelZombie
      rfl rfl rfl).1
      (by norm_num [tableMath, duelBullet, duelZombie, Bullet.new, Zombie.new, numOr])
      (by norm_num [tableMath, duelBullet, duelZombie, Bullet.new, Zombie.new, numOr]),
   (C3_hit_damage tableMath quietKill 0 0 (duelGame 810) (duelBullet 810) duelZombie
      rfl rfl rfl).2.1
      (by norm_num [tableMath, duelBullet, duelZombie, Bullet.new, Zombie.new, numOr])
      (by norm_num [tableMath, duelBullet, duelZombie, Bullet.new, Zombie.new, numOr]),
   (C3_hit_damage tableMath quietKill 0 0 (duelGame 900) (duelBullet 900) duelZombie
      rfl rfl rfl).2.2
      (by norm_num [tableMath, duelBullet, duelZombie, Bullet.new, Zombie.new, numOr])⟩

/-! ## C2 -/

/-- Damage changes neither the score value nor the XP value of a zombie. -/
theorem Zombie.takeDamage_rewards (z : Zombie) (damage : ℚ) :
    (z.takeDamage damage).scoreValue = z.scoreValue ∧
    (z.takeDamage damage).xpValue = z.xpValue := by
  simp only [Zombie.takeDamage]
  split_ifs <;> exact ⟨rfl, rfl⟩

/-- C2 (as amended): when the player bullet at index `i` hits the live zombie at index `j`
in the bullet-zombie pass of `Game.checkCollisions` and the damage kills it, the score grows
by `2 * scoreValue` for a critical hit (centre distance below `0.3 * zombie.radius`) and by
`1 * scoreValue` otherwise, and the player receives `gainXP (1 * xpValue)` in both cases. -/
theorem C2_kill_reward (M : JsMath) (d : KillDraws) (i j : ℕ) (g : Game) (bullet : Bullet)
    (zombie : Zombie) (dist : ℚ) (hb : g.bulletManager.bullets[i]? = some bullet)
    (hz : g.zombieManager.zombies[j]? = some zombie) (halive : zombie.alive = true)
    (hdist : dist = M.sqrt ((bullet.x - zombie.x) * (bullet.x - zombie.x)
      + (bullet.y - zombie.y) * (bullet.y - zombie.y)))
    (hhit : dist < bullet.radius + zombie.radius)
    (hkill : (zombie.takeDamage
      (if dist < zombie.radius * (3/10) then bullet.damage * 2 else bullet.damage)).alive
        = false) :
    (Game.hitScan M d i (j + 1) g).score
        = g.score + (if dist < zombie.radius * (3/10) then 2 * zombie.scoreValue
                     else 1 * zombie.scoreValue) ∧
    (Game.hitScan M d i (j + 1) g).player = g.player.gainXP (1 * zombie.xpValue) d.shuffle := by
  rw [Game.hitScan_succ M d i j g bullet zombie hb hz halive dist hdist, if_pos hhit]
  by_cases hcrit : dist < zombie.radius * (3/10)
  · simp only [hcrit, if_true] at hkill
    simp [hcrit, hkill, Game.onZombieKilled, (Zombie.takeDamage_rewards zombie _).1,
      (Zombie.takeDamage_rewards zombie _).2, mul_comm]
  · simp only [hcrit, if_false] at hkill
    simp [hcrit, hkill, Game.onZombieKilled, (Zombie.takeDamage_rewards zombie _).1,
      (Zombie.takeDamage_rewards zombie _).2]

/-- C2 (worked input for the amended claim): the pistol bullet at the centre of a fresh walker
is a critical hit that kills it; the score grows by `2 * scoreValue` and the player receives
`gainXP (1 * xpValue)`. -/
theorem C2_kill_reward_witness :
    (Game.hitScan tableMath quietKill 0 1 (duelGame 800)).score
        = (duelGame 800).score + (if (0 : ℚ) < duelZombie.radius * (3/10)
            then 2 * duelZombie.scoreValue else 1 * duelZombie.scoreValue) ∧
    (Game.hitScan tableMath quietKill 0 1 (duelGame 800)).player
        = (duelGame 800).player.gainXP (1 * duelZombie.xpValue) quietKill.shuffle :=
  C2_kill_reward tableMath quietKill 0 0 (duelGame 800) (duelBullet 800) duelZombie 0
    rfl rfl rfl
    (by norm_num [tableMath, duelBullet, duelZombie, Bullet.new, Zombie.new])
    (by norm_num [duelBullet, duelZombie, Bullet.new, Zombie.new, numOr])
    (by norm_num [duelBullet, duelZombie, Bullet.new, Zombie.new, numOr, Zombie.takeDamage])

/-- C2 (counterexample): in `Game.checkCollisions` on a new game holding a fresh walker
(score value 10, XP value 5) and a pistol bullet at its centre, the hit is critical and kills
the walker; the score gained is `2 * 10`, but the XP granted is `5`, not `2 * 5`. -/
theorem C2_counterexample :
    ((Game.checkCollisions tableMath (duelGame 800) 1000 (fun _ => quietKill)
        (fun _ perks => perks)).zombieManager.zombies.map (fun z => z.alive) = [false]) ∧
    ((Game.checkCollisions tableMath (duelGame 800) 1000 (fun _ => quietKill)
        (fun _ perks => perks)).score = (duelGame 800).score + 2 * duelZombie.scoreValue) ∧
    ((Game.checkCollisions tableMath (duelGame 800) 1000 (fun _ => quietKill)
        (fun _ perks => perks)).player.xp = (duelGame 800).player.xp + 5) ∧
    ((Game.checkCollisions tableMath (duelGame 800) 1000 (fun _ => quietKill)
        (fun _ perks => perks)).player.xp ≠ (duelGame 800).player.xp + 2 * duelZombie.xpValue)
    := by
  have hscan : Game.hitScan tableMath quietKill 0 1 (duelGame 800) =
      Game.onZombieKilled tableMath
        { duelGame 800 with
          zombieManager := { ZombieManager.new with
            zombies := [duelZombie.takeDamage (25 * 2)] }
          bulletManager := { BulletManager.new with
            bullets := [{ duelBullet 800 with active := false }] } }
        (duelZombie.takeDamage (25 * 2)) true quietKill := by
    rw [Game.hitScan_succ tableMath quietKill 0 0 (duelGame 800) (duelBullet 800) duelZombie
      rfl rfl rfl 0 (by norm_num [tableMath, duelBullet, duelZombie, Bullet.new, Zombie.new])]
    norm_num [duelBullet, duelZombie, Bullet.new, Zombie.new, numOr, Zombie.takeDamage,
      duelGame, ZombieManager.new, BulletManager.new]
  have hpass : Game.bulletZombiePass tableMath (fun _ => quietKill) 1 (duelGame 800)
      = Game.hitScan tableMath quietKill 0 1 (duelGame 800) := by
    simp [Game.bulletZombiePass, duelGame, duelBullet, Bullet.new, ZombieManager.new,
      BulletManager.new]
  have hlen : (duelGame 800).bulletManager.bullets.length = 1 := rfl
  simp only [Game.checkCollisions, hlen, hpass, hscan]
  norm_num [Game.onZombieKilled, duelGame, duelZombie, Zombie.new, Zombie.takeDamage,
    Game.new, ZombieManager.new, BulletManager.new, PowerUpManager.new, quietKill,
    PowerUpManager.trySpawnPowerUp, BulletManager.checkPlayerCollisions,
    BulletManager.checkPlayerCollisionsFrom, Game.zombiePlayerPass,
    PowerUpManager.checkCollisions, PowerUpManager.collectFrom, Player.gainXP, Player.new]

/-! ## C4 -/

/-- C4: `Player.takeDamage` at time `now` returns the player unchanged when a shield buff
with `endTime > now` is present; when no such buff is present the result is the player with
`health` replaced by `max 0 (health - damage)` and `lastDamageTime` by `now`, every other
field being the same. -/
theorem C4_takeDamage_frame (p : Player) (now damage : ℚ) :
    (∀ b : Buff, p.buffs.shield = some b → b.endTime > now → p.takeDamage now damage = p) ∧
    ((∀ b : Buff, p.buffs.shield = some b → ¬ b.endTime > now) →
      p.takeDamage now damage
        = { p with health := max 0 (p.health - damage), lastDamageTime := now }) := by
  constructor
  · intro b hb hend
    simp [Player.takeDamage, hb, hend]
  · intro hno
    have hsh : (match p.buffs.shield with
        | some b => decide (b.endTime > now)
        | none => false) = false := by
      cases hs : p.buffs.shield with
      | none => rfl
      | some b => simpa using hno b hs
    simp only [Player.takeDamage, hsh, Bool.false_eq_true, if_false]
    by_cases hle : p.health - damage ≤ 0
    · simp [hle, max_eq_left hle]
    · simp [hle, max_eq_right (le_of_lt (not_le.mp hle))]

/-- C4 (worked inputs): a shielded player hit for 25 at time 1000 is unchanged; an unshielded
new player hit for 25 at time 1000 has health `max 0 (100 - 25)` and `lastDamageTime` 1000;
and the same player hit for 250 has health `max 0 (100 - 250)`. -/
theorem C4_takeDamage_frame_witness :
    shieldedPlayer.takeDamage 1000 25 = shieldedPlayer ∧
    (Player.new 0 0).takeDamage 1000 25
      = { Player.new 0 0 with
          health := max 0 ((Player.new 0 0).health - 25), lastDamageTime := 1000 } ∧
    (Player.new 0 0).takeDamage 1000 250
      = { Player.new 0 0 with
          health := max 0 ((Player.new 0 0).health - 250), lastDamageTime := 1000 } :=
  ⟨(C4_takeDamage_frame shieldedPlayer 1000 25).1 { multiplier := 1, endTime := 9000 } rfl
      (by norm_num),
   (C4_takeDamage_frame (Player.new 0 0) 1000 25).2 (by simp [Player.new]),
   (C4_takeDamage_frame (Player.new 0 0) 1000 250).2 (by simp [Player.new])⟩

/-! ## C6 -/

/-- C6: when the current weapon has `ammo = 0`, `Player.shoot` returns `null` (no bullets) and
the player is unchanged in every field, `lastShotTime` and the weapon's ammo included. -/
theorem C6_shoot_empty (M : JsMath) (p : Player) (now targetX targetY : ℚ) (rand : ℕ → ℚ)
    (h : p.currentWeapon.ammo = Ammo.finite 0) :
    p.shoot M now targetX targetY rand = (none, p) := by
  simp [Player.shoot, h, Ammo.leZero]

/-- C6 (worked input): the player holding an empty shotgun fires nothing and is unchanged. -/
theorem C6_shoot_empty_witness :
    emptyShotgunPlayer.currentWeapon.ammo = Ammo.finite 0 ∧
    emptyShotgunPlayer.shoot tableMath 1000 100 0 centredSpread = (none, emptyShotgunPlayer) :=
  ⟨rfl, C6_shoot_empty tableMath emptyShotgunPlayer 1000 100 0 centredSpread rfl⟩

/-! ## C7 -/

/-- The perk named "Damage Boost" is the catalog entry `damageBoost`. -/
theorem Perk.name_eq_damageBoost (perk : Perk) :
    perk.name = "Damage Boost" ↔ perk = Perk.damageBoost := by
  cases perk <;> simp [Perk.name]

/-- The perk loop multiplies by `f` once for every perk carrying the name. -/
theorem perkMultiplier_eq (n : String) (f : ℚ) (perks : List Perk) (m : ℚ) :
    perkMultiplier n f perks m = m * f ^ (perks.countP fun perk => perk.name = n) := by
  induction perks generalizing m with
  | nil => simp [perkMultiplier]
  | cons perk rest ih =>
    have hstep : perkMultiplier n f (perk :: rest) m
        = perkMultiplier n f rest (if perk.name = n then m * f else m) := rfl
    rw [hstep, ih]
    by_cases h : perk.name = n
    · simp [h, List.countP_cons_of_pos, pow_succ]
      ring
    · simp [h]

/-- The closed form of `Player.getModifiedDamage`: buff multiplier times `1.25` to the number
of Damage Boost perks. -/
theorem Player.getModifiedDamage_eq (p : Player) (baseDamage : ℚ) :
    p.getModifiedDamage baseDamage
      = baseDamage * (match p.buffs.damage with
          | some b => b.multiplier
          | none => 1) * (5/4) ^ (p.perks.count Perk.damageBoost) := by
  have hcount : (p.perks.countP fun perk => perk.name = "Damage Boost")
      = p.perks.count Perk.damageBoost := by
    rw [List.count, List.countP_congr]
    intro perk _
    simp [Perk.name_eq_damageBoost]
  simp only [Player.getModifiedDamage, perkMultiplier_eq, hcount]
  cases p.buffs.damage <;> simp [mul_assoc]

/-- C7: when shooting is allowed (not reloading, `now - lastShotTime >= fireRate`, ammo
positive or unlimited), `Player.shoot` returns exactly `bulletCount` bullets, each with
lifetime `range / 600` and damage `weapon.damage * (damage-buff multiplier) * 1.25 ^ (number
of Damage Boost perks)`; a finite ammo count drops by exactly 1, unlimited ammo stays
unlimited, and `lastShotTime` becomes `now`. -/
theorem C7_shoot_allowed (M : JsMath) (p : Player) (now targetX targetY : ℚ) (rand : ℕ → ℚ)
    (hreload : p.isReloading = false) (hrate : now - p.lastShotTime ≥ p.currentWeapon.fireRate)
    (hammo : p.currentWeapon.ammo = Ammo.infinity ∨
      ∃ n : ℤ, 0 < n ∧ p.currentWeapon.ammo = Ammo.finite n) :
    ∃ bullets : List BulletData,
      (p.shoot M now targetX targetY rand).1 = some bullets ∧
      bullets.length = p.currentWeapon.bulletCount ∧
      (∀ b ∈ bullets,
        b.lifetime = some (p.currentWeapon.range / 600) ∧
        b.damage = p.currentWeapon.damage * (match p.buffs.damage with
            | some buff => buff.multiplier
            | none => 1) * (5/4) ^ (p.perks.count Perk.damageBoost)) ∧
      (p.shoot M now targetX targetY rand).2.currentWeapon.ammo
        = (match p.currentWeapon.ammo with
            | Ammo.finite n => Ammo.finite (n - 1)
            | Ammo.infinity => Ammo.infinity) ∧
      (p.shoot M now targetX targetY rand).2.lastShotTime = now := by
  have hnz : p.currentWeapon.ammo.leZero = false := by
    rcases hammo with h | ⟨n, hn, h⟩
    · simp [h, Ammo.leZero]
    · simp [h, Ammo.leZero, hn]
  have hgo : ¬ (p.isReloading = true ∨ now - p.lastShotTime < p.currentWeapon.fireRate ∨
      p.currentWeapon.ammo.leZero = true) := by
    simp [hreload, hnz, not_lt.mpr hrate]
  refine ⟨(List.range p.currentWeapon.bulletCount).map fun i =>
    p.makeBullet M p.currentWeapon (M.atan2 (targetY - p.y) (targetX - p.x)) (rand i),
    ?_, ?_, ?_, ?_, ?_⟩
  · simp only [Player.shoot, if_neg hgo]
  · simp
  · intro b hb
    obtain ⟨i, _, rfl⟩ := List.mem_map.mp hb
    exact ⟨rfl, Player.getModifiedDamage_eq p _⟩
  · simp only [Player.shoot, if_neg hgo]
    rcases hammo with h | ⟨n, _, h⟩
    · have h1 : (p.weapons p.currentWeaponIndex).ammo = Ammo.infinity := h
      simp [h1, Player.currentWeapon]
    · have h1 : (p.weapons p.currentWeaponIndex).ammo = Ammo.finite n := h
      simp [h1, Player.currentWeapon, Player.setCurrentWeapon, Ammo.dec]
  · simp only [Player.shoot, if_neg hgo]

/-- C7 (worked input): the unlocked shotgun (eight shells, five pellets) may fire at time
1000, and the conclusion holds for that shot. -/
theorem C7_shoot_allowed_witness :
    (∃ bullets : List BulletData,
      (shotgunPlayer.shoot tableMath 1000 100 0 centredSpread).1 = some bullets ∧
      bullets.length = shotgunPlayer.currentWeapon.bulletCount ∧
      (∀ b ∈ bullets,
        b.lifetime = some (shotgunPlayer.currentWeapon.range / 600) ∧
        b.damage = shotgunPlayer.currentWeapon.damage * (match shotgunPlayer.buffs.damage with
            | some buff => buff.multiplier
            | none => 1) * (5/4) ^ (shotgunPlayer.perks.count Perk.damageBoost)) ∧
      (shotgunPlayer.shoot tableMath 1000 100 0 centredSpread).2.currentWeapon.ammo
        = (match shotgunPlayer.currentWeapon.ammo with
            | Ammo.finite n => Ammo.finite (n - 1)
            | Ammo.infinity => Ammo.infinity) ∧
      (shotgunPlayer.shoot tableMath 1000 100 0 centredSpread).2.lastShotTime = 1000) ∧
    shotgunPlayer.currentWeapon.ammo = Ammo.finite 8 ∧
    shotgunPlayer.currentWeapon.bulletCount = 5 :=
  ⟨C7_shoot_allowed tableMath shotgunPlayer 1000 100 0 centredSpread rfl
      (by norm_num [shotgunPlayer, Player.currentWeapon, Player.unlockWeapon, Player.new,
        initialWeapons])
      (Or.inr ⟨8, by norm_num, rfl⟩),
    rfl, rfl⟩

/-! ## C5 -/

/-- The perk loop keeps a non-negative multiplier non-negative. -/
theorem perkMultiplier_nonneg (n : String) (f : ℚ) (perks : List Perk) (m : ℚ) (hf : 0 ≤ f)
    (hm : 0 ≤ m) : 0 ≤ perkMultiplier n f perks m := by
  rw [perkMultiplier_eq]
  exact mul_nonneg hm (pow_nonneg hf _)

/-- The method `Player.update` is the sequence of its seven steps. -/
theorem Player.update_eq_steps (M : JsMath) (p : Player) (now deltaTime : ℚ) (keys : Keys)
    (mouse : Mouse) :
    p.update M now deltaTime keys mouse
      = (((((((p.updateBuffs now).finishReload now).aim M mouse).handleMovement deltaTime
          keys).regenStamina deltaTime).regenHealth now deltaTime).updateDash deltaTime) := rfl

/-- A player whose vital fields and rates equal those of a player satisfying the
strengthened invariant satisfies it too. -/
theorem Player.vitalsInv_of_eq (p q : Player) (h : p.vitalsInv) (e1 : q.health = p.health)
    (e2 : q.maxHealth = p.maxHealth) (e3 : q.stamina = p.stamina)
    (e4 : q.maxStamina = p.maxStamina) (e5 : q.healthRegenRate = p.healthRegenRate)
    (e6 : q.dashCost = p.dashCost) (e7 : q.staminaRegenRate = p.staminaRegenRate) :
    q.vitalsInv := by
  unfold Player.vitalsInv Player.vitalsInRange at *
  rw [e1, e2, e3, e4, e5, e6, e7]
  exact h

/-- The reload step keeps the strengthened invariant. -/
theorem Player.finishReload_vitalsInv (p : Player) (now : ℚ) (h : p.vitalsInv) :
    (p.finishReload now).vitalsInv := by
  unfold Player.finishReload
  split_ifs
  · exact Player.vitalsInv_of_eq p _ h rfl rfl rfl rfl rfl rfl rfl
  · exact h

/-- The method `Player.handleMovement` keeps the strengthened invariant: a dash only starts when the
stamina covers its cost. -/
theorem Player.handleMovement_vitalsInv (p : Player) (deltaTime : ℚ) (keys : Keys)
    (h : p.vitalsInv) : (p.handleMovement deltaTime keys).vitalsInv := by
  by_cases hd : keys.space = true ∧ p.isDashing = false ∧ p.stamina ≥ p.dashCost
  · obtain ⟨⟨h1, h2, h3, h4⟩, h5, h6, h7⟩ := h
    simp only [Player.handleMovement, if_pos hd]
    refine ⟨⟨h1, h2, ?_, ?_⟩, h5, h6, h7⟩
    · show 0 ≤ p.stamina - p.dashCost
      linarith [hd.2.2]
    · show p.stamina - p.dashCost ≤ p.maxStamina
      linarith
  · simp only [Player.handleMovement, if_neg hd]
    exact Player.vitalsInv_of_eq p _ h rfl rfl rfl rfl rfl rfl rfl

/-- The stamina regeneration step keeps the strengthened invariant. -/
theorem Player.regenStamina_vitalsInv (p : Player) (deltaTime : ℚ) (h : p.vitalsInv)
    (hdt : 0 ≤ deltaTime) : (p.regenStamina deltaTime).vitalsInv := by
  unfold Player.regenStamina
  split_ifs
  · obtain ⟨⟨h1, h2, h3, h4⟩, h5, h6, h7⟩ := h
    have hsta : 0 ≤ p.staminaRegenRate * deltaTime := mul_nonneg h7 hdt
    refine ⟨⟨h1, h2, ?_, ?_⟩, h5, h6, h7⟩
    · show 0 ≤ min p.maxStamina (p.stamina + p.staminaRegenRate * deltaTime)
      exact le_min (by linarith) (by linarith)
    · show min p.maxStamina (p.stamina + p.staminaRegenRate * deltaTime) ≤ p.maxStamina
      exact min_le_left _ _
  · exact h

/-- The health regeneration step keeps the strengthened invariant. -/
theorem Player.regenHealth_vitalsInv (p : Player) (now deltaTime : ℚ) (h : p.vitalsInv)
    (hdt : 0 ≤ deltaTime) : (p.regenHealth now deltaTime).vitalsInv := by
  unfold Player.regenHealth
  split_ifs
  · obtain ⟨⟨h1, h2, h3, h4⟩, h5, h6, h7⟩ := h
    have hmul : 0 ≤ perkMultiplier "Health Regen" (3/2) p.perks 1 :=
      perkMultiplier_nonneg _ _ _ _ (by norm_num) (by norm_num)
    have hreg : 0 ≤ p.getModifiedHealthRegen * deltaTime :=
      mul_nonneg (mul_nonneg h5 hmul) hdt
    refine ⟨⟨?_, ?_, h3, h4⟩, h5, h6, h7⟩
    · show 0 ≤ min p.maxHealth (p.health + p.getModifiedHealthRegen * deltaTime)
      exact le_min (by linarith) (by linarith)
    · show min p.maxHealth (p.health + p.getModifiedHealthRegen * deltaTime) ≤ p.maxHealth
      exact min_le_left _ _
  · exact h

/-- The dash timer step keeps the strengthened invariant. -/
theorem Player.updateDash_vitalsInv (p : Player) (deltaTime : ℚ) (h : p.vitalsInv) :
    (p.updateDash deltaTime).vitalsInv := by
  simp only [Player.updateDash]
  split_ifs
  · exact Player.vitalsInv_of_eq p _ h rfl rfl rfl rfl rfl rfl rfl
  · exact Player.vitalsInv_of_eq p _ h rfl rfl rfl rfl rfl rfl rfl
  · exact h

/-- The method `Player.update` with a non-negative time step keeps the strengthened invariant. -/
theorem Player.update_vitalsInv (M : JsMath) (p : Player) (now deltaTime : ℚ) (keys : Keys)
    (mouse : Mouse) (h : p.vitalsInv) (hdt : 0 ≤ deltaTime) :
    (p.update M now deltaTime keys mouse).vitalsInv := by
  rw [Player.update_eq_steps]
  apply Player.updateDash_vitalsInv
  apply Player.regenHealth_vitalsInv _ _ _ _ hdt
  apply Player.regenStamina_vitalsInv _ _ _ hdt
  apply Player.handleMovement_vitalsInv
  apply Player.vitalsInv_of_eq ((p.updateBuffs now).finishReload now) _ _ rfl rfl rfl rfl rfl
    rfl rfl
  apply Player.finishReload_vitalsInv
  exact Player.vitalsInv_of_eq p _ h rfl rfl rfl rfl rfl rfl rfl

/-- The method `Player.shoot` keeps the strengthened invariant. -/
theorem Player.shoot_vitalsInv (M : JsMath) (p : Player) (now targetX targetY : ℚ)
    (rand : ℕ → ℚ) (h : p.vitalsInv) : (p.shoot M now targetX targetY rand).2.vitalsInv := by
  unfold Player.shoot
  dsimp only
  split_ifs
  · exact h
  · exact Player.vitalsInv_of_eq p _ h rfl rfl rfl rfl rfl rfl rfl
  · exact Player.vitalsInv_of_eq p _ h rfl rfl rfl rfl rfl rfl rfl

/-- The method `Player.reload` keeps the strengthened invariant. -/
theorem Player.reload_vitalsInv (p : Player) (now : ℚ) (h : p.vitalsInv) :
    (p.reload now).vitalsInv := by
  unfold Player.reload
  dsimp only
  split_ifs
  · exact Player.vitalsInv_of_eq p _ h rfl rfl rfl rfl rfl rfl rfl
  · exact h

/-- The method `Player.switchWeapon` keeps the strengthened invariant. -/
theorem Player.switchWeapon_vitalsInv (p : Player) (index : ℤ) (h : p.vitalsInv) :
    (p.switchWeapon index).vitalsInv := by
  unfold Player.switchWeapon
  dsimp only
  split_ifs
  · exact Player.vitalsInv_of_eq p _ h rfl rfl rfl rfl rfl rfl rfl
  · exact h
  · exact h

/-- The method `Player.takeDamage` with non-negative damage keeps the strengthened invariant. -/
theorem Player.takeDamage_vitalsInv (p : Player) (now damage : ℚ) (h : p.vitalsInv)
    (hd : 0 ≤ damage) : (p.takeDamage now damage).vitalsInv := by
  obtain ⟨⟨h1, h2, h3, h4⟩, h5, h6, h7⟩ := h
  unfold Player.takeDamage
  dsimp only
  split_ifs with hs hz
  · exact ⟨⟨h1, h2, h3, h4⟩, h5, h6, h7⟩
  · exact ⟨⟨le_refl (0 : ℚ), le_trans h1 h2, h3, h4⟩, h5, h6, h7⟩
  · refine ⟨⟨?_, ?_, h3, h4⟩, h5, h6, h7⟩
    · show 0 ≤ p.health - damage
      exact le_of_lt (not_le.mp hz)
    · show p.health - damage ≤ p.maxHealth
      linarith

/-- A level-conditional weapon unlock keeps the strengthened invariant. -/
theorem Player.unlockAtLevel_vitalsInv (p : Player) (level : ℕ) (i : Fin 5)
    (h : p.vitalsInv) : (p.unlockAtLevel level i).vitalsInv := by
  unfold Player.unlockAtLevel
  split_ifs
  · exact Player.vitalsInv_of_eq p _ h rfl rfl rfl rfl rfl rfl rfl
  · exact h

/-- The method `Player.levelUp` as one record expression. -/
theorem Player.levelUp_eq (p : Player) (shuffle : List Perk → List Perk) :
    p.levelUp shuffle
      = { ((((({ p with level := p.level + 1, xp := p.xp - p.xpToNextLevel,
                        xpToNextLevel := ((⌊p.xpToNextLevel * (6/5)⌋ : ℤ) : ℚ) }
              : Player).unlockAtLevel 3 1).unlockAtLevel 5 2).unlockAtLevel 8 3).unlockAtLevel
                12 4) with
          levelUpPending := true
          availablePerks := some (Player.getAvailablePerks shuffle) } := rfl

/-- Setting the level-up flags keeps the strengthened invariant. -/
theorem Player.vitalsInv_flags (q : Player) (h : q.vitalsInv) (pending : Bool)
    (available : Option (List Perk)) :
    ({ q with levelUpPending := pending, availablePerks := available } : Player).vitalsInv :=
  h

/-- The method `Player.levelUp` keeps the strengthened invariant. -/
theorem Player.levelUp_vitalsInv (p : Player) (shuffle : List Perk → List Perk)
    (h : p.vitalsInv) : (p.levelUp shuffle).vitalsInv := by
  have h0 : ({ p with level := p.level + 1, xp := p.xp - p.xpToNextLevel,
                      xpToNextLevel := ((⌊p.xpToNextLevel * (6/5)⌋ : ℤ) : ℚ) } : Player).vitalsInv :=
    h
  rw [Player.levelUp_eq]
  exact Player.vitalsInv_flags _ (Player.unlockAtLevel_vitalsInv _ 12 4
    (Player.unlockAtLevel_vitalsInv _ 8 3
      (Player.unlockAtLevel_vitalsInv _ 5 2 (Player.unlockAtLevel_vitalsInv _ 3 1 h0)))) _ _

/-- The method `Player.gainXP` keeps the strengthened invariant. -/
theorem Player.gainXP_vitalsInv (p : Player) (amount : ℚ) (shuffle : List Perk → List Perk)
    (h : p.vitalsInv) : (p.gainXP amount shuffle).vitalsInv := by
  unfold Player.gainXP
  dsimp only
  split_ifs
  · exact Player.levelUp_vitalsInv _ shuffle
      (Player.vitalsInv_of_eq p _ h rfl rfl rfl rfl rfl rfl rfl)
  · exact Player.vitalsInv_of_eq p _ h rfl rfl rfl rfl rfl rfl rfl

/-- The method `Player.heal` with a non-negative amount keeps the strengthened invariant. -/
theorem Player.heal_vitalsInv (p : Player) (amount : ℚ) (h : p.vitalsInv) (ha : 0 ≤ amount) :
    (p.heal amount).vitalsInv := by
  obtain ⟨⟨h1, h2, h3, h4⟩, h5, h6, h7⟩ := h
  refine ⟨⟨?_, ?_, h3, h4⟩, h5, h6, h7⟩
  · show 0 ≤ min p.maxHealth (p.health + amount)
    exact le_min (by linarith) (by linarith)
  · show min p.maxHealth (p.health + amount) ≤ p.maxHealth
    exact min_le_left _ _

/-- Collecting a power-up keeps the strengthened invariant. -/
theorem PowerUp.collect_vitalsInv (pu : PowerUp) (now : ℚ) (p : Player)
    (shuffle : List Perk → List Perk) (h : p.vitalsInv) :
    (pu.collect now p shuffle).2.2.vitalsInv := by
  unfold PowerUp.collect
  split_ifs
  · exact h
  · dsimp only [PowerUp.applyEffect]
    cases pu.type
    · exact Player.heal_vitalsInv p 50 h (by norm_num)
    · exact Player.vitalsInv_of_eq p _ h rfl rfl rfl rfl rfl rfl rfl
    · exact Player.vitalsInv_of_eq p _ h rfl rfl rfl rfl rfl rfl rfl
    · exact Player.vitalsInv_of_eq p _ h rfl rfl rfl rfl rfl rfl rfl
    · exact Player.vitalsInv_of_eq p _ h rfl rfl rfl rfl rfl rfl rfl
    · exact Player.vitalsInv_of_eq p _ h rfl rfl rfl rfl rfl rfl rfl
    · exact Player.gainXP_vitalsInv p 100 shuffle h

/-- The effect of every catalog perk keeps the strengthened invariant. -/
theorem Perk.effect_vitalsInv (perk : Perk) (p : Player) (h : p.vitalsInv) :
    (perk.effect p).vitalsInv := by
  obtain ⟨⟨h1, h2, h3, h4⟩, h5, h6, h7⟩ := h
  cases perk
  · refine ⟨⟨?_, ?_, h3, h4⟩, h5, h6, h7⟩
    · show 0 ≤ p.health + 25
      linarith
    · show p.health + 25 ≤ p.maxHealth + 25
      linarith
  · exact ⟨⟨h1, h2, h3, h4⟩, h5, h6, h7⟩
  · exact ⟨⟨h1, h2, h3, h4⟩, h5, h6, h7⟩
  · exact ⟨⟨h1, h2, h3, h4⟩, h5, h6, h7⟩
  · refine ⟨⟨h1, h2, ?_, ?_⟩, h5, h6, h7⟩
    · show 0 ≤ p.stamina + 30
      linarith
    · show p.stamina + 30 ≤ p.maxStamina + 30
      linarith
  · refine ⟨⟨h1, h2, h3, h4⟩, ?_, h6, h7⟩
    show 0 ≤ p.healthRegenRate * (3/2)
    linarith
  · exact ⟨⟨h1, h2, h3, h4⟩, h5, h6, h7⟩
  · exact ⟨⟨h1, h2, h3, h4⟩, h5, h6, h7⟩

/-- The method `Player.selectPerk` keeps the strengthened invariant. -/
theorem Player.selectPerk_vitalsInv (p : Player) (index : ℕ) (h : p.vitalsInv) :
    (p.selectPerk index).vitalsInv := by
  unfold Player.selectPerk
  split
  · exact h
  · split
    · exact h
    · next perk _ =>
      exact Player.vitalsInv_of_eq (perk.effect p) _ (Perk.effect_vitalsInv perk p h)
        rfl rfl rfl rfl rfl rfl rfl

/-- Every reachable player state satisfies the strengthened invariant. -/
theorem Player.Reachable.vitalsInv {p : Player} (h : p.Reachable) : p.vitalsInv := by
  induction h with
  | new x y => exact ⟨⟨by norm_num [Player.new], by norm_num [Player.new],
      by norm_num [Player.new], by norm_num [Player.new]⟩,
      by norm_num [Player.new], by norm_num [Player.new], by norm_num [Player.new]⟩
  | update M now deltaTime keys mouse _ hdt ih =>
    exact Player.update_vitalsInv M _ now deltaTime keys mouse ih hdt
  | shoot M now targetX targetY rand _ ih =>
    exact Player.shoot_vitalsInv M _ now targetX targetY rand ih
  | reload now _ ih => exact Player.reload_vitalsInv _ now ih
  | switchWeapon index _ ih => exact Player.switchWeapon_vitalsInv _ index ih
  | takeDamage now damage _ hd ih => exact Player.takeDamage_vitalsInv _ now damage ih hd
  | gainXP amount shuffle _ _ ih => exact Player.gainXP_vitalsInv _ amount shuffle ih
  | heal amount _ ha ih => exact Player.heal_vitalsInv _ amount ih ha
  | collect pu now shuffle _ ih => exact PowerUp.collect_vitalsInv pu now _ shuffle ih
  | selectPerk index _ ih => exact Player.selectPerk_vitalsInv _ index ih

/-- C5: `0 <= health <= maxHealth` and `0 <= stamina <= maxStamina` hold in every player
state reachable from `new Player` (the new player included), and from such a state they hold
again after `update` with any `deltaTime >= 0` and any keys, after `takeDamage` with damage
`>= 0`, after `heal` with an amount `>= 0`, after collecting any power-up, after the effect of
every catalog perk and after `selectPerk` at any index. -/
theorem C5_vitals_invariant (p : Player) (h : p.Reachable) :
    p.vitalsInRange ∧
    (∀ (M : JsMath) (now deltaTime : ℚ) (keys : Keys) (mouse : Mouse), 0 ≤ deltaTime →
      (p.update M now deltaTime keys mouse).vitalsInRange) ∧
    (∀ now damage : ℚ, 0 ≤ damage → (p.takeDamage now damage).vitalsInRange) ∧
    (∀ amount : ℚ, 0 ≤ amount → (p.heal amount).vitalsInRange) ∧
    (∀ (pu : PowerUp) (now : ℚ) (shuffle : List Perk → List Perk),
      (pu.collect now p shuffle).2.2.vitalsInRange) ∧
    (∀ perk : Perk, (perk.effect p).vitalsInRange) ∧
    (∀ index : ℕ, (p.selectPerk index).vitalsInRange) :=
  ⟨h.vitalsInv.1,
   fun M now deltaTime keys mouse hdt =>
     (Player.update_vitalsInv M p now deltaTime keys mouse h.vitalsInv hdt).1,
   fun now damage hd => (Player.takeDamage_vitalsInv p now damage h.vitalsInv hd).1,
   fun amount ha => (Player.heal_vitalsInv p amount h.vitalsInv ha).1,
   fun pu now shuffle => (PowerUp.collect_vitalsInv pu now p shuffle h.vitalsInv).1,
   fun perk => (Perk.effect_vitalsInv perk p h.vitalsInv).1,
   fun index => (Player.selectPerk_vitalsInv p index h.vitalsInv).1⟩

/-- C5 (worked input): the new player hit for 250 at time 1000 is reachable, satisfies the
bounds, and satisfies them again after healing 50 and after a 1/30 s update. -/
theorem C5_vitals_invariant_witness :
    ((Player.new 0 0).takeDamage 1000 250).Reachable ∧
    ((Player.new 0 0).takeDamage 1000 250).vitalsInRange ∧
    (((Player.new 0 0).takeDamage 1000 250).heal 50).vitalsInRange :=
  ⟨Player.Reachable.takeDamage 1000 250 (Player.Reachable.new 0 0) (by norm_num),
   (C5_vitals_invariant _
      (Player.Reachable.takeDamage 1000 250 (Player.Reachable.new 0 0) (by norm_num))).1,
   (C5_vitals_invariant _
      (Player.Reachable.takeDamage 1000 250 (Player.Reachable.new 0 0) (by norm_num))).2.2.2.1
      50 (by norm_num)⟩

/-! ## C8 and C9: what a shot carries -/

/-- When shooting is not blocked, `Player.shoot` returns one bullet record per loop
iteration. -/
theorem Player.shoot_bullets (M : JsMath) (p : Player) (now targetX targetY : ℚ)
    (rand : ℕ → ℚ)
    (hgo : ¬ (p.isReloading = true ∨ now - p.lastShotTime < p.currentWeapon.fireRate ∨
      p.currentWeapon.ammo.leZero = true)) :
    (p.shoot M now targetX targetY rand).1
      = some ((List.range p.currentWeapon.bulletCount).map fun i =>
          p.makeBullet M p.currentWeapon (M.atan2 (targetY - p.y) (targetX - p.x)) (rand i)) := by
  simp only [Player.shoot, if_neg hgo]

/-- The state of `boostedPlayer`: the pistol is current with its damage field raised to
`25 * 1.25`, one perk (Damage Boost) is recorded, and no damage buff is present. -/
theorem boostedPlayer_state :
    boostedPlayer.currentWeapon.damage = 125/4 ∧
    boostedPlayer.currentWeapon.bulletCount = 1 ∧
    boostedPlayer.currentWeapon.fireRate = 300 ∧
    boostedPlayer.currentWeapon.ammo = Ammo.infinity ∧
    boostedPlayer.perks = [Perk.damageBoost] ∧
    boostedPlayer.buffs.damage = none ∧
    boostedPlayer.isReloading = false ∧
    boostedPlayer.lastShotTime = 0 := by
  refine ⟨?_, ?_, ?_, ?_, ?_, ?_, ?_, ?_⟩ <;>
    norm_num [boostedPlayer, Player.gainXP, Player.levelUp_eq, Player.unlockAtLevel,
      Player.getAvailablePerks, allPerks, Player.selectPerk, Perk.effect, Player.new,
      Player.currentWeapon, initialWeapons, Player.unlockWeapon]

/-- C8 (evaluation at the failing input): the new player's pistol bullet carries damage 25;
after selecting the perk described as "Increase weapon damage by 25%" once, with no damage
buff, the pistol bullet carries `625/16 = 39.0625`, which is `1.5625 * 25` and not
`1.25 * 25`: the perk's effect multiplies the weapon's damage field and the recorded perk
multiplies it again in `getModifiedDamage`. -/
theorem C8_damage_boost_applied_twice :
    (((Player.new 0 0).shoot tableMath 1000 100 0 centredSpread).1.map
        (List.map BulletData.damage) = some [25]) ∧
    (boostedPlayer.perks.map Perk.description = ["Increase weapon damage by 25%"]) ∧
    (boostedPlayer.buffs.damage = none) ∧
    ((boostedPlayer.shoot tableMath 1000 100 0 centredSpread).1.map
        (List.map BulletData.damage) = some [625/16]) ∧
    ((625/16 : ℚ) = (25/16) * 25) ∧ ((625/16 : ℚ) ≠ (5/4) * 25) := by
  obtain ⟨hd, hc, hf, ha, hp, hb, hr, hl⟩ := boostedPlayer_state
  refine ⟨?_, ?_, hb, ?_, by norm_num, by norm_num⟩
  · rw [Player.shoot_bullets]
    · norm_num [Player.makeBullet, Player.getModifiedDamage, perkMultiplier, Player.new,
        Player.currentWeapon, initialWeapons]
    · norm_num [Player.new, Player.currentWeapon, initialWeapons, Ammo.leZero]
  · rw [hp]
    rfl
  · rw [Player.shoot_bullets]
    · rw [hc]
      norm_num [Player.makeBullet, Player.getModifiedDamage, perkMultiplier, hd, hp, hb,
        Perk.name, List.range_succ, Function.comp_def]
    · rw [hr, hl, hf, ha]
      norm_num [Ammo.leZero]

/-- The state of `multishotPlayer`: the pistol is current and a multishot buff with
multiplier 3 runs until time 21000. -/
theorem multishotPlayer_state :
    multishotPlayer.buffs.multishot = some { multiplier := 3, endTime := 21000 } ∧
    multishotPlayer.currentWeapon.name = "Pistol" ∧
    multishotPlayer.currentWeapon.bulletCount = 1 ∧
    multishotPlayer.currentWeapon.fireRate = 300 ∧
    multishotPlayer.currentWeapon.ammo = Ammo.infinity ∧
    multishotPlayer.isReloading = false ∧
    multishotPlayer.lastShotTime = 0 := by
  refine ⟨?_, ?_, ?_, ?_, ?_, ?_, ?_⟩ <;>
    norm_num [multishotPlayer, PowerUp.collect, PowerUp.new, PowerUp.applyEffect,
      Player.addBuff, Player.new, Player.currentWeapon, initialWeapons]

/-- C9 (evaluation at the failing input): at time 1000 the player collects a multishot
power-up ("Fires multiple bullets for 20 seconds"; buff multiplier 3, active until 21000);
the pistol shot fired at that same time returns exactly one bullet, not `3 * 1`:
`Player.shoot` never reads the multishot buff. -/
theorem C9_multishot_ignored :
    (PowerUpType.multishot.effectText = "Fires multiple bullets for 20 seconds") ∧
    (multishotPlayer.buffs.multishot = some { multiplier := 3, endTime := 21000 }) ∧
    ((1000 : ℚ) < 21000) ∧
    (multishotPlayer.currentWeapon.bulletCount = 1) ∧
    ((multishotPlayer.shoot tableMath 1000 100 0 centredSpread).1.map List.length = some 1) ∧
    (1 ≠ 3 * multishotPlayer.currentWeapon.bulletCount) := by
  obtain ⟨hm, _, hc, hf, ha, hr, hl⟩ := multishotPlayer_state
  refine ⟨rfl, hm, by norm_num, hc, ?_, ?_⟩
  · rw [Player.shoot_bullets]
    · simp [hc]
    · rw [hr, hl, hf, ha]
      norm_num [Ammo.leZero]
  · rw [hc]
    decide

/-! ## C10 -/

/-- The inner loop of the bullet-zombie pass changes neither `wave` nor
`waveZombiesTotal`. -/
theorem Game.hitScan_wave (M : JsMath) (d : KillDraws) (i : ℕ) :
    ∀ (j : ℕ) (g : Game),
      (Game.hitScan M d i j g).wave = g.wave ∧
      (Game.hitScan M d i j g).waveZombiesTotal = g.waveZombiesTotal := by
  intro j
  induction j with
  | zero => intro g; exact ⟨rfl, rfl⟩
  | succ j ih =>
    intro g
    unfold Game.hitScan
    split
    · next bullet zombie hb hz =>
      by_cases h1 : zombie.alive = false
      · rw [if_pos h1]
        exact ih g
      · rw [if_neg h1]
        dsimp only
        split_ifs <;> first
          | exact ih g
          | exact ⟨rfl, rfl⟩
    · exact ⟨rfl, rfl⟩

/-- The bullet-zombie pass changes neither `wave` nor `waveZombiesTotal`. -/
theorem Game.bulletZombiePass_wave (M : JsMath) (kill : ℕ → KillDraws) :
    ∀ (i : ℕ) (g : Game),
      (Game.bulletZombiePass M kill i g).wave = g.wave ∧
      (Game.bulletZombiePass M kill i g).waveZombiesTotal = g.waveZombiesTotal := by
  intro i
  induction i with
  | zero => intro g; exact ⟨rfl, rfl⟩
  | succ i ih =>
    intro g
    unfold Game.bulletZombiePass
    split
    · exact ih g
    · split_ifs
      · exact ih g
      · have h1 := ih (Game.hitScan M (kill i) i g.zombieManager.zombies.length g)
        have h2 := Game.hitScan_wave M (kill i) i g.zombieManager.zombies.length g
        exact ⟨h1.1.trans h2.1, h1.2.trans h2.2⟩

/-- The method `Game.checkCollisions` changes neither `wave` nor `waveZombiesTotal`. -/
theorem Game.checkCollisions_wave (M : JsMath) (g : Game) (now : ℚ) (kill : ℕ → KillDraws)
    (pickup : ℕ → List Perk → List Perk) :
    (g.checkCollisions M now kill pickup).wave = g.wave ∧
    (g.checkCollisions M now kill pickup).waveZombiesTotal = g.waveZombiesTotal :=
  Game.bulletZombiePass_wave M kill g.bulletManager.bullets.length g

/-- The method `Game.handleShoot` changes neither `wave` nor `waveZombiesTotal`. -/
theorem Game.handleShoot_wave (M : JsMath) (g : Game) (now : ℚ) (rand : ℕ → ℚ) :
    (g.handleShoot M now rand).wave = g.wave ∧
    (g.handleShoot M now rand).waveZombiesTotal = g.waveZombiesTotal := by
  unfold Game.handleShoot
  split_ifs
  · split <;> exact ⟨rfl, rfl⟩
  · exact ⟨rfl, rfl⟩

/-- A completed `Game.nextWave` raises `wave` by one and sets `waveZombiesTotal` to
`floor(10 + wave * 2.5)` for the new wave. -/
theorem Game.nextWave_wave (g g1 : Game) (sideDraw coordDraw : ℚ)
    (h : g.nextWave sideDraw coordDraw = .ok g1) :
    g1.wave = g.wave + 1 ∧
    g1.waveZombiesTotal = ⌊(10 : ℚ) + ((g.wave + 1 : ℕ) : ℚ) * (5/2)⌋ := by
  unfold Game.nextWave at h
  dsimp only at h
  split_ifs at h
  · split at h
    · simp at h
    · injection h with h
      subst h
      exact ⟨rfl, rfl⟩
  · injection h with h
    subst h
    exact ⟨rfl, rfl⟩

/-! ## The tick: `Game.update` and `Game.gameLoop` -/

/-- The method `Game.update` is the zombie-manager update, the collision pass on the updated
entities, the wave check and the closing checks, in this order. -/
theorem Game.update_eq (M : JsMath) (g : Game) (t : TickDraws) :
    g.update M t =
      match g.zombieManager.update M g.canvas t.now g.deltaTime
          (g.player.update M t.now g.deltaTime g.keys g.mouse) g.wave t.spawn with
      | .error e => .error e
      | .ok zombieManager =>
        match ((g.entitiesUpdated M t zombieManager).checkCollisions M t.now t.kill
            t.pickup).updateWaveProgression t.bossSide t.bossCoord with
        | .error e => .error e
        | .ok g2 => .ok (g2.closeTick t.display) := by
  unfold Game.update Game.closeTick Game.entitiesUpdated
  dsimp only
  cases g.zombieManager.update M g.canvas t.now g.deltaTime
      (g.player.update M t.now g.deltaTime g.keys g.mouse) g.wave t.spawn with
  | error e => rfl
  | ok zombieManager =>
    dsimp only
    cases (Game.checkCollisions M _ t.now t.kill t.pickup).updateWaveProgression t.bossSide
        t.bossCoord with
    | error e => rfl
    | ok g2 =>
      dsimp only
      split_ifs <;> rfl

/-- A completed `Game.update` passes through a completed zombie-manager update and a
completed wave check. -/
theorem Game.update_stages (M : JsMath) (g : Game) (t : TickDraws)
    (r : Game × Option (List Perk)) (h : g.update M t = .ok r) :
    ∃ (zombieManager : ZombieManager) (g2 : Game),
      g.zombieManager.update M g.canvas t.now g.deltaTime
        (g.player.update M t.now g.deltaTime g.keys g.mouse) g.wave t.spawn
          = .ok zombieManager ∧
      ((g.entitiesUpdated M t zombieManager).checkCollisions M t.now t.kill
        t.pickup).updateWaveProgression t.bossSide t.bossCoord = .ok g2 ∧
      r = g2.closeTick t.display := by
  rw [Game.update_eq] at h
  split at h
  · cases h
  · next zombieManager hz =>
    split at h
    · cases h
    · next g2 hw =>
      injection h with h
      exact ⟨zombieManager, g2, hz, hw, h.symm⟩

/-- The closing checks of a tick only write `gameState` and the `levelUpPending` flag of the
player. -/
theorem Game.closeTick_frame (g : Game) (display : List Perk → List Perk) :
    (g.closeTick display).1.wave = g.wave ∧
    (g.closeTick display).1.waveZombiesTotal = g.waveZombiesTotal ∧
    (g.closeTick display).1.powerUpManager = g.powerUpManager ∧
    (g.closeTick display).1.zombieManager = g.zombieManager ∧
    (g.closeTick display).1.kills = g.kills ∧
    (g.closeTick display).1.deltaTime = g.deltaTime := by
  unfold Game.closeTick Game.showLevelUpScreen Game.gameOver
  dsimp only
  split_ifs <;> exact ⟨rfl, rfl, rfl, rfl, rfl, rfl⟩

/-- A drop roll changes neither the drop chance nor the power-up cap. -/
theorem PowerUpManager.trySpawnPowerUp_rate (M : JsMath) (pm : PowerUpManager) (x y : ℚ)
    (d : DropDraws) :
    (pm.trySpawnPowerUp M x y d).2.spawnRate = pm.spawnRate ∧
    (pm.trySpawnPowerUp M x y d).2.maxPowerUps = pm.maxPowerUps := by
  unfold PowerUpManager.trySpawnPowerUp
  split_ifs <;> exact ⟨rfl, rfl⟩

/-- The inner loop of the bullet-zombie pass changes neither `deltaTime` nor the drop chance
nor the power-up cap. -/
theorem Game.hitScan_rate (M : JsMath) (d : KillDraws) (i : ℕ) :
    ∀ (j : ℕ) (g : Game),
      (Game.hitScan M d i j g).deltaTime = g.deltaTime ∧
      (Game.hitScan M d i j g).powerUpManager.spawnRate = g.powerUpManager.spawnRate ∧
      (Game.hitScan M d i j g).powerUpManager.maxPowerUps = g.powerUpManager.maxPowerUps := by
  intro j
  induction j with
  | zero => intro g; exact ⟨rfl, rfl, rfl⟩
  | succ j ih =>
    intro g
    unfold Game.hitScan
    split
    · next bullet zombie hb hz =>
      by_cases h1 : zombie.alive = false
      · rw [if_pos h1]
        exact ih g
      · rw [if_neg h1]
        dsimp only
        split_ifs <;> first
          | exact ih g
          | exact ⟨rfl, rfl, rfl⟩
          | exact ⟨rfl, (PowerUpManager.trySpawnPowerUp_rate M _ _ _ _).1,
              (PowerUpManager.trySpawnPowerUp_rate M _ _ _ _).2⟩
    · exact ⟨rfl, rfl, rfl⟩

/-- The bullet-zombie pass changes neither `deltaTime` nor the drop chance nor the power-up
cap. -/
theorem Game.bulletZombiePass_rate (M : JsMath) (kill : ℕ → KillDraws) :
    ∀ (i : ℕ) (g : Game),
      (Game.bulletZombiePass M kill i g).deltaTime = g.deltaTime ∧
      (Game.bulletZombiePass M kill i g).powerUpManager.spawnRate
        = g.powerUpManager.spawnRate ∧
      (Game.bulletZombiePass M kill i g).powerUpManager.maxPowerUps
        = g.powerUpManager.maxPowerUps := by
  intro i
  induction i with
  | zero => intro g; exact ⟨rfl, rfl, rfl⟩
  | succ i ih =>
    intro g
    unfold Game.bulletZombiePass
    split
    · exact ih g
    · split_ifs
      · exact ih g
      · have h1 := ih (Game.hitScan M (kill i) i g.zombieManager.zombies.length g)
        have h2 := Game.hitScan_rate M (kill i) i g.zombieManager.zombies.length g
        exact ⟨h1.1.trans h2.1, h1.2.1.trans h2.2.1, h1.2.2.trans h2.2.2⟩

/-- The method `Game.checkCollisions` changes neither `deltaTime` nor the drop chance nor the
power-up cap. -/
theorem Game.checkCollisions_rate (M : JsMath) (g : Game) (now : ℚ) (kill : ℕ → KillDraws)
    (pickup : ℕ → List Perk → List Perk) :
    (g.checkCollisions M now kill pickup).deltaTime = g.deltaTime ∧
    (g.checkCollisions M now kill pickup).powerUpManager.spawnRate
      = g.powerUpManager.spawnRate ∧
    (g.checkCollisions M now kill pickup).powerUpManager.maxPowerUps
      = g.powerUpManager.maxPowerUps :=
  Game.bulletZombiePass_rate M kill g.bulletManager.bullets.length g

/-! ## The wave director's bookkeeping -/

/-- The bookkeeping of the wave director only reads `wave`, `waveZombiesTotal`, the drop
chance and the power-up cap. -/
theorem Game.directorInv.of_fields {g h : Game} (hg : g.directorInv) (e1 : h.wave = g.wave)
    (e2 : h.waveZombiesTotal = g.waveZombiesTotal)
    (e3 : h.powerUpManager.spawnRate = g.powerUpManager.spawnRate)
    (e4 : h.powerUpManager.maxPowerUps = g.powerUpManager.maxPowerUps) : h.directorInv := by
  unfold Game.directorInv at *
  rw [e1, e2, e3, e4]
  exact hg

/-- A completed `Game.nextWave` sets the drop chance to `min(0.15, 0.05 + wave * 0.01)` for
the new wave and keeps the power-up cap. -/
theorem Game.nextWave_rate (g g1 : Game) (sideDraw coordDraw : ℚ)
    (h : g.nextWave sideDraw coordDraw = .ok g1) :
    g1.powerUpManager.spawnRate = min (3/20) (1/20 + ((g.wave + 1 : ℕ) : ℚ) * (1/100)) ∧
    g1.powerUpManager.maxPowerUps = g.powerUpManager.maxPowerUps := by
  unfold Game.nextWave at h
  dsimp only at h
  split_ifs at h
  · split at h
    · simp at h
    · injection h with h
      subst h
      exact ⟨rfl, rfl⟩
  · injection h with h
    subst h
    exact ⟨rfl, rfl⟩

/-- A completed `Game.nextWave` keeps the bookkeeping of the wave director. -/
theorem Game.nextWave_director (g g1 : Game) (sideDraw coordDraw : ℚ) (hg : g.directorInv)
    (h : g.nextWave sideDraw coordDraw = .ok g1) : g1.directorInv := by
  obtain ⟨hw, ht⟩ := Game.nextWave_wave g g1 sideDraw coordDraw h
  obtain ⟨hr, hm⟩ := Game.nextWave_rate g g1 sideDraw coordDraw h
  refine ⟨Or.inr ?_, hm.trans hg.2⟩
  rw [hw, ht, hr]
  exact ⟨by rcases hg.1 with h1 | h1 <;> omega, rfl, rfl⟩

/-- A completed `Game.updateWaveProgression` keeps the bookkeeping of the wave director. -/
theorem Game.updateWaveProgression_director (g g1 : Game) (sideDraw coordDraw : ℚ)
    (hg : g.directorInv) (h : g.updateWaveProgression sideDraw coordDraw = .ok g1) :
    g1.directorInv := by
  unfold Game.updateWaveProgression at h
  split_ifs at h
  · exact Game.nextWave_director g g1 sideDraw coordDraw hg h
  · injection h with h
    subst h
    exact hg

/-- The method `Game.checkCollisions` keeps the bookkeeping of the wave director. -/
theorem Game.checkCollisions_director (M : JsMath) (g : Game) (now : ℚ)
    (kill : ℕ → KillDraws) (pickup : ℕ → List Perk → List Perk) (hg : g.directorInv) :
    (g.checkCollisions M now kill pickup).directorInv :=
  hg.of_fields (Game.checkCollisions_wave M g now kill pickup).1
    (Game.checkCollisions_wave M g now kill pickup).2
    (Game.checkCollisions_rate M g now kill pickup).2.1
    (Game.checkCollisions_rate M g now kill pickup).2.2

/-- A completed `Game.update` keeps the bookkeeping of the wave director. -/
theorem Game.update_director (M : JsMath) (g : Game) (t : TickDraws)
    (r : Game × Option (List Perk)) (hg : g.directorInv) (h : g.update M t = .ok r) :
    r.1.directorInv := by
  obtain ⟨zombieManager, g2, _, hw, hr⟩ := Game.update_stages M g t r h
  have h0 : (g.entitiesUpdated M t zombieManager).directorInv := hg.of_fields rfl rfl rfl rfl
  have h1 := Game.checkCollisions_director M _ t.now t.kill t.pickup h0
  have h2 := Game.updateWaveProgression_director _ g2 t.bossSide t.bossCoord h1 hw
  have hf := Game.closeTick_frame g2 t.display
  rw [hr]
  exact h2.of_fields hf.1 hf.2.1 (by rw [hf.2.2.1]) (by rw [hf.2.2.1])

/-- A completed `Game.gameLoop` keeps the bookkeeping of the wave director. -/
theorem Game.gameLoop_director (M : JsMath) (g : Game) (currentTime : ℚ) (t : TickDraws)
    (r : Game × Option (List Perk)) (hg : g.directorInv)
    (h : g.gameLoop M currentTime t = .ok r) : r.1.directorInv := by
  unfold Game.gameLoop at h
  dsimp only at h
  split_ifs at h
  · refine Game.update_director M _ t r ?_ h
    exact hg.of_fields rfl rfl rfl rfl
  · injection h with h
    subst h
    exact hg.of_fields rfl rfl rfl rfl

/-- The method `Game.handleKeyPress` keeps the bookkeeping of the wave director. -/
theorem Game.handleKeyPress_director (g : Game) (now : ℚ) (code : KeyCode)
    (hg : g.directorInv) : (g.handleKeyPress now code).directorInv := by
  cases code <;> simp only [Game.handleKeyPress, Game.togglePause, Game.pause, Game.resume] <;>
    first
      | exact hg
      | (split_ifs <;> exact hg.of_fields rfl rfl rfl rfl)

/-- The method `Game.handleShoot` keeps the bookkeeping of the wave director. -/
theorem Game.handleShoot_director (M : JsMath) (g : Game) (now : ℚ) (rand : ℕ → ℚ)
    (hg : g.directorInv) : (g.handleShoot M now rand).directorInv := by
  unfold Game.handleShoot
  split_ifs
  · split <;> exact hg.of_fields rfl rfl rfl rfl
  · exact hg

/-- Every reachable session keeps the bookkeeping of the wave director. -/
theorem Game.Reachable.director {g : Game} (h : g.Reachable) : g.directorInv := by
  induction h with
  | new canvas => exact ⟨Or.inl ⟨rfl, rfl, rfl⟩, rfl⟩
  | restart _ ih => exact ⟨Or.inl ⟨rfl, rfl, rfl⟩, ih.2⟩
  | nextWave sideDraw coordDraw _ hstep ih =>
    exact Game.nextWave_director _ _ sideDraw coordDraw ih hstep
  | updateWaveProgression sideDraw coordDraw _ hstep ih =>
    exact Game.updateWaveProgression_director _ _ sideDraw coordDraw ih hstep
  | onZombieKilled M zombie isCritical d _ ih =>
    exact ih.of_fields rfl rfl (PowerUpManager.trySpawnPowerUp_rate M _ _ _ _).1
      (PowerUpManager.trySpawnPowerUp_rate M _ _ _ _).2
  | checkCollisions M now kill pickup _ ih =>
    exact Game.checkCollisions_director M _ now kill pickup ih
  | handleShoot M now rand _ ih => exact Game.handleShoot_director M _ now rand ih
  | update M t _ hstep ih => exact Game.update_director M _ t _ ih hstep
  | gameLoop M currentTime t _ hstep ih =>
    exact Game.gameLoop_director M _ currentTime t _ ih hstep
  | handleKeyPress now code _ ih => exact Game.handleKeyPress_director _ now code ih
  | resume _ ih => exact ih.of_fields rfl rfl rfl rfl
  | selectPerk index _ ih => exact ih.of_fields rfl rfl rfl rfl
  | input keys mouse _ ih => exact ih.of_fields rfl rfl rfl rfl

/-- The wave invariant: 10 required kills in wave 1, `floor(10 + wave * 2.5)` from wave 2
on. -/
theorem Game.Reachable.wave_total {g : Game} (h : g.Reachable) :
    (g.wave = 1 ∧ g.waveZombiesTotal = 10) ∨
    (2 ≤ g.wave ∧ g.waveZombiesTotal = ⌊(10 : ℚ) + (g.wave : ℚ) * (5/2)⌋) := by
  rcases h.director.1 with ⟨h1, h2, _⟩ | ⟨h1, h2, _⟩
  · exact Or.inl ⟨h1, h2⟩
  · exact Or.inr ⟨h1, h2⟩

/-- C10 (counterexample): a new game is in wave 1 with `waveZombiesTotal = 10`, while
`floor(10 + 1 * 2.5) = 12`; the same holds after `restart`. -/
theorem C10_counterexample :
    (Game.new fullCanvas).wave = 1 ∧
    (Game.new fullCanvas).waveZombiesTotal = 10 ∧
    (Game.new fullCanvas).restart.waveZombiesTotal = 10 ∧
    ⌊(10 : ℚ) + ((Game.new fullCanvas).wave : ℚ) * (5/2)⌋ = 12 ∧
    (Game.new fullCanvas).waveZombiesTotal
      ≠ ⌊(10 : ℚ) + ((Game.new fullCanvas).wave : ℚ) * (5/2)⌋ := by
  have hfloor : ⌊(10 : ℚ) + ((Game.new fullCanvas).wave : ℚ) * (5/2)⌋ = 12 := by
    norm_num [Game.new]
  refine ⟨rfl, rfl, rfl, hfloor, ?_⟩
  rw [hfloor]
  show (10 : ℤ) ≠ 12
  decide

/-- C10 (as amended): in every reachable session state the required kill count is 10 while
the wave is 1 (a new game or a restarted one) and `floor(10 + wave * 2.5)` from wave 2 on,
that is after any `nextWave`; in particular it is 22 at wave 5 and 35 at wave 10. -/
theorem C10_wave_total (g : Game) (h : g.Reachable) :
    ((g.wave = 1 ∧ g.waveZombiesTotal = 10) ∨
      (2 ≤ g.wave ∧ g.waveZombiesTotal = ⌊(10 : ℚ) + (g.wave : ℚ) * (5/2)⌋)) ∧
    (g.wave = 5 → g.waveZombiesTotal = 22) ∧
    (g.wave = 10 → g.waveZombiesTotal = 35) := by
  have hinv := h.wave_total
  refine ⟨hinv, ?_, ?_⟩
  · intro hw
    rcases hinv with ⟨h1, _⟩ | ⟨_, ht⟩
    · omega
    · rw [ht, hw]
      norm_num
  · intro hw
    rcases hinv with ⟨h1, _⟩ | ⟨_, ht⟩
    · omega
    · rw [ht, hw]
      norm_num

/-- The first wave advance of a new game on the full canvas completes and gives
`waveTwoGame`. -/
theorem Game.nextWave_new :
    (Game.new fullCanvas).nextWave 0 (1/2) = .ok waveTwoGame := by
  norm_num [Game.nextWave, Game.new, waveTwoGame]

/-- C10 (worked input for the amended claim): the session after the first wave advance is
reachable, in wave 2, and requires `15 = floor(10 + 2 * 2.5)` kills. -/
theorem C10_wave_total_witness :
    waveTwoGame.Reachable ∧
    (((waveTwoGame.wave = 1 ∧ waveTwoGame.waveZombiesTotal = 10) ∨
      (2 ≤ waveTwoGame.wave ∧
        waveTwoGame.waveZombiesTotal = ⌊(10 : ℚ) + (waveTwoGame.wave : ℚ) * (5/2)⌋)) ∧
    (waveTwoGame.wave = 5 → waveTwoGame.waveZombiesTotal = 22) ∧
    (waveTwoGame.wave = 10 → waveTwoGame.waveZombiesTotal = 35)) :=
  ⟨Game.Reachable.nextWave 0 (1/2) (Game.Reachable.new fullCanvas) Game.nextWave_new,
   C10_wave_total waveTwoGame
    (Game.Reachable.nextWave 0 (1/2) (Game.Reachable.new fullCanvas) Game.nextWave_new)⟩

/-! ## C20 -/

/-- The type picked by `getRandomPowerUpType` is the one returned inside the loop, or
`'health'` when the loop falls through. -/
theorem PowerUpManager.pickType_eq (table : List (PowerUpType × ℚ)) (random : ℚ) :
    PowerUpManager.pickType table random
      = (PowerUpManager.pickInLoop table random).getD PowerUpType.health := by
  induction table generalizing random with
  | nil => rfl
  | cons entry rest ih =>
    obtain ⟨type, weight⟩ := entry
    simp only [PowerUpManager.pickType, PowerUpManager.pickInLoop]
    split_ifs
    · rfl
    · exact ih _

/-- The weights of the new manager add up to 100. -/
theorem PowerUpManager.new_totalWeight : PowerUpManager.new.totalWeight = 100 := by
  norm_num [PowerUpManager.new, dropWeightTable]

/-- The loop on the drop-weight table, interval by interval. -/
theorem PowerUpManager.pickInLoop_table (r : ℚ) :
    (r ≤ 30 → PowerUpManager.pickInLoop dropWeightTable r = some PowerUpType.health) ∧
    (30 < r → r ≤ 55 → PowerUpManager.pickInLoop dropWeightTable r = some PowerUpType.ammo) ∧
    (55 < r → r ≤ 75 → PowerUpManager.pickInLoop dropWeightTable r = some PowerUpType.xp) ∧
    (75 < r → r ≤ 85 → PowerUpManager.pickInLoop dropWeightTable r = some PowerUpType.damage) ∧
    (85 < r → r ≤ 93 → PowerUpManager.pickInLoop dropWeightTable r = some PowerUpType.speed) ∧
    (93 < r → r ≤ 98 →
      PowerUpManager.pickInLoop dropWeightTable r = some PowerUpType.multishot) ∧
    (98 < r → r ≤ 100 → PowerUpManager.pickInLoop dropWeightTable r = some PowerUpType.shield) ∧
    (100 < r → PowerUpManager.pickInLoop dropWeightTable r = none) := by
  simp only [dropWeightTable, PowerUpManager.pickInLoop]
  refine ⟨?_, ?_, ?_, ?_, ?_, ?_, ?_, ?_⟩
  · intro h
    rw [if_pos (by linarith)]
  · intro h1 h2
    rw [if_neg (by linarith), if_pos (by linarith)]
  · intro h1 h2
    rw [if_neg (by linarith), if_neg (by linarith), if_pos (by linarith)]
  · intro h1 h2
    rw [if_neg (by linarith), if_neg (by linarith), if_neg (by linarith), if_pos (by linarith)]
  · intro h1 h2
    rw [if_neg (by linarith), if_neg (by linarith), if_neg (by linarith),
      if_neg (by linarith), if_pos (by linarith)]
  · intro h1 h2
    rw [if_neg (by linarith), if_neg (by linarith), if_neg (by linarith),
      if_neg (by linarith), if_neg (by linarith), if_pos (by linarith)]
  · intro h1 h2
    rw [if_neg (by linarith), if_neg (by linarith), if_neg (by linarith),
      if_neg (by linarith), if_neg (by linarith), if_neg (by linarith), if_pos (by linarith)]
  · intro h1
    rw [if_neg (by linarith), if_neg (by linarith), if_neg (by linarith),
      if_neg (by linarith), if_neg (by linarith), if_neg (by linarith), if_neg (by linarith)]

/-- C20: the drop weights sum to 100, and for every `Math.random()` result `draw` in `[0, 1)`,
with `r = draw * totalWeight` in `[0, 100)`, `getRandomPowerUpType` returns inside the loop
(the fallback is not reached) the type whose cumulative interval contains `r`: health for
`r <= 30`, ammo for `30 < r <= 30 + 25`, xp for `55 < r <= 55 + 20`, damage for
`75 < r <= 75 + 10`, speed for `85 < r <= 85 + 8`, multishot for `93 < r <= 93 + 5` and
shield for `98 < r`, that is for `98 < r < 98 + 2`. -/
theorem C20_weighted_draw (draw : ℚ) (h0 : 0 ≤ draw) (h1 : draw < 1) :
    PowerUpManager.new.totalWeight = 100 ∧
    (0 ≤ draw * PowerUpManager.new.totalWeight ∧ draw * PowerUpManager.new.totalWeight < 100) ∧
    PowerUpManager.pickInLoop PowerUpManager.new.dropWeights
        (draw * PowerUpManager.new.totalWeight)
      = some (PowerUpManager.new.getRandomPowerUpType draw) ∧
    (PowerUpManager.new.getRandomPowerUpType draw = PowerUpType.health
      ↔ draw * PowerUpManager.new.totalWeight ≤ 30) ∧
    (PowerUpManager.new.getRandomPowerUpType draw = PowerUpType.ammo
      ↔ 30 < draw * PowerUpManager.new.totalWeight ∧
        draw * PowerUpManager.new.totalWeight ≤ 30 + 25) ∧
    (PowerUpManager.new.getRandomPowerUpType draw = PowerUpType.xp
      ↔ 55 < draw * PowerUpManager.new.totalWeight ∧
        draw * PowerUpManager.new.totalWeight ≤ 55 + 20) ∧
    (PowerUpManager.new.getRandomPowerUpType draw = PowerUpType.damage
      ↔ 75 < draw * PowerUpManager.new.totalWeight ∧
        draw * PowerUpManager.new.totalWeight ≤ 75 + 10) ∧
    (PowerUpManager.new.getRandomPowerUpType draw = PowerUpType.speed
      ↔ 85 < draw * PowerUpManager.new.totalWeight ∧
        draw * PowerUpManager.new.totalWeight ≤ 85 + 8) ∧
    (PowerUpManager.new.getRandomPowerUpType draw = PowerUpType.multishot
      ↔ 93 < draw * PowerUpManager.new.totalWeight ∧
        draw * PowerUpManager.new.totalWeight ≤ 93 + 5) ∧
    (PowerUpManager.new.getRandomPowerUpType draw = PowerUpType.shield
      ↔ 98 < draw * PowerUpManager.new.totalWeight ∧
        draw * PowerUpManager.new.totalWeight < 98 + 2) := by
  rw [PowerUpManager.new_totalWeight]
  have hr0 : 0 ≤ draw * 100 := by linarith
  have hr1 : draw * 100 < 100 := by linarith
  have htab : PowerUpManager.new.dropWeights = dropWeightTable := rfl
  have hget : PowerUpManager.new.getRandomPowerUpType draw
      = (PowerUpManager.pickInLoop dropWeightTable (draw * 100)).getD PowerUpType.health := by
    rw [PowerUpManager.getRandomPowerUpType, PowerUpManager.new_totalWeight, htab,
      PowerUpManager.pickType_eq]
  rw [hget, htab]
  generalize draw * 100 = r at hr0 hr1
  obtain ⟨t1, t2, t3, t4, t5, t6, t7, _⟩ := PowerUpManager.pickInLoop_table r
  refine ⟨rfl, ⟨hr0, hr1⟩, ?_⟩
  have hcases : r ≤ 30 ∨ (30 < r ∧ r ≤ 55) ∨ (55 < r ∧ r ≤ 75) ∨ (75 < r ∧ r ≤ 85) ∨
      (85 < r ∧ r ≤ 93) ∨ (93 < r ∧ r ≤ 98) ∨ (98 < r ∧ r ≤ 100) := by
    by_cases c1 : r ≤ 30
    · exact Or.inl c1
    by_cases c2 : r ≤ 55
    · exact Or.inr (Or.inl ⟨not_le.mp c1, c2⟩)
    by_cases c3 : r ≤ 75
    · exact Or.inr (Or.inr (Or.inl ⟨not_le.mp c2, c3⟩))
    by_cases c4 : r ≤ 85
    · exact Or.inr (Or.inr (Or.inr (Or.inl ⟨not_le.mp c3, c4⟩)))
    by_cases c5 : r ≤ 93
    · exact Or.inr (Or.inr (Or.inr (Or.inr (Or.inl ⟨not_le.mp c4, c5⟩))))
    by_cases c6 : r ≤ 98
    · exact Or.inr (Or.inr (Or.inr (Or.inr (Or.inr (Or.inl ⟨not_le.mp c5, c6⟩)))))
    · exact Or.inr (Or.inr (Or.inr (Or.inr (Or.inr (Or.inr ⟨not_le.mp c6, le_of_lt hr1⟩)))))
  rcases hcases with c | ⟨c, c'⟩ | ⟨c, c'⟩ | ⟨c, c'⟩ | ⟨c, c'⟩ | ⟨c, c'⟩ | ⟨c, c'⟩
  · rw [t1 c, Option.getD_some]
    refine ⟨rfl, ?_, ?_, ?_, ?_, ?_, ?_, ?_⟩ <;> first
      | exact iff_of_true rfl (by linarith)
      | exact iff_of_false (by decide) (by intro a; linarith)
  · rw [t2 c c', Option.getD_some]
    refine ⟨rfl, ?_, ?_, ?_, ?_, ?_, ?_, ?_⟩ <;> first
      | exact iff_of_true rfl (by linarith)
      | exact iff_of_true rfl ⟨(by linarith), (by linarith)⟩
      | exact iff_of_false (by decide) (by intro a; linarith)
  · rw [t3 c c', Option.getD_some]
    refine ⟨rfl, ?_, ?_, ?_, ?_, ?_, ?_, ?_⟩ <;> first
      | exact iff_of_true rfl (by linarith)
      | exact iff_of_true rfl ⟨(by linarith), (by linarith)⟩
      | exact iff_of_false (by decide) (by intro a; linarith)
  · rw [t4 c c', Option.getD_some]
    refine ⟨rfl, ?_, ?_, ?_, ?_, ?_, ?_, ?_⟩ <;> first
      | exact iff_of_true rfl (by linarith)
      | exact iff_of_true rfl ⟨(by linarith), (by linarith)⟩
      | exact iff_of_false (by decide) (by intro a; linarith)
  · rw [t5 c c', Option.getD_some]
    refine ⟨rfl, ?_, ?_, ?_, ?_, ?_, ?_, ?_⟩ <;> first
      | exact iff_of_true rfl (by linarith)
      | exact iff_of_true rfl ⟨(by linarith), (by linarith)⟩
      | exact iff_of_false (by decide) (by intro a; linarith)
  · rw [t6 c c', Option.getD_some]
    refine ⟨rfl, ?_, ?_, ?_, ?_, ?_, ?_, ?_⟩ <;> first
      | exact iff_of_true rfl (by linarith)
      | exact iff_of_true rfl ⟨(by linarith), (by linarith)⟩
      | exact iff_of_false (by decide) (by intro a; linarith)
  · rw [t7 c c', Option.getD_some]
    refine ⟨rfl, ?_, ?_, ?_, ?_, ?_, ?_, ?_⟩ <;> first
      | exact iff_of_true rfl (by linarith)
      | exact iff_of_true rfl ⟨(by linarith), (by linarith)⟩
      | exact iff_of_false (by decide) (by intro a; linarith)

/-- C20 (worked inputs): the draw `0.5` gives `r = 50`, inside the ammo interval `(30, 55]`,
and the draw `0` gives `r = 0`, which yields health. -/
theorem C20_weighted_draw_witness :
    PowerUpManager.new.getRandomPowerUpType (1/2) = PowerUpType.ammo ∧
    PowerUpManager.new.getRandomPowerUpType 0 = PowerUpType.health :=
  ⟨(C20_weighted_draw (1/2) (by norm_num) (by norm_num)).2.2.2.2.1.mpr
      (by rw [PowerUpManager.new_totalWeight]; norm_num),
   (C20_weighted_draw 0 (by norm_num) (by norm_num)).2.2.2.1.mpr
      (by rw [PowerUpManager.new_totalWeight]; norm_num)⟩

/-! ## C13 -/

/-- A level-conditional unlock changes neither `level`, `xp` nor `xpToNextLevel`. -/
theorem Player.unlockAtLevel_frame (p : Player) (level : ℕ) (i : Fin 5) :
    (p.unlockAtLevel level i).level = p.level ∧
    (p.unlockAtLevel level i).xp = p.xp ∧
    (p.unlockAtLevel level i).xpToNextLevel = p.xpToNextLevel := by
  unfold Player.unlockAtLevel
  split_ifs <;> exact ⟨rfl, rfl, rfl⟩

/-- A level-conditional unlock at the player's level unlocks the weapon. -/
theorem Player.unlockAtLevel_unlocks (p : Player) (level : ℕ) (i : Fin 5)
    (h : p.level = level) : ((p.unlockAtLevel level i).weapons i).unlocked = true := by
  simp [Player.unlockAtLevel, h, Player.unlockWeapon]

/-- A level-conditional unlock keeps every unlocked weapon unlocked. -/
theorem Player.unlockAtLevel_keeps (p : Player) (level : ℕ) (i j : Fin 5)
    (h : (p.weapons j).unlocked = true) :
    ((p.unlockAtLevel level i).weapons j).unlocked = true := by
  unfold Player.unlockAtLevel
  split_ifs
  · by_cases hij : j = i
    · subst hij
      simp [Player.unlockWeapon]
    · simp [Player.unlockWeapon, Function.update_noteq hij, h]
  · exact h

/-- C13: `Player.gainXP(a)` levels up exactly when `xp + a >= xpToNextLevel`.  On a level-up
the new `xp` is `xp + a - xpToNextLevel`, the new `xpToNextLevel` is
`floor(1.2 * xpToNextLevel)`, `level` grows by 1, and reaching level 3, 5, 8 or 12 sets
`weapons[1]`, `[2]`, `[3]` or `[4]` unlocked; without a level-up the result is the player with
only `xp` replaced by `xp + a`. -/
theorem C13_gainXP (p : Player) (a : ℚ) (shuffle : List Perk → List Perk) :
    ((p.gainXP a shuffle).level = p.level + 1 ↔ p.xp + a ≥ p.xpToNextLevel) ∧
    (p.xp + a ≥ p.xpToNextLevel →
      (p.gainXP a shuffle).xp = p.xp + a - p.xpToNextLevel ∧
      (p.gainXP a shuffle).xpToNextLevel = ((⌊(6/5) * p.xpToNextLevel⌋ : ℤ) : ℚ) ∧
      (p.gainXP a shuffle).level = p.level + 1 ∧
      (p.level + 1 = 3 → ((p.gainXP a shuffle).weapons 1).unlocked = true) ∧
      (p.level + 1 = 5 → ((p.gainXP a shuffle).weapons 2).unlocked = true) ∧
      (p.level + 1 = 8 → ((p.gainXP a shuffle).weapons 3).unlocked = true) ∧
      (p.level + 1 = 12 → ((p.gainXP a shuffle).weapons 4).unlocked = true)) ∧
    (p.xp + a < p.xpToNextLevel → p.gainXP a shuffle = { p with xp := p.xp + a }) := by
  have hup : p.xp + a ≥ p.xpToNextLevel →
      p.gainXP a shuffle = ({ p with xp := p.xp + a } : Player).levelUp shuffle := by
    intro h
    simp only [Player.gainXP, ge_iff_le, if_pos h]
  have hstay : p.xp + a < p.xpToNextLevel → p.gainXP a shuffle = { p with xp := p.xp + a } := by
    intro h
    simp only [Player.gainXP, ge_iff_le, if_neg (not_le.mpr h)]
  refine ⟨?_, ?_, hstay⟩
  · constructor
    · intro hl
      by_contra hc
      rw [hstay (not_le.mp hc)] at hl
      simp at hl
    · intro h
      rw [hup h, Player.levelUp_eq]
      simp only [(Player.unlockAtLevel_frame _ _ _).1]
  · intro h
    rw [hup h, Player.levelUp_eq]
    refine ⟨?_, ?_, ?_, ?_, ?_, ?_, ?_⟩
    · simp only [(Player.unlockAtLevel_frame _ _ _).2.1]
    · simp only [(Player.unlockAtLevel_frame _ _ _).2.2, mul_comm]
    · simp only [(Player.unlockAtLevel_frame _ _ _).1]
    · intro hl
      exact Player.unlockAtLevel_keeps _ 12 4 1 (Player.unlockAtLevel_keeps _ 8 3 1
        (Player.unlockAtLevel_keeps _ 5 2 1 (Player.unlockAtLevel_unlocks _ 3 1 hl)))
    · intro hl
      exact Player.unlockAtLevel_keeps _ 12 4 2 (Player.unlockAtLevel_keeps _ 8 3 2
        (Player.unlockAtLevel_unlocks _ 5 2
          (((Player.unlockAtLevel_frame _ 3 1).1).trans hl)))
    · intro hl
      exact Player.unlockAtLevel_keeps _ 12 4 3 (Player.unlockAtLevel_unlocks _ 8 3
        (((Player.unlockAtLevel_frame _ 5 2).1).trans
          (((Player.unlockAtLevel_frame _ 3 1).1).trans hl)))
    · intro hl
      exact Player.unlockAtLevel_unlocks _ 12 4
        (((Player.unlockAtLevel_frame _ 8 3).1).trans
          (((Player.unlockAtLevel_frame _ 5 2).1).trans
            (((Player.unlockAtLevel_frame _ 3 1).1).trans hl)))

/-- C13 (worked inputs): a new player (xp 0, threshold 100) gaining 100 XP levels up to level
2 with xp 0 and threshold `floor(1.2 * 100)`; gaining 50 XP only sets xp to 50. -/
theorem C13_gainXP_witness :
    (((Player.new 0 0).gainXP 100 (fun perks => perks)).xp
        = (Player.new 0 0).xp + 100 - (Player.new 0 0).xpToNextLevel ∧
      ((Player.new 0 0).gainXP 100 (fun perks => perks)).xpToNextLevel
        = ((⌊(6/5) * (Player.new 0 0).xpToNextLevel⌋ : ℤ) : ℚ) ∧
      ((Player.new 0 0).gainXP 100 (fun perks => perks)).level = (Player.new 0 0).level + 1) ∧
    (Player.new 0 0).gainXP 50 (fun perks => perks)
      = { Player.new 0 0 with xp := (Player.new 0 0).xp + 50 } :=
  ⟨⟨((C13_gainXP (Player.new 0 0) 100 (fun perks => perks)).2.1
        (by norm_num [Player.new])).1,
    ((C13_gainXP (Player.new 0 0) 100 (fun perks => perks)).2.1
        (by norm_num [Player.new])).2.1,
    ((C13_gainXP (Player.new 0 0) 100 (fun perks => perks)).2.1
        (by norm_num [Player.new])).2.2.1⟩,
   (C13_gainXP (Player.new 0 0) 50 (fun perks => perks)).2.2 (by norm_num [Player.new])⟩

/-! ## C12 and C11: wave advance -/

/-- A side draw in `[0, 1)` selects one of the four sides: the spawn position is defined. -/
theorem ZombieManager.getRandomSpawnPosition_isSome (canvas : Canvas) (sideDraw coordDraw : ℚ)
    (h0 : 0 ≤ sideDraw) (h1 : sideDraw < 1) :
    ∃ pos, ZombieManager.getRandomSpawnPosition canvas sideDraw coordDraw = some pos := by
  have hlo : 0 ≤ ⌊sideDraw * 4⌋ := Int.floor_nonneg.mpr (by linarith)
  have hhi : ⌊sideDraw * 4⌋ < 4 := Int.floor_lt.mpr (by push_cast; linarith)
  simp only [ZombieManager.getRandomSpawnPosition]
  split_ifs
  · exact ⟨_, rfl⟩
  · exact ⟨_, rfl⟩
  · exact ⟨_, rfl⟩
  · exact ⟨_, rfl⟩
  · exfalso
    omega

/-- With a side draw in `[0, 1)`, `spawnBoss` appends exactly one zombie: a live brute with
three times the health, twice the damage, five times the score and XP values and one and a
half times the radius of the brute archetype. -/
theorem ZombieManager.spawnBoss_ok (zm : ZombieManager) (canvas : Canvas)
    (sideDraw coordDraw : ℚ) (h0 : 0 ≤ sideDraw) (h1 : sideDraw < 1) :
    ∃ boss : Zombie,
      zm.spawnBoss canvas sideDraw coordDraw = .ok { zm with zombies := zm.zombies ++ [boss] } ∧
      boss.type = ZombieType.brute ∧ boss.alive = true ∧
      boss.health = 3 * 200 ∧ boss.maxHealth = 3 * 200 ∧ boss.damage = 2 * 30 ∧
      boss.scoreValue = 5 * 50 ∧ boss.xpValue = 5 * 25 ∧ boss.radius = (3/2) * 25 := by
  obtain ⟨pos, hpos⟩ :=
    ZombieManager.getRandomSpawnPosition_isSome canvas sideDraw coordDraw h0 h1
  simp only [ZombieManager.spawnBoss, hpos]
  refine ⟨_, rfl, ?_, ?_, ?_, ?_, ?_, ?_, ?_, ?_⟩ <;> norm_num [Zombie.new]

/-- C12: with the side draw of `spawnBoss` in `[0, 1)`, `Game.nextWave` completes; when the
new wave number is not divisible by 5 the zombie array is unchanged, and when it is divisible
by 5 exactly one zombie is appended: a live brute with `health = maxHealth = 3 * 200`,
`damage = 2 * 30`, `scoreValue = 5 * 50`, `xpValue = 5 * 25` and `radius = 1.5 * 25`, whatever
the wave number. -/
theorem C12_boss_spawn (g : Game) (sideDraw coordDraw : ℚ) (h0 : 0 ≤ sideDraw)
    (h1 : sideDraw < 1) :
    ∃ g1 : Game, g.nextWave sideDraw coordDraw = .ok g1 ∧
      ((g.wave + 1) % 5 ≠ 0 → g1.zombieManager.zombies = g.zombieManager.zombies) ∧
      ((g.wave + 1) % 5 = 0 → ∃ boss : Zombie,
        g1.zombieManager.zombies = g.zombieManager.zombies ++ [boss] ∧
        boss.type = ZombieType.brute ∧ boss.alive = true ∧
        boss.health = 3 * 200 ∧ boss.maxHealth = 3 * 200 ∧ boss.damage = 2 * 30 ∧
        boss.scoreValue = 5 * 50 ∧ boss.xpValue = 5 * 25 ∧ boss.radius = (3/2) * 25) := by
  by_cases hw : (g.wave + 1) % 5 = 0
  · obtain ⟨boss, hok, hboss⟩ :=
      ZombieManager.spawnBoss_ok g.zombieManager.increaseDifficulty g.canvas sideDraw
        coordDraw h0 h1
    simp only [Game.nextWave, if_pos hw, hok]
    exact ⟨_, rfl, fun hne => absurd hw hne, fun _ => ⟨boss, rfl, hboss⟩⟩
  · simp only [Game.nextWave, if_neg hw]
    exact ⟨_, rfl, fun _ => rfl, fun h => absurd h hw⟩

/-- C12 (worked input): from wave 4 the advance to wave 5 completes and appends one boss with
the stated values. -/
theorem C12_boss_spawn_witness :
    ∃ g1 : Game, waveFourGame.nextWave 0 (1/2) = .ok g1 ∧
      ((waveFourGame.wave + 1) % 5 ≠ 0 →
        g1.zombieManager.zombies = waveFourGame.zombieManager.zombies) ∧
      ((waveFourGame.wave + 1) % 5 = 0 → ∃ boss : Zombie,
        g1.zombieManager.zombies = waveFourGame.zombieManager.zombies ++ [boss] ∧
        boss.type = ZombieType.brute ∧ boss.alive = true ∧
        boss.health = 3 * 200 ∧ boss.maxHealth = 3 * 200 ∧ boss.damage = 2 * 30 ∧
        boss.scoreValue = 5 * 50 ∧ boss.xpValue = 5 * 25 ∧ boss.radius = (3/2) * 25) :=
  C12_boss_spawn waveFourGame 0 (1/2) (by norm_num) (by norm_num)

/-- With the side draw of `spawnBoss` in `[0, 1)`, `Game.nextWave` completes. -/
theorem Game.nextWave_ok (g : Game) (sideDraw coordDraw : ℚ) (h0 : 0 ≤ sideDraw)
    (h1 : sideDraw < 1) : ∃ g1 : Game, g.nextWave sideDraw coordDraw = .ok g1 := by
  by_cases hw : (g.wave + 1) % 5 = 0
  · obtain ⟨boss, hok, _⟩ :=
      ZombieManager.spawnBoss_ok g.zombieManager.increaseDifficulty g.canvas sideDraw
        coordDraw h0 h1
    simp only [Game.nextWave, if_pos hw, hok]
    exact ⟨_, rfl⟩
  · simp only [Game.nextWave, if_neg hw]
    exact ⟨_, rfl⟩

/-- A completed `Game.nextWave` resets the kill counter of the wave. -/
theorem Game.nextWave_killed (g g1 : Game) (sideDraw coordDraw : ℚ)
    (h : g.nextWave sideDraw coordDraw = .ok g1) : g1.waveZombiesKilled = 0 := by
  unfold Game.nextWave at h
  dsimp only at h
  split_ifs at h
  · split at h
    · simp at h
    · injection h with h
      subst h
      rfl
  · injection h with h
    subst h
    rfl

/-- C11 (counterexample): ten kills are counted against a quota of ten and the only zombie in
the array is not alive, yet `updateWaveProgression` returns the session unchanged: the wave
does not advance while the array still holds the killed zombie. -/
theorem C11_counterexample :
    ((justClearedGame.waveZombiesKilled : ℤ) ≥ justClearedGame.waveZombiesTotal) ∧
    (∀ z ∈ justClearedGame.zombieManager.zombies, z.alive = false) ∧
    justClearedGame.updateWaveProgression 0 (1/2) = .ok justClearedGame ∧
    ¬ (∃ g1 : Game, justClearedGame.updateWaveProgression 0 (1/2) = .ok g1 ∧
        g1.wave = justClearedGame.wave + 1) := by
  have hstay : justClearedGame.updateWaveProgression 0 (1/2) = .ok justClearedGame := by
    simp [Game.updateWaveProgression, justClearedGame]
  refine ⟨by decide, ?_, hstay, ?_⟩
  · intro z hz
    have hz1 : z = deadWalker := by simpa [justClearedGame] using hz
    rw [hz1]
    norm_num [deadWalker, duelZombie, Zombie.new, Zombie.takeDamage]
  · rintro ⟨g1, hg1, hw⟩
    rw [hstay] at hg1
    injection hg1 with hg1
    rw [← hg1] at hw
    simp at hw

/-- C11 (as amended): with the side draw of `spawnBoss` in `[0, 1)`, `updateWaveProgression`
completes, and it advances the wave (`wave` grows by exactly 1 and `waveZombiesKilled`
becomes 0) if and only if `waveZombiesKilled >= waveZombiesTotal` and the zombie array is
empty; otherwise the session, `wave` and `waveZombiesKilled` included, is unchanged. -/
theorem C11_wave_progression (g : Game) (sideDraw coordDraw : ℚ) (h0 : 0 ≤ sideDraw)
    (h1 : sideDraw < 1) :
    ∃ g1 : Game, g.updateWaveProgression sideDraw coordDraw = .ok g1 ∧
      ((g1.wave = g.wave + 1 ∧ g1.waveZombiesKilled = 0) ↔
        ((g.waveZombiesKilled : ℤ) ≥ g.waveZombiesTotal ∧
          g.zombieManager.zombies.length = 0)) ∧
      (¬ ((g.waveZombiesKilled : ℤ) ≥ g.waveZombiesTotal ∧
          g.zombieManager.zombies.length = 0) →
        g1 = g ∧ g1.wave = g.wave ∧ g1.waveZombiesKilled = g.waveZombiesKilled) := by
  by_cases hc : (g.waveZombiesKilled : ℤ) ≥ g.waveZombiesTotal ∧
      g.zombieManager.zombies.length = 0
  · obtain ⟨g1, hg1⟩ := Game.nextWave_ok g sideDraw coordDraw h0 h1
    refine ⟨g1, ?_, ?_, fun hn => absurd hc hn⟩
    · simp only [Game.updateWaveProgression, if_pos hc, hg1]
    · exact iff_of_true ⟨(Game.nextWave_wave g g1 sideDraw coordDraw hg1).1,
        Game.nextWave_killed g g1 sideDraw coordDraw hg1⟩ hc
  · refine ⟨g, ?_, ?_, fun _ => ⟨rfl, rfl, rfl⟩⟩
    · simp only [Game.updateWaveProgression, if_neg hc]
    · exact iff_of_false (fun h => by omega) hc

/-- C11 (worked inputs for the amended claim): a new game with ten kills counted and an empty
zombie array advances to wave 2 with the kill counter reset, and a new game without kills
stays as it is. -/
theorem C11_wave_progression_witness :
    (∃ g1 : Game,
      ({ Game.new fullCanvas with waveZombiesKilled := 10 } : Game).updateWaveProgression 0
          (1/2) = .ok g1 ∧ g1.wave = 2 ∧ g1.waveZombiesKilled = 0) ∧
    (∃ g1 : Game, (Game.new fullCanvas).updateWaveProgression 0 (1/2) = .ok g1 ∧
      g1 = Game.new fullCanvas) := by
  constructor
  · obtain ⟨g1, hg1, hiff, _⟩ :=
      C11_wave_progression ({ Game.new fullCanvas with waveZombiesKilled := 10 } : Game) 0
        (1/2) (by norm_num) (by norm_num)
    have hadv := hiff.mpr ⟨by decide, rfl⟩
    exact ⟨g1, hg1, hadv.1, hadv.2⟩
  · obtain ⟨g1, hg1, _, hstay⟩ :=
      C11_wave_progression (Game.new fullCanvas) 0 (1/2) (by norm_num) (by norm_num)
    exact ⟨g1, hg1, (hstay (by decide)).1⟩

/-! ## Movement and dash: C14, C15, C16 -/

/-- The method `Player.handleMovement` is the dash step followed by the position update with
the normalised intent and the current speed. -/
theorem Player.handleMovement_eq (p : Player) (deltaTime : ℚ) (keys : Keys) :
    p.handleMovement deltaTime keys
      = { p.startDash keys with
          x := (p.startDash keys).x + keys.move.1 * (p.startDash keys).currentSpeed * deltaTime
          y := (p.startDash keys).y + keys.move.2 * (p.startDash keys).currentSpeed * deltaTime }
    := rfl

/-- Each raw intent component is 0 or has square 1. -/
theorem Keys.rawMove_sq (keys : Keys) :
    (keys.rawMove.1 = 0 ∨ keys.rawMove.1 ^ 2 = 1) ∧
    (keys.rawMove.2 = 0 ∨ keys.rawMove.2 ^ 2 = 1) := by
  simp only [Keys.rawMove]
  constructor
  · cases (keys.keyA || keys.arrowLeft) <;> cases (keys.keyD || keys.arrowRight) <;> norm_num
  · cases (keys.keyW || keys.arrowUp) <;> cases (keys.keyS || keys.arrowDown) <;> norm_num

/-- With no movement key held the intent is zero. -/
theorem Keys.move_of_no_movement (keys : Keys) (hW : keys.keyW = false)
    (hUp : keys.arrowUp = false) (hS : keys.keyS = false) (hDown : keys.arrowDown = false)
    (hA : keys.keyA = false) (hLeft : keys.arrowLeft = false) (hD : keys.keyD = false)
    (hRight : keys.arrowRight = false) : keys.move = (0, 0) := by
  simp [Keys.move, Keys.rawMove, hW, hUp, hS, hDown, hA, hLeft, hD, hRight]

/-- A player whose constructor-only fields equal those of a tuned player is tuned. -/
theorem Player.tuned_of_eq (p q : Player) (h : p.tuned) (e1 : q.radius = p.radius)
    (e2 : q.healthRegenDelay = p.healthRegenDelay) (e3 : q.dashCost = p.dashCost)
    (e4 : q.dashSpeed = p.dashSpeed) (e5 : q.dashDuration = p.dashDuration)
    (e6 : q.staminaRegenRate = p.staminaRegenRate) : q.tuned := by
  unfold Player.tuned at *
  rw [e1, e2, e3, e4, e5, e6]
  exact h

/-- The dash step keeps the player tuned. -/
theorem Player.startDash_tuned (p : Player) (keys : Keys) (h : p.tuned) :
    (p.startDash keys).tuned := by
  unfold Player.startDash
  split_ifs
  · exact Player.tuned_of_eq p _ h rfl rfl rfl rfl rfl rfl
  · exact h

/-- The method `Player.update` keeps the player tuned. -/
theorem Player.update_tuned (M : JsMath) (p : Player) (now deltaTime : ℚ) (keys : Keys)
    (mouse : Mouse) (h : p.tuned) : (p.update M now deltaTime keys mouse).tuned := by
  rw [Player.update_eq_steps]
  have h1 : (p.updateBuffs now).tuned := h
  have h2 : ((p.updateBuffs now).finishReload now).tuned := by
    unfold Player.finishReload
    split_ifs
    · exact Player.tuned_of_eq _ _ h1 rfl rfl rfl rfl rfl rfl
    · exact h1
  have h3 : (((p.updateBuffs now).finishReload now).aim M mouse).tuned := h2
  have h4 : ((((p.updateBuffs now).finishReload now).aim M mouse).handleMovement deltaTime
      keys).tuned := by
    rw [Player.handleMovement_eq]
    exact Player.tuned_of_eq _ _ (Player.startDash_tuned _ keys h3) rfl rfl rfl rfl rfl rfl
  have h5 : (((((p.updateBuffs now).finishReload now).aim M mouse).handleMovement deltaTime
      keys).regenStamina deltaTime).tuned := by
    unfold Player.regenStamina
    split_ifs
    · exact Player.tuned_of_eq _ _ h4 rfl rfl rfl rfl rfl rfl
    · exact h4
  have h6 : ((((((p.updateBuffs now).finishReload now).aim M mouse).handleMovement deltaTime
      keys).regenStamina deltaTime).regenHealth now deltaTime).tuned := by
    unfold Player.regenHealth
    split_ifs
    · exact Player.tuned_of_eq _ _ h5 rfl rfl rfl rfl rfl rfl
    · exact h5
  simp only [Player.updateDash]
  split_ifs
  · exact Player.tuned_of_eq _ _ h6 rfl rfl rfl rfl rfl rfl
  · exact Player.tuned_of_eq _ _ h6 rfl rfl rfl rfl rfl rfl
  · exact h6

/-- The method `Player.levelUp` keeps the player tuned. -/
theorem Player.levelUp_tuned (p : Player) (shuffle : List Perk → List Perk) (h : p.tuned) :
    (p.levelUp shuffle).tuned := by
  have hunlock : ∀ (q : Player) (level : ℕ) (i : Fin 5), q.tuned →
      (q.unlockAtLevel level i).tuned := by
    intro q level i hq
    unfold Player.unlockAtLevel
    split_ifs
    · exact Player.tuned_of_eq q _ hq rfl rfl rfl rfl rfl rfl
    · exact hq
  have h0 : ({ p with level := p.level + 1, xp := p.xp - p.xpToNextLevel,
                      xpToNextLevel := ((⌊p.xpToNextLevel * (6/5)⌋ : ℤ) : ℚ) } : Player).tuned :=
    h
  rw [Player.levelUp_eq]
  exact Player.tuned_of_eq _ _
    (hunlock _ 12 4 (hunlock _ 8 3 (hunlock _ 5 2 (hunlock _ 3 1 h0))))
    rfl rfl rfl rfl rfl rfl

/-- The method `Player.gainXP` keeps the player tuned. -/
theorem Player.gainXP_tuned (p : Player) (amount : ℚ) (shuffle : List Perk → List Perk)
    (h : p.tuned) : (p.gainXP amount shuffle).tuned := by
  have h0 : ({ p with xp := p.xp + amount } : Player).tuned := h
  unfold Player.gainXP
  dsimp only
  split_ifs
  · exact Player.levelUp_tuned _ shuffle h0
  · exact h

/-- Collecting a power-up keeps the player tuned. -/
theorem PowerUp.collect_tuned (pu : PowerUp) (now : ℚ) (p : Player)
    (shuffle : List Perk → List Perk) (h : p.tuned) :
    (pu.collect now p shuffle).2.2.tuned := by
  unfold PowerUp.collect
  split_ifs
  · exact h
  · dsimp only [PowerUp.applyEffect]
    cases pu.type
    · exact Player.tuned_of_eq p _ h rfl rfl rfl rfl rfl rfl
    · exact Player.tuned_of_eq p _ h rfl rfl rfl rfl rfl rfl
    · exact Player.tuned_of_eq p _ h rfl rfl rfl rfl rfl rfl
    · exact Player.tuned_of_eq p _ h rfl rfl rfl rfl rfl rfl
    · exact Player.tuned_of_eq p _ h rfl rfl rfl rfl rfl rfl
    · exact Player.tuned_of_eq p _ h rfl rfl rfl rfl rfl rfl
    · exact Player.gainXP_tuned p 100 shuffle h

/-- The method `Player.selectPerk` keeps the player tuned. -/
theorem Player.selectPerk_tuned (p : Player) (index : ℕ) (h : p.tuned) :
    (p.selectPerk index).tuned := by
  unfold Player.selectPerk
  split
  · exact h
  · split
    · exact h
    · next perk _ =>
      cases perk <;> exact Player.tuned_of_eq p _ h rfl rfl rfl rfl rfl rfl

/-- Every reachable player state is tuned: the radius is 20, the regeneration delay 5000 ms,
the dash costs 30 stamina, runs at 500 units/s for 0.2 s, and stamina regenerates at 25/s. -/
theorem Player.Reachable.tuned {p : Player} (h : p.Reachable) : p.tuned := by
  induction h with
  | new x y => exact ⟨rfl, rfl, rfl, rfl, rfl, rfl⟩
  | update M now deltaTime keys mouse _ _ ih =>
    exact Player.update_tuned M _ now deltaTime keys mouse ih
  | shoot M now targetX targetY rand _ ih =>
    unfold Player.shoot
    dsimp only
    split_ifs
    · exact ih
    · exact Player.tuned_of_eq _ _ ih rfl rfl rfl rfl rfl rfl
    · exact Player.tuned_of_eq _ _ ih rfl rfl rfl rfl rfl rfl
  | reload now _ ih =>
    unfold Player.reload
    dsimp only
    split_ifs
    · exact Player.tuned_of_eq _ _ ih rfl rfl rfl rfl rfl rfl
    · exact ih
  | switchWeapon index _ ih =>
    unfold Player.switchWeapon
    dsimp only
    split_ifs
    · exact Player.tuned_of_eq _ _ ih rfl rfl rfl rfl rfl rfl
    · exact ih
    · exact ih
  | takeDamage now damage _ _ ih =>
    unfold Player.takeDamage
    dsimp only
    split_ifs
    · exact ih
    · exact Player.tuned_of_eq _ _ ih rfl rfl rfl rfl rfl rfl
    · exact Player.tuned_of_eq _ _ ih rfl rfl rfl rfl rfl rfl
  | gainXP amount shuffle _ _ ih => exact Player.gainXP_tuned _ amount shuffle ih
  | heal amount _ _ ih => exact Player.tuned_of_eq _ _ ih rfl rfl rfl rfl rfl rfl
  | collect pu now shuffle _ ih => exact PowerUp.collect_tuned pu now _ shuffle ih
  | selectPerk index _ ih => exact Player.selectPerk_tuned _ index ih

/-- The fields after the dash step: the position and the dash speed are kept; a dash that
starts sets the flag, takes `dashCost` stamina and sets `dashTime` to `dashDuration`;
otherwise the player is unchanged. -/
theorem Player.startDash_fields (p : Player) (keys : Keys) :
    (p.startDash keys).x = p.x ∧ (p.startDash keys).y = p.y ∧
    (p.startDash keys).dashSpeed = p.dashSpeed ∧
    ((keys.space = true ∧ p.isDashing = false ∧ p.stamina ≥ p.dashCost) →
      (p.startDash keys).isDashing = true ∧
      (p.startDash keys).stamina = p.stamina - p.dashCost ∧
      (p.startDash keys).dashTime = p.dashDuration) ∧
    (¬ (keys.space = true ∧ p.isDashing = false ∧ p.stamina ≥ p.dashCost) →
      p.startDash keys = p) := by
  unfold Player.startDash
  split_ifs with hc
  · exact ⟨rfl, rfl, rfl, fun _ => ⟨rfl, rfl, rfl⟩, fun hn => absurd hc hn⟩
  · exact ⟨rfl, rfl, rfl, fun h => absurd h hc, fun _ => rfl⟩

/-- C14: for a player whose dash constants are the constructor's (as in every reachable
state) and for every base speed, buff and perk list, `handleMovement` starts a dash exactly
when the dash key is held, the player is not already dashing and `stamina >= 30`; a dash that
starts takes exactly 30 stamina and sets `dashTime` to exactly 0.2; and whenever the player is
dashing after the dash step, the speed used for the position update is exactly 500. -/
theorem C14_dash (p : Player) (ht : p.tuned) (deltaTime : ℚ) (keys : Keys) :
    ((p.isDashing = false ∧ (p.handleMovement deltaTime keys).isDashing = true) ↔
      (keys.space = true ∧ p.isDashing = false ∧ p.stamina ≥ 30)) ∧
    ((p.isDashing = false ∧ (p.handleMovement deltaTime keys).isDashing = true) →
      (p.handleMovement deltaTime keys).stamina = p.stamina - 30 ∧
      (p.handleMovement deltaTime keys).dashTime = 1/5) ∧
    ((p.handleMovement deltaTime keys).isDashing = true →
      (p.startDash keys).currentSpeed = 500 ∧
      (p.handleMovement deltaTime keys).x = p.x + keys.move.1 * 500 * deltaTime ∧
      (p.handleMovement deltaTime keys).y = p.y + keys.move.2 * 500 * deltaTime) := by
  obtain ⟨_, _, hcost, hspeed, hdur, _⟩ := ht
  obtain ⟨hx, hy, hsp, hpos, hneg⟩ := Player.startDash_fields p keys
  have hq1 : (p.handleMovement deltaTime keys).isDashing = (p.startDash keys).isDashing := rfl
  have hq2 : (p.handleMovement deltaTime keys).stamina = (p.startDash keys).stamina := rfl
  have hq3 : (p.handleMovement deltaTime keys).dashTime = (p.startDash keys).dashTime := rfl
  have hq4 : (p.handleMovement deltaTime keys).x
      = (p.startDash keys).x + keys.move.1 * (p.startDash keys).currentSpeed * deltaTime := rfl
  have hq5 : (p.handleMovement deltaTime keys).y
      = (p.startDash keys).y + keys.move.2 * (p.startDash keys).currentSpeed * deltaTime := rfl
  have h500 : (p.startDash keys).isDashing = true → (p.startDash keys).currentSpeed = 500 := by
    intro hd
    simp only [Player.currentSpeed, hd, if_true]
    rw [hsp, hspeed]
  rw [hq1, hq2, hq3, hq4, hq5, hx, hy]
  refine ⟨?_, ?_, fun hd => ⟨h500 hd, by rw [h500 hd], by rw [h500 hd]⟩⟩
  · rw [← hcost]
    constructor
    · rintro ⟨h1, h2⟩
      by_contra hc
      rw [hneg hc, h1] at h2
      exact Bool.false_ne_true h2
    · intro hc
      exact ⟨hc.2.1, (hpos hc).1⟩
  · rintro ⟨h1, h2⟩
    have hc : keys.space = true ∧ p.isDashing = false ∧ p.stamina ≥ p.dashCost := by
      by_contra hc
      rw [hneg hc, h1] at h2
      exact Bool.false_ne_true h2
    rw [(hpos hc).2.1, (hpos hc).2.2, hcost, hdur]
    exact ⟨rfl, rfl⟩

/-- C14 (worked input): a new player (stamina 100, reachable, hence tuned) with the space bar
and the D key held starts a dash: stamina drops to `100 - 30`, `dashTime` is 0.2 and the step
moves at speed 500. -/
theorem C14_dash_witness :
    (Player.new 0 0).Reachable ∧
    ((Player.new 0 0).handleMovement (1/30) { rightKeys with space := true }).isDashing = true ∧
    ((Player.new 0 0).handleMovement (1/30) { rightKeys with space := true }).stamina
      = (Player.new 0 0).stamina - 30 ∧
    ((Player.new 0 0).handleMovement (1/30) { rightKeys with space := true }).dashTime = 1/5 ∧
    ((Player.new 0 0).startDash { rightKeys with space := true }).currentSpeed = 500 := by
  have hreach : (Player.new 0 0).Reachable := Player.Reachable.new 0 0
  have h := C14_dash (Player.new 0 0) hreach.tuned (1/30) { rightKeys with space := true }
  have hstart := h.1.mpr ⟨rfl, rfl, by norm_num [Player.new]⟩
  exact ⟨hreach, hstart.2, (h.2.1 hstart).1, (h.2.1 hstart).2, (h.2.2 hstart.2).1⟩

/-- C15 (counterexample): a new player first moves right for one 1/30 s step (to
`x = 25/3`), then holds only the dash key for a 1/30 s step.  The dash is triggered, but the
position does not change at all; the claimed displacement of `500 * dt` is not made. -/
theorem C15_counterexample :
    movedPlayer.x = 25/3 ∧ movedPlayer.y = 0 ∧
    (movedPlayer.handleMovement (1/30) dashKeys).isDashing = true ∧
    (movedPlayer.handleMovement (1/30) dashKeys).x = movedPlayer.x ∧
    (movedPlayer.handleMovement (1/30) dashKeys).y = movedPlayer.y ∧
    ((movedPlayer.handleMovement (1/30) dashKeys).x - movedPlayer.x) ^ 2
      + ((movedPlayer.handleMovement (1/30) dashKeys).y - movedPlayer.y) ^ 2
      ≠ (500 * (1/30)) ^ 2 := by
  have hmove : dashKeys.move = (0, 0) :=
    Keys.move_of_no_movement dashKeys rfl rfl rfl rfl rfl rfl rfl rfl
  have hx0 : movedPlayer.x = 25/3 := by
    norm_num [movedPlayer, Player.handleMovement_eq, Player.startDash, rightKeys, noKeys,
      Keys.move, Keys.rawMove, Player.currentSpeed, Player.getModifiedSpeed, perkMultiplier,
      Player.new]
  have hy0 : movedPlayer.y = 0 := by
    norm_num [movedPlayer, Player.handleMovement_eq, Player.startDash, rightKeys, noKeys,
      Keys.move, Keys.rawMove, Player.currentSpeed, Player.getModifiedSpeed, perkMultiplier,
      Player.new]
  have hd : (movedPlayer.handleMovement (1/30) dashKeys).isDashing = true := by
    norm_num [movedPlayer, Player.handleMovement_eq, Player.startDash, rightKeys, dashKeys,
      noKeys, Player.new]
  have hx : (movedPlayer.handleMovement (1/30) dashKeys).x = movedPlayer.x := by
    rw [Player.handleMovement_eq, hmove]
    simp [(Player.startDash_fields movedPlayer dashKeys).1]
  have hy : (movedPlayer.handleMovement (1/30) dashKeys).y = movedPlayer.y := by
    rw [Player.handleMovement_eq, hmove]
    simp [(Player.startDash_fields movedPlayer dashKeys).2.1]
  refine ⟨hx0, hy0, hd, hx, hy, ?_⟩
  rw [hx, hy]
  norm_num

/-- C15 (as amended): when a dash is triggered (dash key held, not already dashing,
`stamina >= 30`) on a player with the constructor's dash constants, that step displaces the
player by the movement intent of the keys held in the same step times `500 * dt`; in
particular, with no movement key held the position does not change. -/
theorem C15_dash_displacement (p : Player) (ht : p.tuned) (deltaTime : ℚ) (keys : Keys)
    (hspace : keys.space = true) (hnot : p.isDashing = false) (hsta : p.stamina ≥ 30) :
    (p.handleMovement deltaTime keys).isDashing = true ∧
    (p.handleMovement deltaTime keys).x = p.x + keys.move.1 * 500 * deltaTime ∧
    (p.handleMovement deltaTime keys).y = p.y + keys.move.2 * 500 * deltaTime ∧
    ((keys.keyW = false ∧ keys.arrowUp = false ∧ keys.keyS = false ∧ keys.arrowDown = false ∧
      keys.keyA = false ∧ keys.arrowLeft = false ∧ keys.keyD = false ∧
      keys.arrowRight = false) →
      (p.handleMovement deltaTime keys).x = p.x ∧ (p.handleMovement deltaTime keys).y = p.y) := by
  obtain ⟨_, _, hcost, hspeed, _, _⟩ := ht
  obtain ⟨hx, hy, hsp, hpos, _⟩ := Player.startDash_fields p keys
  have hc : keys.space = true ∧ p.isDashing = false ∧ p.stamina ≥ p.dashCost :=
    ⟨hspace, hnot, by rw [hcost]; exact hsta⟩
  have hd : (p.startDash keys).isDashing = true := (hpos hc).1
  have h500 : (p.startDash keys).currentSpeed = 500 := by
    simp only [Player.currentSpeed, hd, if_true]
    rw [hsp, hspeed]
  have hqx : (p.handleMovement deltaTime keys).x = p.x + keys.move.1 * 500 * deltaTime := by
    rw [Player.handleMovement_eq]
    show (p.startDash keys).x + keys.move.1 * (p.startDash keys).currentSpeed * deltaTime = _
    rw [hx, h500]
  have hqy : (p.handleMovement deltaTime keys).y = p.y + keys.move.2 * 500 * deltaTime := by
    rw [Player.handleMovement_eq]
    show (p.startDash keys).y + keys.move.2 * (p.startDash keys).currentSpeed * deltaTime = _
    rw [hy, h500]
  refine ⟨hd, hqx, hqy, ?_⟩
  rintro ⟨k1, k2, k3, k4, k5, k6, k7, k8⟩
  rw [hqx, hqy, Keys.move_of_no_movement keys k1 k2 k3 k4 k5 k6 k7 k8]
  simp

/-- C15 (worked input for the amended claim): the player who moved right and then holds only
the dash key triggers the dash and stays where it is. -/
theorem C15_dash_displacement_witness :
    movedPlayer.tuned ∧ movedPlayer.stamina ≥ 30 ∧
    (movedPlayer.handleMovement (1/30) dashKeys).isDashing = true ∧
    (movedPlayer.handleMovement (1/30) dashKeys).x = movedPlayer.x ∧
    (movedPlayer.handleMovement (1/30) dashKeys).y = movedPlayer.y := by
  have hreach : (Player.new 0 0).Reachable := Player.Reachable.new 0 0
  have ht : movedPlayer.tuned := by
    unfold movedPlayer
    rw [Player.handleMovement_eq]
    exact Player.tuned_of_eq _ _ (Player.startDash_tuned _ rightKeys hreach.tuned)
      rfl rfl rfl rfl rfl rfl
  have hsta : movedPlayer.stamina ≥ 30 := by
    norm_num [movedPlayer, Player.handleMovement_eq, Player.startDash, rightKeys, noKeys,
      Player.new]
  have hnot : movedPlayer.isDashing = false := by
    norm_num [movedPlayer, Player.handleMovement_eq, Player.startDash, rightKeys, noKeys,
      Player.new]
  have h := C15_dash_displacement movedPlayer ht (1/30) dashKeys rfl hnot hsta
  have hstill := h.2.2.2 ⟨rfl, rfl, rfl, rfl, rfl, rfl, rfl, rfl⟩
  exact ⟨ht, hsta, h.1, hstill.1, hstill.2⟩

/-- C16 (counterexample): for a new player and a 1/30 s step, the step with only D held
covers the squared distance `(250 * dt)^2`, but the diagonal step with W and D held covers
`0.999698 * (250 * dt)^2`, which is smaller: the two lengths differ. -/
theorem C16_counterexample :
    ((Player.new 0 0).startDash rightKeys).currentSpeed = 250 ∧
    ((Player.new 0 0).startDash diagonalKeys).currentSpeed = 250 ∧
    (((Player.new 0 0).handleMovement (1/30) rightKeys).x - (Player.new 0 0).x) ^ 2
      + (((Player.new 0 0).handleMovement (1/30) rightKeys).y - (Player.new 0 0).y) ^ 2
      = (250 * (1/30)) ^ 2 ∧
    (((Player.new 0 0).handleMovement (1/30) diagonalKeys).x - (Player.new 0 0).x) ^ 2
      + (((Player.new 0 0).handleMovement (1/30) diagonalKeys).y - (Player.new 0 0).y) ^ 2
      = (999698/1000000) * (250 * (1/30)) ^ 2 ∧
    (((Player.new 0 0).handleMovement (1/30) diagonalKeys).x - (Player.new 0 0).x) ^ 2
      + (((Player.new 0 0).handleMovement (1/30) diagonalKeys).y - (Player.new 0 0).y) ^ 2
      ≠ (250 * (1/30)) ^ 2 := by
  have h1 : ((Player.new 0 0).startDash rightKeys).currentSpeed = 250 := by
    norm_num [Player.startDash, rightKeys, noKeys, Player.currentSpeed,
      Player.getModifiedSpeed, perkMultiplier, Player.new]
  have h2 : ((Player.new 0 0).startDash diagonalKeys).currentSpeed = 250 := by
    norm_num [Player.startDash, diagonalKeys, noKeys, Player.currentSpeed,
      Player.getModifiedSpeed, perkMultiplier, Player.new]
  have hr : rightKeys.move = (1, 0) := by
    norm_num [Keys.move, Keys.rawMove, rightKeys, noKeys]
  have hd : diagonalKeys.move = (707/1000, -(707/1000)) := by
    norm_num [Keys.move, Keys.rawMove, diagonalKeys, noKeys]
  have e1 : ((Player.new 0 0).handleMovement (1/30) rightKeys).x
      = ((Player.new 0 0).startDash rightKeys).x
        + rightKeys.move.1 * ((Player.new 0 0).startDash rightKeys).currentSpeed * (1/30) := rfl
  have e2 : ((Player.new 0 0).handleMovement (1/30) rightKeys).y
      = ((Player.new 0 0).startDash rightKeys).y
        + rightKeys.move.2 * ((Player.new 0 0).startDash rightKeys).currentSpeed * (1/30) := rfl
  have e3 : ((Player.new 0 0).handleMovement (1/30) diagonalKeys).x
      = ((Player.new 0 0).startDash diagonalKeys).x
        + diagonalKeys.move.1 * ((Player.new 0 0).startDash diagonalKeys).currentSpeed * (1/30)
      := rfl
  have e4 : ((Player.new 0 0).handleMovement (1/30) diagonalKeys).y
      = ((Player.new 0 0).startDash diagonalKeys).y
        + diagonalKeys.move.2 * ((Player.new 0 0).startDash diagonalKeys).currentSpeed * (1/30)
      := rfl
  rw [e1, e2, e3, e4, h1, h2, hr, hd,
    (Player.startDash_fields (Player.new 0 0) rightKeys).1,
    (Player.startDash_fields (Player.new 0 0) rightKeys).2.1,
    (Player.startDash_fields (Player.new 0 0) diagonalKeys).1,
    (Player.startDash_fields (Player.new 0 0) diagonalKeys).2.1]
  refine ⟨rfl, rfl, ?_, ?_, ?_⟩ <;> norm_num [Player.new]

/-- C16 (as amended): in one `handleMovement` step with current speed `s`, a single-axis
intent displaces the player by squared distance exactly `(s * dt)^2`, and a diagonal intent
(both axes nonzero) by `2 * 0.707^2 * (s * dt)^2 = 0.999698 * (s * dt)^2`. -/
theorem C16_displacement (p : Player) (deltaTime : ℚ) (keys : Keys) :
    ((keys.rawMove.1 ≠ 0 ∧ keys.rawMove.2 ≠ 0) →
      ((p.handleMovement deltaTime keys).x - p.x) ^ 2
        + ((p.handleMovement deltaTime keys).y - p.y) ^ 2
        = (999698/1000000) * ((p.startDash keys).currentSpeed * deltaTime) ^ 2) ∧
    (((keys.rawMove.1 ≠ 0 ∧ keys.rawMove.2 = 0) ∨ (keys.rawMove.1 = 0 ∧ keys.rawMove.2 ≠ 0)) →
      ((p.handleMovement deltaTime keys).x - p.x) ^ 2
        + ((p.handleMovement deltaTime keys).y - p.y) ^ 2
        = ((p.startDash keys).currentSpeed * deltaTime) ^ 2) := by
  obtain ⟨hx, hy, _, _, _⟩ := Player.startDash_fields p keys
  obtain ⟨hsx, hsy⟩ := Keys.rawMove_sq keys
  have ex : (p.handleMovement deltaTime keys).x
      = (p.startDash keys).x + keys.move.1 * (p.startDash keys).currentSpeed * deltaTime := rfl
  have ey : (p.handleMovement deltaTime keys).y
      = (p.startDash keys).y + keys.move.2 * (p.startDash keys).currentSpeed * deltaTime := rfl
  rw [ex, ey, hx, hy]
  generalize (p.startDash keys).currentSpeed = s
  constructor
  · rintro ⟨h1, h2⟩
    have hm : keys.move = (keys.rawMove.1 * (707/1000), keys.rawMove.2 * (707/1000)) := by
      simp [Keys.move, h1, h2]
    have q1 : keys.rawMove.1 ^ 2 = 1 := hsx.resolve_left h1
    have q2 : keys.rawMove.2 ^ 2 = 1 := hsy.resolve_left h2
    rw [hm]
    have e : (p.x + keys.rawMove.1 * (707/1000) * s * deltaTime - p.x) ^ 2
        + (p.y + keys.rawMove.2 * (707/1000) * s * deltaTime - p.y) ^ 2
        = (keys.rawMove.1 ^ 2 + keys.rawMove.2 ^ 2) * (707/1000) ^ 2 * (s * deltaTime) ^ 2 := by
      ring
    rw [e, q1, q2]
    norm_num
  · rintro (⟨h1, h2⟩ | ⟨h1, h2⟩)
    · have hm : keys.move = (keys.rawMove.1, 0) := by
        simp [Keys.move, h2]
      have q1 : keys.rawMove.1 ^ 2 = 1 := hsx.resolve_left h1
      rw [hm]
      have e : (p.x + keys.rawMove.1 * s * deltaTime - p.x) ^ 2
          + (p.y + 0 * s * deltaTime - p.y) ^ 2
          = keys.rawMove.1 ^ 2 * (s * deltaTime) ^ 2 := by
        ring
      rw [e, q1, one_mul]
    · have hm : keys.move = (0, keys.rawMove.2) := by
        simp [Keys.move, h1]
      have q2 : keys.rawMove.2 ^ 2 = 1 := hsy.resolve_left h2
      rw [hm]
      have e : (p.x + 0 * s * deltaTime - p.x) ^ 2
          + (p.y + keys.rawMove.2 * s * deltaTime - p.y) ^ 2
          = keys.rawMove.2 ^ 2 * (s * deltaTime) ^ 2 := by
        ring
      rw [e, q2, one_mul]

/-- C16 (worked inputs for the amended claim): the diagonal step (W and D) and the single-axis
step (D) of a new player. -/
theorem C16_displacement_witness :
    (((Player.new 0 0).handleMovement (1/30) diagonalKeys).x - (Player.new 0 0).x) ^ 2
      + (((Player.new 0 0).handleMovement (1/30) diagonalKeys).y - (Player.new 0 0).y) ^ 2
      = (999698/1000000) * (((Player.new 0 0).startDash diagonalKeys).currentSpeed * (1/30)) ^ 2
    ∧
    (((Player.new 0 0).handleMovement (1/30) rightKeys).x - (Player.new 0 0).x) ^ 2
      + (((Player.new 0 0).handleMovement (1/30) rightKeys).y - (Player.new 0 0).y) ^ 2
      = (((Player.new 0 0).startDash rightKeys).currentSpeed * (1/30)) ^ 2 :=
  ⟨(C16_displacement (Player.new 0 0) (1/30) diagonalKeys).1
      ⟨by norm_num [Keys.rawMove, diagonalKeys, noKeys],
       by norm_num [Keys.rawMove, diagonalKeys, noKeys]⟩,
   (C16_displacement (Player.new 0 0) (1/30) rightKeys).2
      (Or.inl ⟨by norm_num [Keys.rawMove, rightKeys, noKeys],
               by norm_num [Keys.rawMove, rightKeys, noKeys]⟩)⟩

/-! ## C17: health regeneration -/

/-- The fields read by the health regeneration step. -/
theorem Player.regenHealth_congr (p q : Player) (now deltaTime : ℚ)
    (e1 : q.health = p.health) (e2 : q.maxHealth = p.maxHealth)
    (e3 : q.lastDamageTime = p.lastDamageTime) (e4 : q.healthRegenDelay = p.healthRegenDelay)
    (e5 : q.healthRegenRate = p.healthRegenRate) (e6 : q.perks = p.perks) :
    (q.regenHealth now deltaTime).health = (p.regenHealth now deltaTime).health := by
  simp only [Player.regenHealth, Player.getModifiedHealthRegen, e1, e2, e3, e4, e5, e6]
  split_ifs
  · rfl
  · exact e1

/-- The steps of `Player.update` before the health regeneration keep the fields it reads. -/
theorem Player.update_prefix_frame (M : JsMath) (p : Player) (now deltaTime : ℚ) (keys : Keys)
    (mouse : Mouse) :
    let q := ((((p.updateBuffs now).finishReload now).aim M mouse).handleMovement deltaTime
      keys).regenStamina deltaTime
    q.health = p.health ∧ q.maxHealth = p.maxHealth ∧ q.lastDamageTime = p.lastDamageTime ∧
    q.healthRegenDelay = p.healthRegenDelay ∧ q.healthRegenRate = p.healthRegenRate ∧
    q.perks = p.perks := by
  have hreload : ∀ r : Player,
      (r.finishReload now).health = r.health ∧ (r.finishReload now).maxHealth = r.maxHealth ∧
      (r.finishReload now).lastDamageTime = r.lastDamageTime ∧
      (r.finishReload now).healthRegenDelay = r.healthRegenDelay ∧
      (r.finishReload now).healthRegenRate = r.healthRegenRate ∧
      (r.finishReload now).perks = r.perks := by
    intro r
    unfold Player.finishReload
    split_ifs <;> exact ⟨rfl, rfl, rfl, rfl, rfl, rfl⟩
  have hmove : ∀ r : Player,
      (r.handleMovement deltaTime keys).health = r.health ∧
      (r.handleMovement deltaTime keys).maxHealth = r.maxHealth ∧
      (r.handleMovement deltaTime keys).lastDamageTime = r.lastDamageTime ∧
      (r.handleMovement deltaTime keys).healthRegenDelay = r.healthRegenDelay ∧
      (r.handleMovement deltaTime keys).healthRegenRate = r.healthRegenRate ∧
      (r.handleMovement deltaTime keys).perks = r.perks := by
    intro r
    have hs : (r.startDash keys).health = r.health ∧ (r.startDash keys).maxHealth = r.maxHealth ∧
        (r.startDash keys).lastDamageTime = r.lastDamageTime ∧
        (r.startDash keys).healthRegenDelay = r.healthRegenDelay ∧
        (r.startDash keys).healthRegenRate = r.healthRegenRate ∧
        (r.startDash keys).perks = r.perks := by
      unfold Player.startDash
      split_ifs <;> exact ⟨rfl, rfl, rfl, rfl, rfl, rfl⟩
    rw [Player.handleMovement_eq]
    exact hs
  have hstam : ∀ r : Player,
      (r.regenStamina deltaTime).health = r.health ∧
      (r.regenStamina deltaTime).maxHealth = r.maxHealth ∧
      (r.regenStamina deltaTime).lastDamageTime = r.lastDamageTime ∧
      (r.regenStamina deltaTime).healthRegenDelay = r.healthRegenDelay ∧
      (r.regenStamina deltaTime).healthRegenRate = r.healthRegenRate ∧
      (r.regenStamina deltaTime).perks = r.perks := by
    intro r
    unfold Player.regenStamina
    split_ifs <;> exact ⟨rfl, rfl, rfl, rfl, rfl, rfl⟩
  intro q
  obtain ⟨a1, a2, a3, a4, a5, a6⟩ := hreload (p.updateBuffs now)
  obtain ⟨b1, b2, b3, b4, b5, b6⟩ :=
    hmove (((p.updateBuffs now).finishReload now).aim M mouse)
  obtain ⟨c1, c2, c3, c4, c5, c6⟩ :=
    hstam ((((p.updateBuffs now).finishReload now).aim M mouse).handleMovement deltaTime keys)
  exact ⟨c1.trans (b1.trans a1), c2.trans (b2.trans a2), c3.trans (b3.trans a3),
    c4.trans (b4.trans a4), c5.trans (b5.trans a5), c6.trans (b6.trans a6)⟩

/-- The health after `Player.update`: unchanged unless more than `healthRegenDelay` has
passed since the last damage and the health is below the maximum, in which case it is
`min(maxHealth, health + healthRegenRate * 1.5^k * dt)` with `k` the number of recorded
Health Regen perks. -/
theorem Player.update_health (M : JsMath) (p : Player) (now deltaTime : ℚ) (keys : Keys)
    (mouse : Mouse) :
    (p.update M now deltaTime keys mouse).health
      = if now - p.lastDamageTime > p.healthRegenDelay ∧ p.health < p.maxHealth then
          min p.maxHealth (p.health
            + p.healthRegenRate * (3/2) ^ (p.perks.countP fun perk => perk.name = "Health Regen")
              * deltaTime)
        else p.health := by
  have hd : ∀ q : Player, (q.updateDash deltaTime).health = q.health := by
    intro q
    simp only [Player.updateDash]
    split_ifs <;> rfl
  obtain ⟨e1, e2, e3, e4, e5, e6⟩ := Player.update_prefix_frame M p now deltaTime keys mouse
  rw [Player.update_eq_steps, hd, Player.regenHealth_congr p _ now deltaTime e1 e2 e3 e4 e5 e6]
  simp only [Player.regenHealth, Player.getModifiedHealthRegen, perkMultiplier_eq, one_mul]
  split_ifs <;> rfl

/-- The first half of C17: on a tuned player (delay 5000 ms), an update at most 5000 ms after
the last damage leaves the health as it is. -/
theorem Player.update_health_within_delay (M : JsMath) (p : Player) (ht : p.tuned)
    (now deltaTime : ℚ) (keys : Keys) (mouse : Mouse) (h : now - p.lastDamageTime ≤ 5000) :
    (p.update M now deltaTime keys mouse).health = p.health := by
  rw [Player.update_health, if_neg]
  rw [ht.2.1]
  exact fun hc => absurd hc.1 (not_lt.mpr h)

/-- The state of `regenPlayer`: one recorded perk (Health Regen), the stored regeneration rate
raised to `5 * 1.5`, health 75 of 100, last damage at time 1000. -/
theorem regenPlayer_state :
    regenPlayer.perks = [Perk.healthRegen] ∧
    regenPlayer.healthRegenRate = 15/2 ∧
    regenPlayer.health = 75 ∧
    regenPlayer.maxHealth = 100 ∧
    regenPlayer.lastDamageTime = 1000 ∧
    regenPlayer.healthRegenDelay = 5000 := by
  refine ⟨?_, ?_, ?_, ?_, ?_, ?_⟩ <;>
    norm_num [regenPlayer, Player.gainXP, Player.levelUp_eq, Player.unlockAtLevel,
      Player.getAvailablePerks, allPerks, Player.selectPerk, Perk.effect, Player.new,
      Player.takeDamage]

/-- C17 (evaluation at the failing input): a player with one Health Regen perk and health
75 of 100, last damaged at time 1000, is updated at time 7000 (6000 ms later) with
`dt = 1/30`.  The health becomes `75 + 11.25 * dt`, that is `75 + 5 * 1.5^2 * dt`, and not
`min(100, 75 + 5 * 1.5 * dt)`: the perk's effect multiplies the stored rate and
`getModifiedHealthRegen` multiplies by 1.5 again. -/
theorem C17_regen_perk_applied_twice :
    regenPlayer.perks.map Perk.name = ["Health Regen"] ∧
    regenPlayer.health = 75 ∧ regenPlayer.maxHealth = 100 ∧
    (7000 - regenPlayer.lastDamageTime > 5000) ∧
    (regenPlayer.update tableMath 7000 (1/30) noKeys rightMouse).health
      = 75 + (5 * (3/2) ^ 2) * (1/30) ∧
    (regenPlayer.update tableMath 7000 (1/30) noKeys rightMouse).health
      ≠ min 100 (75 + 5 * (3/2) * (1/30)) := by
  obtain ⟨hp, hr, hh, hm, hl, hd⟩ := regenPlayer_state
  have hu : (regenPlayer.update tableMath 7000 (1/30) noKeys rightMouse).health
      = 75 + (5 * (3/2) ^ 2) * (1/30) := by
    rw [Player.update_health, hp, hr, hh, hm, hl, hd]
    norm_num [Perk.name]
  refine ⟨by rw [hp]; rfl, hh, hm, by rw [hl]; norm_num, hu, ?_⟩
  rw [hu]
  norm_num

/-! ## C18: bullet lifetime and range -/

/-- An inactive bullet is not updated. -/
theorem Bullet.update_of_inactive (b : Bullet) (deltaTime : ℚ) (canvas : Canvas)
    (h : b.active = false) : b.update deltaTime canvas = b := by
  simp [Bullet.update, h]

/-- One update of an active bullet: it moves by `velocity * dt`, its lifetime drops by `dt`,
it stays active only if lifetime is left, and it is inactive once the lifetime is used up. -/
theorem Bullet.update_of_active (b : Bullet) (deltaTime : ℚ) (canvas : Canvas)
    (h : b.active = true) :
    (b.update deltaTime canvas).x = b.x + b.vx * deltaTime ∧
    (b.update deltaTime canvas).y = b.y + b.vy * deltaTime ∧
    (b.update deltaTime canvas).vx = b.vx ∧
    (b.update deltaTime canvas).vy = b.vy ∧
    (b.update deltaTime canvas).lifetime = b.lifetime - deltaTime ∧
    ((b.update deltaTime canvas).active = true → 0 < b.lifetime - deltaTime) ∧
    (b.lifetime - deltaTime ≤ 0 → (b.update deltaTime canvas).active = false) := by
  simp only [Bullet.update, h, Bool.true_eq_false, if_false]
  split_ifs <;> simp_all

/-- A bullet that is still active after a run of updates was active all along: it has moved
by `velocity * (sum of the ticks)`, its lifetime has dropped by that sum, and lifetime is
left after the last tick. -/
theorem Bullet.run_active (canvas : Canvas) :
    ∀ (dts : List ℚ) (b : Bullet), (b.run canvas dts).active = true →
      b.active = true ∧
      (b.run canvas dts).x = b.x + b.vx * dts.sum ∧
      (b.run canvas dts).y = b.y + b.vy * dts.sum ∧
      (b.run canvas dts).vx = b.vx ∧
      (b.run canvas dts).vy = b.vy ∧
      (b.run canvas dts).lifetime = b.lifetime - dts.sum ∧
      (dts ≠ [] → 0 < (b.run canvas dts).lifetime) := by
  intro dts
  induction dts with
  | nil =>
    intro b h
    exact ⟨h, by simp [Bullet.run], by simp [Bullet.run], rfl, rfl, by simp [Bullet.run],
      fun hne => absurd rfl hne⟩
  | cons t ts ih =>
    intro b h
    have hrun : b.run canvas (t :: ts) = (b.update t canvas).run canvas ts := rfl
    rw [hrun] at h ⊢
    obtain ⟨ha, hx, hy, hvx, hvy, hl, hpos⟩ := ih (b.update t canvas) h
    have hb : b.active = true := by
      by_contra hc
      have hf : b.active = false := by simpa using hc
      rw [Bullet.update_of_inactive b t canvas hf, hf] at ha
      exact Bool.false_ne_true ha
    obtain ⟨ux, uy, uvx, uvy, ul, upos, _⟩ := Bullet.update_of_active b t canvas hb
    refine ⟨hb, ?_, ?_, by rw [hvx, uvx], by rw [hvy, uvy], ?_, fun _ => ?_⟩
    · rw [hx, ux, uvx, List.sum_cons]
      ring
    · rw [hy, uy, uvy, List.sum_cons]
      ring
    · rw [hl, ul, List.sum_cons]
      ring
    · by_cases hts : ts = []
      · subst hts
        have hlast : (b.update t canvas).run canvas [] = b.update t canvas := rfl
        rw [hlast, ul]
        exact upos ha
      · exact hpos hts

/-- C18 (as amended): a bullet created with speed 600 (`vx^2 + vy^2 = 600^2`) and lifetime
`R / 600`, `R > 0`, is updated with tick lengths in `(0, 1/30]`.  If it is still active before
a tick and that tick uses up its lifetime, then the tick marks it inactive, and the distance
travelled at that moment is at least `R` and at most `R + 600 * dt <= R + 20`, `dt` being
the length of that last tick (stated on the squared distance).  The upper bound is not
strict: where the ticks add up to `R / 600` the remaining lifetime is zero here, while the
repeated `lifetime -= deltaTime` of the program, in double precision, can leave a positive
remainder of about 1e-16 (range 400 on ticks of 1/30 s); the bullet then lives one more tick
and is marked inactive at `R + 600 * dt` (420). -/
theorem C18_expiry_distance (data : BulletData) (R : ℚ) (canvas : Canvas) (dts : List ℚ)
    (dt : ℚ) (hR : 0 < R) (hlife : data.lifetime = some (R / 600))
    (hspeed : data.vx ^ 2 + data.vy ^ 2 = 600 ^ 2)
    (hdts : ∀ t ∈ dts, 0 < t ∧ t ≤ 1/30) (hdt : 0 < dt ∧ dt ≤ 1/30)
    (hactive : ((Bullet.new data).run canvas dts).active = true)
    (hexpired : ((Bullet.new data).run canvas (dts ++ [dt])).lifetime ≤ 0) :
    ((Bullet.new data).run canvas (dts ++ [dt])).active = false ∧
    R ^ 2 ≤ (((Bullet.new data).run canvas (dts ++ [dt])).x - data.x) ^ 2
        + (((Bullet.new data).run canvas (dts ++ [dt])).y - data.y) ^ 2 ∧
    (((Bullet.new data).run canvas (dts ++ [dt])).x - data.x) ^ 2
        + (((Bullet.new data).run canvas (dts ++ [dt])).y - data.y) ^ 2 ≤ (R + 600 * dt) ^ 2 ∧
    R + 600 * dt ≤ R + 20 := by
  have hsum : 0 ≤ dts.sum := List.sum_nonneg fun t ht => le_of_lt (hdts t ht).1
  have hnew : (Bullet.new data).lifetime = R / 600 ∧ (Bullet.new data).x = data.x ∧
      (Bullet.new data).y = data.y ∧ (Bullet.new data).vx = data.vx ∧
      (Bullet.new data).vy = data.vy := by
    have hne : R / 600 ≠ 0 := by positivity
    simp [Bullet.new, hlife, numOr, hne]
  obtain ⟨nl, nx, ny, nvx, nvy⟩ := hnew
  obtain ⟨_, hx, hy, hvx, hvy, hl, hpos⟩ := Bullet.run_active canvas dts (Bullet.new data) hactive
  have hstep : (Bullet.new data).run canvas (dts ++ [dt])
      = ((Bullet.new data).run canvas dts).update dt canvas := by
    simp [Bullet.run, List.foldl_append]
  obtain ⟨ux, uy, _, _, ul, _, uoff⟩ :=
    Bullet.update_of_active ((Bullet.new data).run canvas dts) dt canvas hactive
  rw [hstep] at hexpired ⊢
  have hleft : 0 < R / 600 - dts.sum := by
    by_cases hd : dts = []
    · subst hd
      simp only [List.sum_nil, sub_zero]
      positivity
    · have := hpos hd
      rw [hl, nl] at this
      exact this
  have hused : R / 600 - dts.sum - dt ≤ 0 := by
    rw [ul, hl, nl] at hexpired
    exact hexpired
  have hdist : (((Bullet.new data).run canvas dts).update dt canvas).x - data.x
      = data.vx * (dts.sum + dt) := by
    rw [ux, hx, hvx, nx, nvx]
    ring
  have hdisty : (((Bullet.new data).run canvas dts).update dt canvas).y - data.y
      = data.vy * (dts.sum + dt) := by
    rw [uy, hy, hvy, ny, nvy]
    ring
  have hsq : (data.vx * (dts.sum + dt)) ^ 2 + (data.vy * (dts.sum + dt)) ^ 2
      = (600 * (dts.sum + dt)) ^ 2 := by
    have : (data.vx * (dts.sum + dt)) ^ 2 + (data.vy * (dts.sum + dt)) ^ 2
        = (data.vx ^ 2 + data.vy ^ 2) * (dts.sum + dt) ^ 2 := by ring
    rw [this, hspeed]
    ring
  have hlo : R ≤ 600 * (dts.sum + dt) := by linarith
  have hhi : 600 * (dts.sum + dt) < R + 600 * dt := by linarith
  have hnn : 0 ≤ 600 * (dts.sum + dt) := by linarith [hdt.1]
  refine ⟨uoff (by rw [hl, nl]; exact hused), ?_, ?_, by linarith [hdt.2]⟩
  · rw [hdist, hdisty, hsq]
    exact pow_le_pow_left₀ (le_of_lt hR) hlo 2
  · rw [hdist, hdisty, hsq]
    exact pow_le_pow_left₀ hnn (le_of_lt hhi) 2

/-- C18 (counterexample): a flamethrower bullet (range 150, speed 600, lifetime 150/600)
updated with ticks of 1/30 s on a 1600 x 900 playfield is still active after seven ticks and
is marked inactive by the eighth, inside the playfield, with its lifetime used up; by then
it has travelled 160 > 150. -/
theorem C18_counterexample :
    (0 : ℚ) < 150 ∧ flameData.lifetime = some (150 / 600) ∧
    flameData.vx ^ 2 + flameData.vy ^ 2 = 600 ^ 2 ∧
    ((Bullet.new flameData).run fullCanvas (List.replicate 7 (1/30))).active = true ∧
    ((Bullet.new flameData).run fullCanvas (List.replicate 8 (1/30))).active = false ∧
    ((Bullet.new flameData).run fullCanvas (List.replicate 8 (1/30))).lifetime ≤ 0 ∧
    ((Bullet.new flameData).run fullCanvas (List.replicate 8 (1/30))).x = 160 ∧
    ((Bullet.new flameData).run fullCanvas (List.replicate 8 (1/30))).y = 0 ∧
    ¬ ((((Bullet.new flameData).run fullCanvas (List.replicate 8 (1/30))).x - flameData.x) ^ 2
        + (((Bullet.new flameData).run fullCanvas (List.replicate 8 (1/30))).y - flameData.y) ^ 2
        ≤ 150 ^ 2) := by
  norm_num [Bullet.run, Bullet.new, Bullet.update, flameData, fullCanvas, numOr, strOr,
    List.replicate]

/-- C18 (amended), applied to the flamethrower bullet of the counterexample: seven ticks of
1/30 s leave it active, the eighth expires it at squared distance between 150^2 and
170^2. -/
theorem C18_expiry_distance_witness :
    ((Bullet.new flameData).run fullCanvas
        (List.replicate 7 (1/30) ++ [1/30])).active = false ∧
    (150 : ℚ) ^ 2 ≤ (((Bullet.new flameData).run fullCanvas
        (List.replicate 7 (1/30) ++ [1/30])).x - flameData.x) ^ 2
        + (((Bullet.new flameData).run fullCanvas
        (List.replicate 7 (1/30) ++ [1/30])).y - flameData.y) ^ 2 ∧
    (((Bullet.new flameData).run fullCanvas
        (List.replicate 7 (1/30) ++ [1/30])).x - flameData.x) ^ 2
        + (((Bullet.new flameData).run fullCanvas
        (List.replicate 7 (1/30) ++ [1/30])).y - flameData.y) ^ 2 ≤ (150 + 600 * (1/30)) ^ 2 ∧
    (150 : ℚ) + 600 * (1/30) ≤ 150 + 20 :=
  C18_expiry_distance flameData 150 fullCanvas (List.replicate 7 (1/30)) (1/30)
    (by norm_num) rfl (by norm_num [flameData])
    (by
      intro t ht
      rw [List.eq_of_mem_replicate ht]
      norm_num)
    (by norm_num)
    (by
      norm_num [Bullet.run, Bullet.new, Bullet.update, flameData, fullCanvas, numOr, strOr,
        List.replicate])
    (by
      norm_num [Bullet.run, Bullet.new, Bullet.update, flameData, fullCanvas, numOr, strOr,
        List.replicate])

/-! ## C19: one reward per kill -/

/-- Replacing a live zombie of an array raises the number of dead zombies by one when the
replacement is dead and leaves it as it is otherwise. -/
theorem deadCount_set : ∀ (zombies : List Zombie) (j : ℕ) (z z1 : Zombie),
    zombies[j]? = some z → z.alive = true →
    deadCount (zombies.set j z1) = deadCount zombies + (if z1.alive = false then 1 else 0) := by
  intro zombies
  induction zombies with
  | nil => intro j z z1 h; simp at h
  | cons a rest ih =>
    intro j z z1 h halive
    cases j with
    | zero =>
      simp only [List.getElem?_cons_zero, Option.some.injEq] at h
      subst h
      cases h1 : z1.alive <;> simp [deadCount, List.countP_cons, halive, h1]
    | succ j =>
      simp only [List.getElem?_cons_succ] at h
      have := ih j z z1 h halive
      simp only [deadCount] at this
      simp only [deadCount, List.set_cons_succ, List.countP_cons, this]
      omega

/-- The kill ledger holds between a state and itself. -/
theorem Game.KillLedger.refl (g : Game) : Game.KillLedger g g :=
  ⟨rfl, fun _ _ h _ => h,
   fun j z z1 h h1 ha => by
     rw [h] at h1
     cases h1
     exact ⟨fun hf => by rw [ha] at hf; exact absurd hf (by decide), fun hp _ => hp⟩,
   rfl, rfl⟩

/-- The kill ledger only reads the zombie array and the two kill counters. -/
theorem Game.KillLedger.of_eq {g g1 h h1 : Game} (hl : Game.KillLedger g g1)
    (hz : h.zombieManager.zombies = g.zombieManager.zombies) (hk : h.kills = g.kills)
    (hw : h.waveZombiesKilled = g.waveZombiesKilled)
    (hz1 : h1.zombieManager.zombies = g1.zombieManager.zombies) (hk1 : h1.kills = g1.kills)
    (hw1 : h1.waveZombiesKilled = g1.waveZombiesKilled) : Game.KillLedger h h1 := by
  unfold Game.KillLedger at hl ⊢
  rw [hz, hk, hw, hz1, hk1, hw1]
  exact hl

/-- Kill ledgers compose. -/
theorem Game.KillLedger.trans {g g1 g2 : Game} (h1 : Game.KillLedger g g1)
    (h2 : Game.KillLedger g1 g2) : Game.KillLedger g g2 := by
  obtain ⟨hlen1, hdead1, hlive1, hk1, hw1⟩ := h1
  obtain ⟨hlen2, hdead2, hlive2, hk2, hw2⟩ := h2
  refine ⟨hlen2.trans hlen1, ?_, ?_, by omega, by omega⟩
  · intro j z hz hd
    exact hdead2 j z (hdead1 j z hz hd) hd
  · intro j z z2 hz hz2 ha
    have hj : j < g1.zombieManager.zombies.length := by
      rw [hlen1]
      rcases Nat.lt_or_ge j g.zombieManager.zombies.length with h | h
      · exact h
      · rw [List.getElem?_eq_none h] at hz
        cases hz
    obtain ⟨m, hm⟩ : ∃ m, g1.zombieManager.zombies[j]? = some m :=
      ⟨_, List.getElem?_eq_getElem hj⟩
    have hstep := hlive1 j z m hz hm ha
    cases hma : m.alive with
    | false =>
      have := hdead2 j m hm hma
      rw [hz2] at this
      cases this
      exact ⟨fun _ => hstep.1 hma, fun _ hf => by rw [hma] at hf; exact absurd hf (by decide)⟩
    | true =>
      have hnext := hlive2 j m z2 hm hz2 hma
      exact ⟨hnext.1, fun hp ht => hnext.2 (hstep.2 hp hma) ht⟩

/-- A live zombie that takes damage is dead afterwards exactly when its health has dropped to
zero or below. -/
theorem Zombie.takeDamage_alive (z : Zombie) (damage : ℚ) (h : z.alive = true) :
    ((z.takeDamage damage).alive = false → (z.takeDamage damage).health ≤ 0) ∧
    ((z.takeDamage damage).alive = true → 0 < (z.takeDamage damage).health) := by
  simp only [Zombie.takeDamage]
  split_ifs with hle
  · exact ⟨fun _ => hle, fun hf => absurd hf (by decide)⟩
  · exact ⟨fun hf => by rw [h] at hf; exact absurd hf (by decide), fun _ => not_le.mp hle⟩

/-- The kill ledger holds across one hit on a live zombie: the zombie takes the damage, and
`onZombieKilled` runs exactly when the hit has killed it. -/
theorem Game.KillLedger.hit (M : JsMath) (d : KillDraws) (g : Game) (j : ℕ) (zombie : Zombie)
    (damage : ℚ) (bm : BulletManager) (isCritical : Bool)
    (hz : g.zombieManager.zombies[j]? = some zombie) (ha : zombie.alive = true) :
    Game.KillLedger g
      (if (zombie.takeDamage damage).alive = false then
        Game.onZombieKilled M
          { g with
            zombieManager := { g.zombieManager with
              zombies := g.zombieManager.zombies.set j (zombie.takeDamage damage) }
            bulletManager := bm }
          (zombie.takeDamage damage) isCritical d
       else
        { g with
          zombieManager := { g.zombieManager with
            zombies := g.zombieManager.zombies.set j (zombie.takeDamage damage) }
          bulletManager := bm }) := by
  have hcount := deadCount_set g.zombieManager.zombies j zombie (zombie.takeDamage damage) hz ha
  have hhealth := Zombie.takeDamage_alive zombie damage ha
  have hframe : ∀ (k : ℕ) (z : Zombie), g.zombieManager.zombies[k]? = some z →
      z.alive = false →
      (g.zombieManager.zombies.set j (zombie.takeDamage damage))[k]? = some z := by
    intro k z hk hd
    have hne : j ≠ k := by
      rintro rfl
      rw [hz] at hk
      cases hk
      rw [ha] at hd
      exact absurd hd (by decide)
    rw [List.getElem?_set_ne hne]
    exact hk
  have hlive : ∀ (k : ℕ) (z z1 : Zombie), g.zombieManager.zombies[k]? = some z →
      (g.zombieManager.zombies.set j (zombie.takeDamage damage))[k]? = some z1 →
      z.alive = true →
      (z1.alive = false → z1.health ≤ 0) ∧ (0 < z.health → z1.alive = true → 0 < z1.health) := by
    intro k z z1 hk hk1 hka
    by_cases hjk : j = k
    · subst hjk
      have hlt : j < g.zombieManager.zombies.length := by
        rcases Nat.lt_or_ge j g.zombieManager.zombies.length with h | h
        · exact h
        · rw [List.getElem?_eq_none h] at hz
          cases hz
      rw [List.getElem?_set_self hlt] at hk1
      cases hk1
      exact ⟨hhealth.1, fun _ => hhealth.2⟩
    · rw [List.getElem?_set_ne hjk, hk] at hk1
      cases hk1
      exact ⟨fun hf => by rw [hka] at hf; exact absurd hf (by decide), fun hp _ => hp⟩
  by_cases hdead : (zombie.takeDamage damage).alive = false
  · rw [if_pos hdead]
    rw [if_pos hdead] at hcount
    refine ⟨?_, hframe, hlive, ?_, ?_⟩
    · simp [Game.onZombieKilled]
    · show g.kills + 1 + deadCount g.zombieManager.zombies
        = g.kills + deadCount (g.zombieManager.zombies.set j (zombie.takeDamage damage))
      omega
    · show g.waveZombiesKilled + 1 + deadCount g.zombieManager.zombies
        = g.waveZombiesKilled
          + deadCount (g.zombieManager.zombies.set j (zombie.takeDamage damage))
      omega
  · rw [if_neg hdead]
    rw [if_neg hdead] at hcount
    refine ⟨?_, hframe, hlive, ?_, ?_⟩
    · simp
    · show g.kills + deadCount g.zombieManager.zombies
        = g.kills + deadCount (g.zombieManager.zombies.set j (zombie.takeDamage damage))
      omega
    · show g.waveZombiesKilled + deadCount g.zombieManager.zombies
        = g.waveZombiesKilled
          + deadCount (g.zombieManager.zombies.set j (zombie.takeDamage damage))
      omega

/-- The kill ledger holds across the inner loop of the bullet-zombie pass. -/
theorem Game.hitScan_ledger (M : JsMath) (d : KillDraws) (i : ℕ) :
    ∀ (k : ℕ) (g : Game), Game.KillLedger g (Game.hitScan M d i k g) := by
  intro k
  induction k with
  | zero => intro g; exact Game.KillLedger.refl g
  | succ k ih =>
    intro g
    cases hb : g.bulletManager.bullets[i]? with
    | none =>
      have : Game.hitScan M d i (k + 1) g = g := by
        rw [Game.hitScan]
        simp only [hb]
      rw [this]
      exact Game.KillLedger.refl g
    | some bullet =>
      cases hz : g.zombieManager.zombies[k]? with
      | none =>
        have : Game.hitScan M d i (k + 1) g = g := by
          rw [Game.hitScan]
          simp only [hb, hz]
        rw [this]
        exact Game.KillLedger.refl g
      | some zombie =>
        cases ha : zombie.alive with
        | false =>
          have : Game.hitScan M d i (k + 1) g = Game.hitScan M d i k g := by
            rw [Game.hitScan]
            simp only [hb, hz, ha, if_true]
          rw [this]
          exact ih g
        | true =>
          rw [Game.hitScan_succ M d i k g bullet zombie hb hz ha _ rfl]
          split_ifs with hhit
          · exact Game.KillLedger.hit M d g k zombie _ _ _ hz ha
          · exact ih g

/-- The kill ledger holds across the bullet-zombie pass. -/
theorem Game.bulletZombiePass_ledger (M : JsMath) (kill : ℕ → KillDraws) :
    ∀ (i : ℕ) (g : Game), Game.KillLedger g (Game.bulletZombiePass M kill i g) := by
  intro i
  induction i with
  | zero => intro g; exact Game.KillLedger.refl g
  | succ i ih =>
    intro g
    unfold Game.bulletZombiePass
    split
    · exact ih g
    · split_ifs
      · exact ih g
      · exact (Game.hitScan_ledger M (kill i) i g.zombieManager.zombies.length g).trans
          (ih (Game.hitScan M (kill i) i g.zombieManager.zombies.length g))

/-- The kill ledger holds across one `Game.checkCollisions` call. -/
theorem Game.collide_ledger (M : JsMath) (g : Game) (c : CollisionCall) :
    Game.KillLedger g (g.collide M c) :=
  (Game.bulletZombiePass_ledger M c.kill c.bulletManager.bullets.length
    { g with bulletManager := c.bulletManager }).of_eq rfl rfl rfl rfl rfl rfl

/-- The kill ledger holds across every sequence of `Game.checkCollisions` calls. -/
theorem Game.runCollisions_ledger (M : JsMath) :
    ∀ (calls : List CollisionCall) (g : Game), Game.KillLedger g (g.runCollisions M calls) := by
  intro calls
  induction calls with
  | nil => intro g; exact Game.KillLedger.refl g
  | cons c rest ih =>
    intro g
    exact (Game.collide_ledger M g c).trans (ih (g.collide M c))

/-- The first pistol call on `walkerGame`: the walker is hurt (health 25) and the bullet is
spent; nothing else changes. -/
theorem walkerGame_first :
    walkerGame.collide tableMath pistolCall =
      { walkerGame with
        zombieManager := { ZombieManager.new with zombies := [duelZombie.takeDamage 25] }
        bulletManager := { BulletManager.new with
          bullets := [{ duelBullet 810 with active := false }] } } := by
  have hscan : Game.hitScan tableMath quietKill 0 1 (duelGame 810) =
      { walkerGame with
        zombieManager := { ZombieManager.new with zombies := [duelZombie.takeDamage 25] }
        bulletManager := { BulletManager.new with
          bullets := [{ duelBullet 810 with active := false }] } } := by
    rw [Game.hitScan_succ tableMath quietKill 0 0 (duelGame 810) (duelBullet 810) duelZombie
      rfl rfl rfl 10 (by norm_num [tableMath, duelBullet, duelZombie, Bullet.new, Zombie.new])]
    norm_num [duelBullet, duelZombie, Bullet.new, Zombie.new, numOr, Zombie.takeDamage,
      duelGame, walkerGame, ZombieManager.new, BulletManager.new]
  have hpass : Game.bulletZombiePass tableMath (fun _ => quietKill) 1 (duelGame 810)
      = Game.hitScan tableMath quietKill 0 1 (duelGame 810) := by
    simp [Game.bulletZombiePass, duelGame, duelBullet, Bullet.new, ZombieManager.new,
      BulletManager.new]
  have hcollide : walkerGame.collide tableMath pistolCall
      = Game.checkCollisions tableMath (duelGame 810) 1000 (fun _ => quietKill)
          (fun _ perks => perks) := rfl
  have hlen : (duelGame 810).bulletManager.bullets.length = 1 := rfl
  rw [hcollide]
  simp only [Game.checkCollisions, hlen, hpass, hscan]
  norm_num [walkerGame, duelZombie, Zombie.new, Zombie.takeDamage,
    Game.new, ZombieManager.new, BulletManager.new, PowerUpManager.new, fullCanvas,
    BulletManager.checkPlayerCollisions, tableMath,
    BulletManager.checkPlayerCollisionsFrom, Game.zombiePlayerPass,
    PowerUpManager.checkCollisions, PowerUpManager.collectFrom, Player.new]

/-- The second pistol call on `walkerGame`: the walker dies (health 0) and the reward is
granted: 10 points, one kill on each counter, `gainXP 5`. -/
theorem walkerGame_second :
    walkerGame.runCollisions tableMath [pistolCall, pistolCall] =
      { walkerGame with
        score := 10
        kills := 1
        waveZombiesKilled := 1
        player := walkerGame.player.gainXP 5 quietKill.shuffle
        zombieManager := { ZombieManager.new with
          zombies := [(duelZombie.takeDamage 25).takeDamage 25] }
        bulletManager := { BulletManager.new with
          bullets := [{ duelBullet 810 with active := false }] } } := by
  have hrun : walkerGame.runCollisions tableMath [pistolCall, pistolCall]
      = (walkerGame.collide tableMath pistolCall).collide tableMath pistolCall := rfl
  have hstart : ({ walkerGame with
        zombieManager := { ZombieManager.new with zombies := [duelZombie.takeDamage 25] }
        bulletManager := { BulletManager.new with
          bullets := [{ duelBullet 810 with active := false }] } } : Game).collide
        tableMath pistolCall
      = Game.checkCollisions tableMath hurtGame 1000 (fun _ => quietKill)
          (fun _ perks => perks) := rfl
  have hscan : Game.hitScan tableMath quietKill 0 1 hurtGame =
      Game.onZombieKilled tableMath
        { walkerGame with
          zombieManager := { ZombieManager.new with
            zombies := [(duelZombie.takeDamage 25).takeDamage 25] }
          bulletManager := { BulletManager.new with
            bullets := [{ duelBullet 810 with active := false }] } }
        ((duelZombie.takeDamage 25).takeDamage 25) false quietKill := by
    rw [Game.hitScan_succ tableMath quietKill 0 0 hurtGame (duelBullet 810)
      (duelZombie.takeDamage 25) rfl rfl
      (by norm_num [duelZombie, Zombie.new, Zombie.takeDamage]) 10
      (by norm_num [tableMath, duelBullet, duelZombie, Bullet.new, Zombie.new,
        Zombie.takeDamage])]
    norm_num [duelBullet, duelZombie, Bullet.new, Zombie.new, numOr, Zombie.takeDamage,
      hurtGame, duelGame, walkerGame, ZombieManager.new, BulletManager.new]
  have hpass : Game.bulletZombiePass tableMath (fun _ => quietKill) 1 hurtGame
      = Game.hitScan tableMath quietKill 0 1 hurtGame := by
    simp [Game.bulletZombiePass, hurtGame, duelGame, duelBullet, Bullet.new, ZombieManager.new,
      BulletManager.new]
  have hlen : hurtGame.bulletManager.bullets.length = 1 := rfl
  rw [hrun, walkerGame_first, hstart]
  simp only [Game.checkCollisions, hlen, hpass, hscan]
  norm_num [Game.onZombieKilled, walkerGame, duelZombie, Zombie.new, Zombie.takeDamage,
    Game.new, ZombieManager.new, BulletManager.new, PowerUpManager.new, fullCanvas, quietKill,
    PowerUpManager.trySpawnPowerUp, BulletManager.checkPlayerCollisions, tableMath,
    BulletManager.checkPlayerCollisionsFrom, Game.zombiePlayerPass,
    PowerUpManager.checkCollisions, PowerUpManager.collectFrom]

/-- The third pistol call on `walkerGame`: the dead walker is skipped, so the bullet stays
active and score, counters and player are those left by the second call. -/
theorem walkerGame_third :
    walkerGame.runCollisions tableMath [pistolCall, pistolCall, pistolCall] =
      { walkerGame with
        score := 10
        kills := 1
        waveZombiesKilled := 1
        player := walkerGame.player.gainXP 5 quietKill.shuffle
        zombieManager := { ZombieManager.new with
          zombies := [(duelZombie.takeDamage 25).takeDamage 25] }
        bulletManager := { BulletManager.new with bullets := [duelBullet 810] } } := by
  have hrun : walkerGame.runCollisions tableMath [pistolCall, pistolCall, pistolCall]
      = (walkerGame.runCollisions tableMath [pistolCall, pistolCall]).collide tableMath
          pistolCall := rfl
  rw [hrun, walkerGame_second]
  norm_num [Game.collide, Game.checkCollisions, Game.bulletZombiePass, Game.hitScan, pistolCall,
    walkerGame, duelZombie, duelBullet, Bullet.new, Zombie.new, Zombie.takeDamage, numOr,
    Game.new, ZombieManager.new, BulletManager.new, PowerUpManager.new, fullCanvas,
    BulletManager.checkPlayerCollisions, tableMath,
    BulletManager.checkPlayerCollisionsFrom, Game.zombiePlayerPass,
    PowerUpManager.checkCollisions, PowerUpManager.collectFrom]

/-- C19: let `g` be a game in which every live zombie has positive health, and let
`Game.checkCollisions` be called any number of times on its zombie array (`calls`), then once
more (`c`).  Over the whole sequence, over the one further call, and over the scan of any
single bullet, the kill ledger holds: a zombie with `alive = false` stays exactly as it is (no
bullet damages it), and `kills` and `waveZombiesKilled`, which only `onZombieKilled`
increments, grow by exactly the number of zombies that went from alive to not alive; a zombie
that was alive at the start is alive exactly while its health is positive, so the one reward
falls in the call in which its health reaches `<= 0`. -/
theorem C19_one_reward_per_kill (M : JsMath) (g : Game) (calls : List CollisionCall)
    (c : CollisionCall)
    (hsound : ∀ z ∈ g.zombieManager.zombies, z.alive = true → 0 < z.health) :
    Game.KillLedger g (g.runCollisions M calls) ∧
    Game.KillLedger (g.runCollisions M calls) ((g.runCollisions M calls).collide M c) ∧
    (∀ (d : KillDraws) (i k : ℕ), Game.KillLedger (g.runCollisions M calls)
      (Game.hitScan M d i k (g.runCollisions M calls))) ∧
    (∀ (j : ℕ) (z z1 : Zombie), g.zombieManager.zombies[j]? = some z →
      (g.runCollisions M calls).zombieManager.zombies[j]? = some z1 → z.alive = true →
      (z1.alive = true ↔ 0 < z1.health)) := by
  refine ⟨Game.runCollisions_ledger M calls g, Game.collide_ledger M _ c,
    fun d i k => Game.hitScan_ledger M d i k _, ?_⟩
  intro j z z1 hz hz1 ha
  have hpos : 0 < z.health := hsound z (List.getElem?_mem hz) ha
  have h := (Game.runCollisions_ledger M calls g).2.2.1 j z z1 hz hz1 ha
  constructor
  · exact h.2 hpos
  · intro hp
    cases h1 : z1.alive with
    | true => rfl
    | false => exact absurd (h.1 h1) (not_le.mpr hp)

/-- C19 (worked input): a walker with health 50 hit by two non-critical 25-damage pistol
bullets, one per call.  After the first call it is alive with health 25 and nothing has been
granted; after the second it is not alive and the reward has been granted once (score 10, one
kill on each counter, XP 5); a third bullet is not absorbed (it stays active) and grants
nothing. -/
theorem C19_one_reward_per_kill_witness :
    (∀ z ∈ walkerGame.zombieManager.zombies, z.alive = true → 0 < z.health) ∧
    Game.KillLedger walkerGame (walkerGame.runCollisions tableMath [pistolCall, pistolCall]) ∧
    (walkerGame.runCollisions tableMath [pistolCall]).zombieManager.zombies.map
        (fun z => (z.alive, z.health)) = [(true, 25)] ∧
    (walkerGame.runCollisions tableMath [pistolCall]).kills = 0 ∧
    (walkerGame.runCollisions tableMath [pistolCall]).score = 0 ∧
    (walkerGame.runCollisions tableMath [pistolCall]).player.xp = 0 ∧
    (walkerGame.runCollisions tableMath [pistolCall, pistolCall]).zombieManager.zombies.map
        (fun z => (z.alive, z.health)) = [(false, 0)] ∧
    (walkerGame.runCollisions tableMath [pistolCall, pistolCall]).kills = 1 ∧
    (walkerGame.runCollisions tableMath [pistolCall, pistolCall]).waveZombiesKilled = 1 ∧
    (walkerGame.runCollisions tableMath [pistolCall, pistolCall]).score = 10 ∧
    (walkerGame.runCollisions tableMath [pistolCall, pistolCall]).player.xp = 5 ∧
    (walkerGame.runCollisions tableMath
        [pistolCall, pistolCall, pistolCall]).zombieManager.zombies.map
        (fun z => (z.alive, z.health)) = [(false, 0)] ∧
    (walkerGame.runCollisions tableMath [pistolCall, pistolCall, pistolCall]).kills = 1 ∧
    (walkerGame.runCollisions tableMath
        [pistolCall, pistolCall, pistolCall]).waveZombiesKilled = 1 ∧
    (walkerGame.runCollisions tableMath [pistolCall, pistolCall, pistolCall]).score = 10 ∧
    (walkerGame.runCollisions tableMath [pistolCall, pistolCall, pistolCall]).player.xp = 5 ∧
    (walkerGame.runCollisions tableMath
        [pistolCall, pistolCall, pistolCall]).bulletManager.bullets.map
        (fun b => b.active) = [true] := by
  have hsound : ∀ z ∈ walkerGame.zombieManager.zombies, z.alive = true → 0 < z.health := by
    intro z hz _
    have : z = duelZombie := by simpa [walkerGame] using hz
    rw [this]
    norm_num [duelZombie, Zombie.new]
  have hone : walkerGame.runCollisions tableMath [pistolCall]
      = walkerGame.collide tableMath pistolCall := rfl
  refine ⟨hsound,
    (C19_one_reward_per_kill tableMath walkerGame [pistolCall, pistolCall] pistolCall hsound).1,
    ?_, ?_, ?_, ?_, ?_, ?_, ?_, ?_, ?_, ?_, ?_, ?_, ?_, ?_, ?_⟩
  · rw [hone, walkerGame_first]
    norm_num [duelZombie, Zombie.new, Zombie.takeDamage]
  · rw [hone, walkerGame_first]
    rfl
  · rw [hone, walkerGame_first]
    rfl
  · rw [hone, walkerGame_first]
    rfl
  · rw [walkerGame_second]
    norm_num [duelZombie, Zombie.new, Zombie.takeDamage]
  · rw [walkerGame_second]
  · rw [walkerGame_second]
  · rw [walkerGame_second]
  · rw [walkerGame_second]
    norm_num [walkerGame, Game.new, Player.gainXP, Player.new, quietKill]
  · rw [walkerGame_third]
    norm_num [duelZombie, Zombie.new, Zombie.takeDamage]
  · rw [walkerGame_third]
  · rw [walkerGame_third]
  · rw [walkerGame_third]
  · rw [walkerGame_third]
    norm_num [walkerGame, Game.new, Player.gainXP, Player.new, quietKill]
  · rw [walkerGame_third]
    rfl

/-! ## C22: a power-up is collected once -/

/-- C22: `PowerUp.collect` on an uncollected power-up returns `true`, marks the power-up
collected and applies its effect to the player; on a power-up already marked collected it
returns `false` and leaves power-up and player unchanged.  So a second `collect` (at any later
time, with any perk draw) on the power-up and player left by a first one returns `false` and
gives the same power-up and the same player as the first alone. -/
theorem C22_collect_once (pu : PowerUp) (now now1 : ℚ) (player : Player)
    (shuffle shuffle1 : List Perk → List Perk) :
    (pu.collected = false →
      pu.collect now player shuffle
        = (true, { pu with collected := true }, pu.applyEffect now player shuffle)) ∧
    (pu.collected = true → pu.collect now player shuffle = (false, pu, player)) ∧
    (pu.collect now player shuffle).2.1.collected = true ∧
    (pu.collect now player shuffle).2.1.collect now1 (pu.collect now player shuffle).2.2 shuffle1
      = (false, (pu.collect now player shuffle).2.1, (pu.collect now player shuffle).2.2) := by
  have hflag : (pu.collect now player shuffle).2.1.collected = true := by
    unfold PowerUp.collect
    split_ifs with h
    · exact h
    · rfl
  refine ⟨?_, ?_, hflag, ?_⟩
  · intro h
    simp [PowerUp.collect, h, PowerUp.applyEffect]
  · intro h
    simp [PowerUp.collect, h]
  · generalize (pu.collect now player shuffle).2.1 = pu1 at hflag ⊢
    simp [PowerUp.collect, hflag]

/-- C22 (worked input): a health pack collected by a player with health 20 returns `true`
and heals to 70; collecting the same pack again returns `false` and the health stays 70, not
`min(100, 70 + 50)`. -/
theorem C22_collect_once_witness :
    healthPack.collected = false ∧
    (healthPack.collect 1000 woundedPlayer id).1 = true ∧
    (healthPack.collect 1000 woundedPlayer id).2.2.health = 70 ∧
    ((healthPack.collect 1000 woundedPlayer id).2.1.collect 2000
      (healthPack.collect 1000 woundedPlayer id).2.2 id).1 = false ∧
    ((healthPack.collect 1000 woundedPlayer id).2.1.collect 2000
      (healthPack.collect 1000 woundedPlayer id).2.2 id).2.2.health = 70 := by
  have h := C22_collect_once healthPack 1000 2000 woundedPlayer id id
  have hfirst := h.1 rfl
  refine ⟨rfl, ?_, ?_, ?_, ?_⟩
  · rw [hfirst]
  · rw [hfirst]
    norm_num [PowerUp.applyEffect, healthPack, PowerUp.new, Player.heal, woundedPlayer,
      Player.takeDamage, Player.new]
  · rw [h.2.2.2]
  · rw [h.2.2.2, hfirst]
    norm_num [PowerUp.applyEffect, healthPack, PowerUp.new, Player.heal, woundedPlayer,
      Player.takeDamage, Player.new]

/-! ## C23: switching weapons -/

/-- An operation that leaves slot and weapons as they are keeps the player armed. -/
theorem Player.keepsArmed_of_eq (p q : Player) (hi : q.currentWeaponIndex = p.currentWeaponIndex)
    (hw : q.weapons = p.weapons) : p.keepsArmed q :=
  ⟨hi, fun i h => by rw [hw]; exact h⟩

/-- A player that differs from an armed successor in neither slot nor weapons is an armed
successor too. -/
theorem Player.keepsArmed.of_same_weapons {p q r : Player} (h : p.keepsArmed q)
    (hi : r.currentWeaponIndex = q.currentWeaponIndex) (hw : r.weapons = q.weapons) :
    p.keepsArmed r :=
  ⟨hi.trans h.1, fun i hu => by rw [hw]; exact h.2 i hu⟩

/-- Two operations that keep the player armed do so together. -/
theorem Player.keepsArmed.andThen {p q r : Player} (h1 : p.keepsArmed q) (h2 : q.keepsArmed r) :
    p.keepsArmed r :=
  ⟨h2.1.trans h1.1, fun i h => h2.2 i (h1.2 i h)⟩

/-- Writing a weapon record with the same `unlocked` flag into the current slot keeps the
player armed. -/
theorem Player.setCurrentWeapon_keepsArmed (p : Player) (w : Weapon)
    (h : w.unlocked = p.currentWeapon.unlocked) : p.keepsArmed (p.setCurrentWeapon w) := by
  refine ⟨rfl, fun i hi => ?_⟩
  by_cases hc : i = p.currentWeaponIndex
  · subst hc
    simp only [Player.setCurrentWeapon, Function.update_same]
    rw [h]
    exact hi
  · simp only [Player.setCurrentWeapon, Function.update_noteq hc]
    exact hi

/-- Unlocking a weapon keeps the player armed. -/
theorem Player.unlockWeapon_keepsArmed (p : Player) (k : Fin 5) :
    p.keepsArmed (p.unlockWeapon k) := by
  refine ⟨rfl, fun i hi => ?_⟩
  by_cases hc : i = k
  · subst hc
    simp [Player.unlockWeapon]
  · simp only [Player.unlockWeapon, Function.update_noteq hc]
    exact hi

/-- The method `Player.update` keeps the player armed. -/
theorem Player.update_keepsArmed (M : JsMath) (p : Player) (now deltaTime : ℚ) (keys : Keys)
    (mouse : Mouse) : p.keepsArmed (p.update M now deltaTime keys mouse) := by
  rw [Player.update_eq_steps]
  have h1 : p.keepsArmed (p.updateBuffs now) := Player.keepsArmed_of_eq _ _ rfl rfl
  have h2 : (p.updateBuffs now).keepsArmed ((p.updateBuffs now).finishReload now) := by
    unfold Player.finishReload
    split_ifs
    · exact (Player.setCurrentWeapon_keepsArmed (p.updateBuffs now)
        { (p.updateBuffs now).currentWeapon with
          ammo := (p.updateBuffs now).currentWeapon.maxAmmo } rfl).of_same_weapons rfl rfl
    · exact Player.keepsArmed_of_eq _ _ rfl rfl
  have h3 : ∀ q : Player, q.keepsArmed (q.aim M mouse) :=
    fun q => Player.keepsArmed_of_eq _ _ rfl rfl
  have h4 : ∀ q : Player, q.keepsArmed (q.handleMovement deltaTime keys) := by
    intro q
    rw [Player.handleMovement_eq]
    have hd : q.keepsArmed (q.startDash keys) := by
      unfold Player.startDash
      split_ifs <;> exact Player.keepsArmed_of_eq _ _ rfl rfl
    exact hd.of_same_weapons rfl rfl
  have h5 : ∀ q : Player, q.keepsArmed (q.regenStamina deltaTime) := by
    intro q
    unfold Player.regenStamina
    split_ifs <;> exact Player.keepsArmed_of_eq _ _ rfl rfl
  have h6 : ∀ q : Player, q.keepsArmed (q.regenHealth now deltaTime) := by
    intro q
    unfold Player.regenHealth
    split_ifs <;> exact Player.keepsArmed_of_eq _ _ rfl rfl
  have h7 : ∀ q : Player, q.keepsArmed (q.updateDash deltaTime) := by
    intro q
    simp only [Player.updateDash]
    split_ifs <;> exact Player.keepsArmed_of_eq _ _ rfl rfl
  exact h1.andThen (h2.andThen ((h3 _).andThen ((h4 _).andThen ((h5 _).andThen ((h6 _).andThen (h7 _))))))

/-- The method `Player.gainXP` keeps the player armed. -/
theorem Player.gainXP_keepsArmed (p : Player) (amount : ℚ) (shuffle : List Perk → List Perk) :
    p.keepsArmed (p.gainXP amount shuffle) := by
  have hunlock : ∀ (q : Player) (level : ℕ) (i : Fin 5), q.keepsArmed (q.unlockAtLevel level i) := by
    intro q level i
    unfold Player.unlockAtLevel
    split_ifs
    · exact Player.unlockWeapon_keepsArmed q i
    · exact Player.keepsArmed_of_eq _ _ rfl rfl
  have hlevel : ∀ q : Player, q.keepsArmed (q.levelUp shuffle) := by
    intro q
    have h0 : q.keepsArmed
        ({ q with level := q.level + 1, xp := q.xp - q.xpToNextLevel,
                  xpToNextLevel := ((⌊q.xpToNextLevel * (6/5)⌋ : ℤ) : ℚ) } : Player) :=
      Player.keepsArmed_of_eq _ _ rfl rfl
    rw [Player.levelUp_eq]
    exact ((((h0.andThen (hunlock _ 3 1)).andThen (hunlock _ 5 2)).andThen (hunlock _ 8 3)).andThen
      (hunlock _ 12 4)).of_same_weapons rfl rfl
  have h0 : p.keepsArmed ({ p with xp := p.xp + amount } : Player) :=
    Player.keepsArmed_of_eq _ _ rfl rfl
  unfold Player.gainXP
  dsimp only
  split_ifs
  · exact h0.andThen (hlevel _)
  · exact h0

/-- Collecting a power-up keeps the player armed. -/
theorem PowerUp.collect_keepsArmed (pu : PowerUp) (now : ℚ) (p : Player)
    (shuffle : List Perk → List Perk) : p.keepsArmed (pu.collect now p shuffle).2.2 := by
  unfold PowerUp.collect
  split_ifs
  · exact Player.keepsArmed_of_eq _ _ rfl rfl
  · dsimp only [PowerUp.applyEffect]
    cases pu.type
    · exact Player.keepsArmed_of_eq _ _ rfl rfl
    · refine ⟨rfl, fun i hi => ?_⟩
      simp only [Player.refillAmmo]
      split_ifs <;> exact hi
    · exact Player.keepsArmed_of_eq _ _ rfl rfl
    · exact Player.keepsArmed_of_eq _ _ rfl rfl
    · exact Player.keepsArmed_of_eq _ _ rfl rfl
    · exact Player.keepsArmed_of_eq _ _ rfl rfl
    · exact Player.gainXP_keepsArmed p 100 shuffle

/-- The effect of a perk keeps the player armed. -/
theorem Perk.effect_keepsArmed (perk : Perk) (p : Player) : p.keepsArmed (perk.effect p) := by
  cases perk
  · exact Player.keepsArmed_of_eq _ _ rfl rfl
  · exact Player.keepsArmed_of_eq _ _ rfl rfl
  · exact ⟨rfl, fun i hi => hi⟩
  · exact ⟨rfl, fun i hi => hi⟩
  · exact Player.keepsArmed_of_eq _ _ rfl rfl
  · exact Player.keepsArmed_of_eq _ _ rfl rfl
  · exact Player.unlockWeapon_keepsArmed p 1
  · exact Player.unlockWeapon_keepsArmed p 2

/-- The method `Player.selectPerk` keeps the player armed. -/
theorem Player.selectPerk_keepsArmed (p : Player) (index : ℕ) :
    p.keepsArmed (p.selectPerk index) := by
  unfold Player.selectPerk
  split
  · exact Player.keepsArmed_of_eq _ _ rfl rfl
  · split
    · exact Player.keepsArmed_of_eq _ _ rfl rfl
    · next perk _ => exact (Perk.effect_keepsArmed perk p).of_same_weapons rfl rfl

/-- The method `Player.shoot` keeps the player armed. -/
theorem Player.shoot_keepsArmed (M : JsMath) (p : Player) (now targetX targetY : ℚ)
    (rand : ℕ → ℚ) : p.keepsArmed (p.shoot M now targetX targetY rand).2 := by
  unfold Player.shoot
  dsimp only
  split_ifs
  · exact Player.keepsArmed_of_eq _ _ rfl rfl
  · exact (Player.setCurrentWeapon_keepsArmed p
      { p.currentWeapon with ammo := p.currentWeapon.ammo.dec } rfl).of_same_weapons rfl rfl
  · exact Player.keepsArmed_of_eq _ _ rfl rfl

/-- The method `Player.switchWeapon(index)` changes the player only when `index` is the
number of an unlocked slot, and then to that slot with `isReloading` cleared. -/
theorem Player.switchWeapon_eq (p : Player) (index : ℤ) :
    ((index < 0 ∨ index ≥ 5) → p.switchWeapon index = p) ∧
    (∀ i : Fin 5, index = ((i : ℕ) : ℤ) → (p.weapons i).unlocked = false →
      p.switchWeapon index = p) ∧
    (∀ i : Fin 5, index = ((i : ℕ) : ℤ) → (p.weapons i).unlocked = true →
      p.switchWeapon index = { p with currentWeaponIndex := i, isReloading := false }) := by
  refine ⟨?_, ?_, ?_⟩
  · intro h
    have hn : ¬ (0 ≤ index ∧ index < 5) := by omega
    simp only [Player.switchWeapon, dif_neg hn]
  · intro i hi hl
    have hr : 0 ≤ index ∧ index < 5 := by
      have := i.isLt
      omega
    have hfin : (⟨index.toNat, by omega⟩ : Fin 5) = i := by
      apply Fin.ext
      simp [hi]
    simp only [Player.switchWeapon, dif_pos hr, hfin, hl, Bool.false_eq_true, if_false]
  · intro i hi hu
    have hr : 0 ≤ index ∧ index < 5 := by
      have := i.isLt
      omega
    have hfin : (⟨index.toNat, by omega⟩ : Fin 5) = i := by
      apply Fin.ext
      simp [hi]
    simp only [Player.switchWeapon, dif_pos hr, hfin, hu, if_true]

/-- The current weapon of every reachable player is unlocked. -/
theorem Player.Reachable.armed {p : Player} (h : p.Reachable) :
    p.currentWeapon.unlocked = true := by
  have keep : ∀ {q r : Player}, q.keepsArmed r → q.currentWeapon.unlocked = true →
      r.currentWeapon.unlocked = true := by
    intro q r hk hq
    have := hk.2 q.currentWeaponIndex hq
    unfold Player.currentWeapon
    rw [hk.1]
    exact this
  induction h with
  | new x y => rfl
  | update M now deltaTime keys mouse _ _ ih =>
    exact keep (Player.update_keepsArmed M _ now deltaTime keys mouse) ih
  | shoot M now targetX targetY rand _ ih =>
    exact keep (Player.shoot_keepsArmed M _ now targetX targetY rand) ih
  | reload now _ ih =>
    refine keep ?_ ih
    unfold Player.reload
    dsimp only
    split_ifs <;> exact Player.keepsArmed_of_eq _ _ rfl rfl
  | @switchWeapon q index _ ih =>
    rcases (by omega : (index < 0 ∨ index ≥ 5) ∨ (0 ≤ index ∧ index < 5)) with hout | hin
    · rw [(Player.switchWeapon_eq q index).1 hout]
      exact ih
    · have hi : index = (((⟨index.toNat, by omega⟩ : Fin 5) : ℕ) : ℤ) := by
        simp
        omega
      cases hu : (q.weapons ⟨index.toNat, by omega⟩).unlocked with
      | false =>
        rw [(Player.switchWeapon_eq q index).2.1 _ hi hu]
        exact ih
      | true =>
        rw [(Player.switchWeapon_eq q index).2.2 _ hi hu]
        exact hu
  | takeDamage now damage _ _ ih =>
    refine keep ?_ ih
    unfold Player.takeDamage
    dsimp only
    split_ifs <;> exact Player.keepsArmed_of_eq _ _ rfl rfl
  | gainXP amount shuffle _ _ ih => exact keep (Player.gainXP_keepsArmed _ amount shuffle) ih
  | heal amount _ _ ih => exact ih
  | collect pu now shuffle _ ih => exact keep (PowerUp.collect_keepsArmed pu now _ shuffle) ih
  | selectPerk index _ ih => exact keep (Player.selectPerk_keepsArmed _ index) ih

/-- C23: for an integer `index` that is out of range (`index < 0` or `index >= 5`) or names a
locked weapon, `Player.switchWeapon(index)` returns the player unchanged (so `isReloading` and
`reloadStartTime` are kept); for an in-range `index` of an unlocked weapon the result is the
player with `currentWeaponIndex` set to `index` and `isReloading` cleared, nothing else
changed; and the current weapon is unlocked in every reachable player state. -/
theorem C23_switchWeapon (p : Player) (index : ℤ) :
    ((index < 0 ∨ index ≥ 5) → p.switchWeapon index = p) ∧
    (∀ i : Fin 5, index = ((i : ℕ) : ℤ) → (p.weapons i).unlocked = false →
      p.switchWeapon index = p) ∧
    (∀ i : Fin 5, index = ((i : ℕ) : ℤ) → (p.weapons i).unlocked = true →
      p.switchWeapon index = { p with currentWeaponIndex := i, isReloading := false }) ∧
    (∀ q : Player, q.Reachable → q.currentWeapon.unlocked = true) :=
  ⟨(Player.switchWeapon_eq p index).1, (Player.switchWeapon_eq p index).2.1,
   (Player.switchWeapon_eq p index).2.2, fun _ hq => hq.armed⟩

/-- C23 (worked inputs): a reloading player who holds the unlocked shotgun.  Index 7 and the
locked slot 4 leave the player unchanged, still reloading; index 0 (the pistol) selects slot 0
and cancels the reload. -/
theorem C23_switchWeapon_witness :
    ((7 : ℤ) < 0 ∨ (7 : ℤ) ≥ 5) ∧
    (reloadingPlayer.weapons 4).unlocked = false ∧
    (reloadingPlayer.weapons 0).unlocked = true ∧
    reloadingPlayer.isReloading = true ∧
    reloadingPlayer.switchWeapon 7 = reloadingPlayer ∧
    reloadingPlayer.switchWeapon 4 = reloadingPlayer ∧
    reloadingPlayer.switchWeapon 0
      = { reloadingPlayer with currentWeaponIndex := 0, isReloading := false } :=
  ⟨Or.inr (by norm_num), rfl, rfl, rfl,
   (C23_switchWeapon reloadingPlayer 7).1 (Or.inr (by norm_num)),
   (C23_switchWeapon reloadingPlayer 4).2.1 4 rfl rfl,
   (C23_switchWeapon reloadingPlayer 0).2.2.1 0 rfl rfl⟩

/-! ## C27: bullets taken from the pool -/

/-- When the record supplies a truthy `radius` and `type`, the bullet that `createBullet`
returns has the simulation fields of `new Bullet(data)`, whatever the pool holds. -/
theorem BulletManager.createBullet_full (bm : BulletManager) (data : BulletData) (r : ℚ)
    (t : String) (hr : data.radius = some r) (hr0 : r ≠ 0) (ht : data.type = some t)
    (ht0 : t ≠ "") :
    (bm.createBullet data).1.x = (Bullet.new data).x ∧
    (bm.createBullet data).1.y = (Bullet.new data).y ∧
    (bm.createBullet data).1.vx = (Bullet.new data).vx ∧
    (bm.createBullet data).1.vy = (Bullet.new data).vy ∧
    (bm.createBullet data).1.damage = (Bullet.new data).damage ∧
    (bm.createBullet data).1.radius = (Bullet.new data).radius ∧
    (bm.createBullet data).1.lifetime = (Bullet.new data).lifetime ∧
    (bm.createBullet data).1.maxLifetime = (Bullet.new data).maxLifetime ∧
    (bm.createBullet data).1.active = (Bullet.new data).active ∧
    (bm.createBullet data).1.type = (Bullet.new data).type ∧
    (bm.createBullet data).1.trail = (Bullet.new data).trail := by
  unfold BulletManager.createBullet
  split
  · simp [Bullet.assign, Bullet.new, hr, ht, numOr, strOr, hr0, ht0]
  · simp

/-- C27 (failing input): the pool holds one recycled spitter projectile (radius 6, type
`poison`) and the record omits `radius`, `color` and `type`.  The bullet `createBullet`
returns is the pooled one and keeps radius 6 and type `poison`, while `new Bullet(data)` has
radius 3 and type `normal`; position, velocity, damage, lifetime, `active` and `trail` are
those of `new Bullet(data)`. -/
theorem C27_pooled_bullet_keeps_old_fields :
    stalePool.bulletPool.length = 1 ∧
    (stalePool.createBullet bareData).1.radius = 6 ∧
    (Bullet.new bareData).radius = 3 ∧
    (stalePool.createBullet bareData).1.type = "poison" ∧
    (Bullet.new bareData).type = "normal" ∧
    (stalePool.createBullet bareData).1.x = (Bullet.new bareData).x ∧
    (stalePool.createBullet bareData).1.y = (Bullet.new bareData).y ∧
    (stalePool.createBullet bareData).1.vx = (Bullet.new bareData).vx ∧
    (stalePool.createBullet bareData).1.vy = (Bullet.new bareData).vy ∧
    (stalePool.createBullet bareData).1.damage = (Bullet.new bareData).damage ∧
    (stalePool.createBullet bareData).1.lifetime = (Bullet.new bareData).lifetime ∧
    (stalePool.createBullet bareData).1.maxLifetime = (Bullet.new bareData).maxLifetime ∧
    (stalePool.createBullet bareData).1.active = (Bullet.new bareData).active ∧
    (stalePool.createBullet bareData).1.trail = (Bullet.new bareData).trail := by
  have hpool : stalePool.bulletPool = [{ staleBullet with active := false }] := rfl
  have hradius : staleBullet.radius = 6 := by
    norm_num [staleBullet, Bullet.new, poisonData, numOr]
  have htype : staleBullet.type = "poison" := by
    simp [staleBullet, Bullet.new, poisonData, strOr]
  refine ⟨by rw [hpool]; rfl, ?_, ?_, ?_, ?_, ?_, ?_, ?_, ?_, ?_, ?_, ?_, ?_, ?_⟩ <;>
    simp [BulletManager.createBullet, hpool, Bullet.assign, Bullet.new, bareData, numOr, strOr,
      hradius, htype]

/-! ## C30: the XP bar maximum and the level-up threshold -/

/-- The level, the XP and the threshold after `Player.levelUp`. -/
theorem Player.levelUp_fields (p : Player) (shuffle : List Perk → List Perk) :
    (p.levelUp shuffle).level = p.level + 1 ∧
    (p.levelUp shuffle).xp = p.xp - p.xpToNextLevel ∧
    (p.levelUp shuffle).xpToNextLevel = ((⌊p.xpToNextLevel * (6/5)⌋ : ℤ) : ℚ) := by
  rw [Player.levelUp_eq]
  refine ⟨?_, ?_, ?_⟩
  · show (((((_ : Player).unlockAtLevel 3 1).unlockAtLevel 5 2).unlockAtLevel 8 3).unlockAtLevel
      12 4).level = _
    rw [(Player.unlockAtLevel_frame _ 12 4).1, (Player.unlockAtLevel_frame _ 8 3).1,
      (Player.unlockAtLevel_frame _ 5 2).1, (Player.unlockAtLevel_frame _ 3 1).1]
  · show (((((_ : Player).unlockAtLevel 3 1).unlockAtLevel 5 2).unlockAtLevel 8 3).unlockAtLevel
      12 4).xp = _
    rw [(Player.unlockAtLevel_frame _ 12 4).2.1, (Player.unlockAtLevel_frame _ 8 3).2.1,
      (Player.unlockAtLevel_frame _ 5 2).2.1, (Player.unlockAtLevel_frame _ 3 1).2.1]
  · show (((((_ : Player).unlockAtLevel 3 1).unlockAtLevel 5 2).unlockAtLevel 8 3).unlockAtLevel
      12 4).xpToNextLevel = _
    rw [(Player.unlockAtLevel_frame _ 12 4).2.2, (Player.unlockAtLevel_frame _ 8 3).2.2,
      (Player.unlockAtLevel_frame _ 5 2).2.2, (Player.unlockAtLevel_frame _ 3 1).2.2]

/-- The level and the threshold of a new player after up to four level-ups. -/
theorem Player.afterLevelUps_fields :
    ((Player.afterLevelUps 0).level = 1 ∧ (Player.afterLevelUps 0).xpToNextLevel = 100) ∧
    ((Player.afterLevelUps 1).level = 2 ∧ (Player.afterLevelUps 1).xpToNextLevel = 120) ∧
    ((Player.afterLevelUps 2).level = 3 ∧ (Player.afterLevelUps 2).xpToNextLevel = 144) ∧
    ((Player.afterLevelUps 3).level = 4 ∧ (Player.afterLevelUps 3).xpToNextLevel = 172) ∧
    ((Player.afterLevelUps 4).level = 5 ∧ (Player.afterLevelUps 4).xpToNextLevel = 206) := by
  have h0 : (Player.afterLevelUps 0).level = 1 ∧ (Player.afterLevelUps 0).xpToNextLevel = 100 :=
    ⟨rfl, rfl⟩
  have step : ∀ (n : ℕ) (l : ℕ) (t t1 : ℚ),
      ((Player.afterLevelUps n).level = l ∧ (Player.afterLevelUps n).xpToNextLevel = t) →
      ((⌊t * (6/5)⌋ : ℤ) : ℚ) = t1 →
      (Player.afterLevelUps (n + 1)).level = l + 1 ∧
        (Player.afterLevelUps (n + 1)).xpToNextLevel = t1 := by
    intro n l t t1 h ht
    have hf := Player.levelUp_fields (Player.afterLevelUps n) id
    exact ⟨by rw [Player.afterLevelUps, hf.1, h.1], by rw [Player.afterLevelUps, hf.2.2, h.2, ht]⟩
  have h1 := step 0 1 100 120 h0 (by norm_num)
  have h2 := step 1 2 120 144 h1 (by norm_num)
  have h3 := step 2 3 144 172 h2 (by norm_num)
  have h4 := step 3 4 172 206 h3 (by norm_num)
  exact ⟨h0, h1, h2, h3, h4⟩

/-- C30 (failing input): a new player after four `levelUp` calls is at level 5.
`getXPForNextLevel()` returns `floor(100 * 1.2^4) = floor(207.36) = 207`, while the threshold
`xpToNextLevel` that `gainXP` compares against is `floor(1.2 * 172) = floor(206.4) = 206`
(the thresholds are 100, 120, 144, 172, 206).  At levels 1 to 4 the two values agree. -/
theorem C30_xp_bar_maximum_differs :
    (Player.afterLevelUps 4).level = 5 ∧
    (Player.afterLevelUps 4).getXPForNextLevel = 207 ∧
    (Player.afterLevelUps 4).xpToNextLevel = 206 ∧
    (((Player.afterLevelUps 4).getXPForNextLevel : ℤ) : ℚ)
      ≠ (Player.afterLevelUps 4).xpToNextLevel ∧
    (((Player.afterLevelUps 0).getXPForNextLevel : ℤ) : ℚ)
      = (Player.afterLevelUps 0).xpToNextLevel ∧
    (((Player.afterLevelUps 1).getXPForNextLevel : ℤ) : ℚ)
      = (Player.afterLevelUps 1).xpToNextLevel ∧
    (((Player.afterLevelUps 2).getXPForNextLevel : ℤ) : ℚ)
      = (Player.afterLevelUps 2).xpToNextLevel ∧
    (((Player.afterLevelUps 3).getXPForNextLevel : ℤ) : ℚ)
      = (Player.afterLevelUps 3).xpToNextLevel := by
  obtain ⟨⟨l0, t0⟩, ⟨l1, t1⟩, ⟨l2, t2⟩, ⟨l3, t3⟩, ⟨l4, t4⟩⟩ := Player.afterLevelUps_fields
  have g0 : (Player.afterLevelUps 0).getXPForNextLevel = 100 := by
    rw [Player.getXPForNextLevel, l0]
    norm_num
  have g1 : (Player.afterLevelUps 1).getXPForNextLevel = 120 := by
    rw [Player.getXPForNextLevel, l1]
    norm_num
  have g2 : (Player.afterLevelUps 2).getXPForNextLevel = 144 := by
    rw [Player.getXPForNextLevel, l2]
    norm_num
  have g3 : (Player.afterLevelUps 3).getXPForNextLevel = 172 := by
    rw [Player.getXPForNextLevel, l3]
    norm_num
  have g4 : (Player.afterLevelUps 4).getXPForNextLevel = 207 := by
    rw [Player.getXPForNextLevel, l4]
    norm_num
  refine ⟨l4, g4, t4, ?_, ?_, ?_, ?_, ?_⟩
  · rw [g4, t4]
    norm_num
  · rw [g0, t0]
    norm_num
  · rw [g1, t1]
    norm_num
  · rw [g2, t2]
    norm_num
  · rw [g3, t3]
    norm_num

/-! ## C29: the XP counter stays below the threshold -/

/-- The strengthened XP invariant is kept by `Player.gainXP(a)` for `0 <= a <= 120`, and for
`0 <= a <= 125` from level 2 on. -/
theorem Player.gainXP_xpInv (p : Player) (a : ℚ) (shuffle : List Perk → List Perk)
    (h : p.xpInv) (ha : 0 ≤ a) (hb : a ≤ 120 ∨ (a ≤ 125 ∧ 2 ≤ p.level)) :
    (p.gainXP a shuffle).xpInv := by
  obtain ⟨⟨hx0, hx1⟩, hT, hL⟩ := h
  have hfloor : (120 : ℚ) ≤ ((⌊p.xpToNextLevel * (6/5)⌋ : ℤ) : ℚ) := by
    have : (120 : ℤ) ≤ ⌊p.xpToNextLevel * (6/5)⌋ := by
      apply Int.le_floor.mpr
      push_cast
      linarith
    exact_mod_cast this
  have hfloor2 : 2 ≤ p.level → (144 : ℚ) ≤ ((⌊p.xpToNextLevel * (6/5)⌋ : ℤ) : ℚ) := by
    intro h2
    have h120 := hL h2
    have : (144 : ℤ) ≤ ⌊p.xpToNextLevel * (6/5)⌋ := by
      apply Int.le_floor.mpr
      push_cast
      linarith
    exact_mod_cast this
  unfold Player.gainXP
  dsimp only
  split_ifs with hup
  · obtain ⟨hl, hxp, ht⟩ := Player.levelUp_fields { p with xp := p.xp + a } shuffle
    unfold Player.xpInv Player.xpInRange
    rw [hl, hxp, ht]
    dsimp only
    refine ⟨⟨by linarith, ?_⟩, by linarith, fun _ => hfloor⟩
    rcases hb with hb | ⟨hb, h2⟩
    · linarith
    · have := hfloor2 h2
      linarith
  · exact ⟨⟨by positivity, not_le.mp hup⟩, hT, hL⟩

/-- C29 (counterexample): a level-1 player with 95 XP (three brutes, a spitter and a runner)
satisfies `0 <= xp < xpToNextLevel = 100`; after `gainXP(125)`, the boss's value, it is at
level 2 with `xp = 120` and `xpToNextLevel = 120`, so `xp < xpToNextLevel` fails. -/
theorem C29_counterexample :
    veteranPlayer.level = 1 ∧ veteranPlayer.xp = 95 ∧ veteranPlayer.xpToNextLevel = 100 ∧
    veteranPlayer.xpInRange ∧ (0 : ℚ) ≤ 125 ∧
    (veteranPlayer.gainXP 125 id).level = 2 ∧
    (veteranPlayer.gainXP 125 id).xp = 120 ∧
    (veteranPlayer.gainXP 125 id).xpToNextLevel = 120 ∧
    ¬ (veteranPlayer.gainXP 125 id).xpInRange := by
  have hv : veteranPlayer = { Player.new 0 0 with xp := 95 } := by
    norm_num [veteranPlayer, Player.gainXP, Player.new]
  have hup : veteranPlayer.gainXP 125 id = ({ veteranPlayer with xp := 220 } : Player).levelUp id := by
    rw [hv]
    norm_num [Player.gainXP, Player.new]
  obtain ⟨hl, hxp, ht⟩ := Player.levelUp_fields { veteranPlayer with xp := 220 } id
  have e1 : veteranPlayer.level = 1 := by rw [hv]; rfl
  have e2 : veteranPlayer.xp = 95 := by rw [hv]
  have e3 : veteranPlayer.xpToNextLevel = 100 := by rw [hv]; rfl
  have r1 : (veteranPlayer.gainXP 125 id).level = 2 := by
    rw [hup, hl]
    show veteranPlayer.level + 1 = 2
    rw [e1]
  have r2 : (veteranPlayer.gainXP 125 id).xp = 120 := by
    rw [hup, hxp]
    show (220 : ℚ) - veteranPlayer.xpToNextLevel = 120
    rw [e3]
    norm_num
  have r3 : (veteranPlayer.gainXP 125 id).xpToNextLevel = 120 := by
    rw [hup, ht]
    show ((⌊veteranPlayer.xpToNextLevel * (6/5)⌋ : ℤ) : ℚ) = 120
    rw [e3]
    norm_num
  refine ⟨e1, e2, e3, ?_, by norm_num, r1, r2, r3, ?_⟩
  · unfold Player.xpInRange
    rw [e2, e3]
    norm_num
  · unfold Player.xpInRange
    rw [r2, r3]
    norm_num

/-- C29 (as amended): a new player satisfies `0 <= xp < xpToNextLevel` with threshold 100, and
the predicate, together with `xpToNextLevel >= 100` and `xpToNextLevel >= 120` from level 2
on, is preserved by `Player.gainXP(a)` for every `0 <= a <= 120` (the zombie values 5, 8, 12,
25 and the XP power-up's 100) at every level, and for every `0 <= a <= 125` (the boss's 125)
when the player is at level 2 or higher. -/
theorem C29_xp_in_range (p : Player) (a : ℚ) (shuffle : List Perk → List Perk)
    (h : p.xpInv) (ha : 0 ≤ a) (hb : a ≤ 120 ∨ (a ≤ 125 ∧ 2 ≤ p.level)) :
    (∀ x y : ℚ, (Player.new x y).xpInv) ∧
    (p.gainXP a shuffle).xpInv ∧
    (p.gainXP a shuffle).xpInRange :=
  ⟨fun _ _ => ⟨⟨le_refl _, by norm_num [Player.new]⟩, by norm_num [Player.new],
      fun h2 => absurd h2 (by norm_num [Player.new])⟩,
   Player.gainXP_xpInv p a shuffle h ha hb, (Player.gainXP_xpInv p a shuffle h ha hb).1⟩

/-- C29 (worked inputs): the 95-XP level-1 player keeps the predicate on the XP power-up's
100 (level 2, `xp = 95 < 120`), and the resulting level-2 player keeps it on the boss's 125
(level 3, `xp = 100 < 144`). -/
theorem C29_xp_in_range_witness :
    veteranPlayer.xpInv ∧
    (veteranPlayer.gainXP 100 id).xpInRange ∧
    ((veteranPlayer.gainXP 100 id).gainXP 125 id).xpInRange := by
  have hv : veteranPlayer = { Player.new 0 0 with xp := 95 } := by
    norm_num [veteranPlayer, Player.gainXP, Player.new]
  have h0 : veteranPlayer.xpInv := by
    rw [hv]
    exact ⟨⟨by norm_num, by norm_num [Player.new]⟩, by norm_num [Player.new],
      fun h2 => absurd h2 (by norm_num [Player.new])⟩
  have h1 := C29_xp_in_range veteranPlayer 100 id h0 (by norm_num) (Or.inl (by norm_num))
  have hlevel : 2 ≤ (veteranPlayer.gainXP 100 id).level := by
    have hup : veteranPlayer.gainXP 100 id
        = ({ veteranPlayer with xp := 195 } : Player).levelUp id := by
      rw [hv]
      norm_num [Player.gainXP, Player.new]
    rw [hup, (Player.levelUp_fields _ id).1]
    show 2 ≤ veteranPlayer.level + 1
    rw [hv]
    norm_num [Player.new]
  exact ⟨h0, h1.2.2,
    (C29_xp_in_range (veteranPlayer.gainXP 100 id) 125 id h1.2.1 (by norm_num)
      (Or.inr ⟨by norm_num, hlevel⟩)).2.2⟩

/-- The result of `Game.update` from the results of its stages. -/
theorem Game.update_of_stages (M : JsMath) (g : Game) (t : TickDraws)
    (zombieManager : ZombieManager) (gc g2 : Game)
    (hz : g.zombieManager.update M g.canvas t.now g.deltaTime
      (g.player.update M t.now g.deltaTime g.keys g.mouse) g.wave t.spawn = .ok zombieManager)
    (hc : (g.entitiesUpdated M t zombieManager).checkCollisions M t.now t.kill t.pickup = gc)
    (hw : gc.updateWaveProgression t.bossSide t.bossCoord = .ok g2) :
    g.update M t = .ok (g2.closeTick t.display) := by
  rw [Game.update_eq]
  simp only [hz, hc, hw]

/-! ## A worked tick -/

/-- The player of `standGame` is not changed by `Player.update` in the worked tick: no key is
held, the aim stays at angle 0, stamina is full and the last hit is 1000 ms old. -/
theorem standPlayer_update (health : ℚ) :
    (standPlayer health).update tickMath 5000 (1/30) (standGame health).keys
      (standGame health).mouse = standPlayer health := by
  rw [Player.update_eq_steps]
  have h1 : (standPlayer health).updateBuffs 5000 = standPlayer health := rfl
  have h2 : (standPlayer health).finishReload 5000 = standPlayer health := by
    simp [Player.finishReload, standPlayer, Player.new]
  have h3 : (standPlayer health).aim tickMath (standGame health).mouse = standPlayer health := rfl
  have h4 : (standPlayer health).handleMovement (1/30) (standGame health).keys
      = standPlayer health := by
    simp [Player.handleMovement, standGame, Game.new, standPlayer, Player.new]
  have h5 : (standPlayer health).regenStamina (1/30) = standPlayer health := by
    simp [Player.regenStamina, standPlayer, Player.new]
  have h6 : (standPlayer health).regenHealth 5000 (1/30) = standPlayer health := by
    norm_num [Player.regenHealth, standPlayer, Player.new]
  have h7 : (standPlayer health).updateDash (1/30) = standPlayer health := by
    simp [Player.updateDash, standPlayer, Player.new]
  rw [h1, h2, h3, h4, h5, h6, h7]

/-- The zombie-manager update of the worked tick: nothing is spawned, the far walker walks 2
units towards the player, the near walker stays in contact. -/
theorem standGame_zombies (health : ℚ) :
    (standGame health).zombieManager.update tickMath fullCanvas 5000 (1/30)
        (standPlayer health) 1 idleSpawnDraws
      = .ok { ZombieManager.new with
          spawnTimer := 100/3
          zombies := [nearWalker, Zombie.new 800 352 ZombieType.walker] } := by
  have hfar : (Zombie.new 800 350 ZombieType.walker).update tickMath 5000 (1/30)
      (standPlayer health) ManagerObject.zombieManager
        = .ok (Zombie.new 800 352 ZombieType.walker, ManagerObject.zombieManager) := by
    norm_num [Zombie.update, Zombie.new, standPlayer, Player.new, tickMath, Zombie.withinRange]
  have hnear : nearWalker.update tickMath 5000 (1/30) (standPlayer health)
      ManagerObject.zombieManager = .ok (nearWalker, ManagerObject.zombieManager) := by
    norm_num [Zombie.update, nearWalker, Zombie.new, standPlayer, Player.new, tickMath,
      Zombie.withinRange]
  have hloop : ZombieManager.updateZombies tickMath 5000 (1/30) (standPlayer health)
      [nearWalker, Zombie.new 800 350 ZombieType.walker]
        = .ok [nearWalker, Zombie.new 800 352 ZombieType.walker] := by
    simp only [ZombieManager.updateZombies, hfar, hnear]
    rfl
  have hkeep : ZombieManager.cleanupDistantZombies tickMath
      { ZombieManager.new with
        spawnTimer := 100/3
        zombies := [nearWalker, Zombie.new 800 352 ZombieType.walker] } fullCanvas
      (standPlayer health)
        = { ZombieManager.new with
            spawnTimer := 100/3
            zombies := [nearWalker, Zombie.new 800 352 ZombieType.walker] } := by
    norm_num [ZombieManager.cleanupDistantZombies, fullCanvas, nearWalker, Zombie.new,
      standPlayer, Player.new, tickMath, ZombieManager.new]
  have hstart : (standGame health).zombieManager
      = { ZombieManager.new with
          zombies := [nearWalker, Zombie.new 800 350 ZombieType.walker] } := rfl
  have hidle : ¬ ((0 : ℚ) + 1/30 * 1000 ≥ 2000 ∧ (((2 : ℕ) : ℚ)) < 50) := by norm_num
  rw [hstart]
  unfold ZombieManager.update
  simp only [ZombieManager.new, List.length_cons, List.length_nil, Nat.reduceAdd, hidle, if_false,
    hloop]
  have htimer : (0 : ℚ) + 1/30 * 1000 = 100/3 := by norm_num
  rw [htimer]
  exact congrArg Except.ok hkeep

/-- The bullet update of the worked tick: the bullet flies 20 units to the right and stays
active. -/
theorem standGame_bullets (health : ℚ) :
    (standGame health).bulletManager.update (1/30) fullCanvas
      = { BulletManager.new with bullets := [flyingBullet] } := by
  have hfly : standBullet.update (1/30) fullCanvas = flyingBullet := by
    norm_num [Bullet.update, flyingBullet, standBullet, Bullet.new, numOr, strOr, fullCanvas]
  have hstart : (standGame health).bulletManager
      = { BulletManager.new with bullets := [standBullet] } := rfl
  rw [hstart]
  simp only [BulletManager.update, BulletManager.updateList, BulletManager.new, hfly]
  simp [flyingBullet, standBullet, Bullet.new]

/-- The 5 XP of a walker take `standPlayer health` from 95 XP to level 2. -/
theorem standPlayer_gainXP (health : ℚ) :
    (standPlayer health).gainXP 5 id = leveledPlayer health := by
  norm_num [Player.gainXP, Player.levelUp, Player.unlockAtLevel, Player.getAvailablePerks,
    allPerks, leveledPlayer, standPlayer, Player.new]

/-- The steps of the worked tick before the collision pass. -/
theorem standGame_entities (health : ℚ) :
    ∃ zombieManager : ZombieManager,
      (standGame health).zombieManager.update tickMath fullCanvas 5000 (1/30)
        (standPlayer health) 1 idleSpawnDraws = .ok zombieManager ∧
      Game.entitiesUpdated tickMath
        { standGame health with deltaTime := 1/30, lastTime := 5000, frameCount := 1 }
        standDraws zombieManager = standGameMoved health := by
  refine ⟨_, standGame_zombies health, ?_⟩
  have hp := standPlayer_update health
  have hb := standGame_bullets health
  unfold Game.entitiesUpdated standGameMoved
  simp only [standDraws]
  have hplayer : (standGame health).player = standPlayer health := rfl
  have hcanvas : (standGame health).canvas = fullCanvas := rfl
  rw [hplayer, hcanvas, hp, hb]
  rfl

/-- The collision pass of the worked tick: the bullet kills the far walker with a critical
hit, the kill is rewarded, and the near walker deals its contact damage. -/
theorem standGame_collisions (health : ℚ) :
    (standGameMoved health).checkCollisions tickMath 5000 (fun _ => quietKill)
      (fun _ perks => perks) = standGameHit health := by
  have hscan : Game.hitScan tickMath quietKill 0 2 (standGameMoved health) =
      Game.onZombieKilled tickMath
        { standGameMoved health with
          zombieManager := { ZombieManager.new with
            spawnTimer := 100/3
            zombies := [nearWalker, shotWalker] }
          bulletManager := { BulletManager.new with bullets := [spentBullet] } }
        shotWalker true quietKill := by
    rw [Game.hitScan_succ tickMath quietKill 0 1 (standGameMoved health) flyingBullet
      (Zombie.new 800 352 ZombieType.walker) rfl rfl rfl 0
      (by norm_num [tickMath, flyingBullet, standBullet, Zombie.new, Bullet.new])]
    norm_num [flyingBullet, spentBullet, shotWalker, standBullet, Bullet.new, Zombie.new, numOr,
      Zombie.takeDamage, standGameMoved, ZombieManager.new, BulletManager.new]
  have hpass : Game.bulletZombiePass tickMath (fun _ => quietKill) 1 (standGameMoved health)
      = Game.hitScan tickMath quietKill 0 2 (standGameMoved health) := by
    simp [Game.bulletZombiePass, standGameMoved, flyingBullet, standBullet, Bullet.new,
      ZombieManager.new, BulletManager.new]
  have hlen : (standGameMoved health).bulletManager.bullets.length = 1 := rfl
  simp only [Game.checkCollisions, hlen, hpass, hscan]
  have hxp : (standGameMoved health).player.gainXP shotWalker.xpValue quietKill.shuffle
      = leveledPlayer health := by
    rw [← standPlayer_gainXP]
    norm_num [shotWalker, Zombie.takeDamage, Zombie.new, standGameMoved, standGame, quietKill]
    rfl
  simp only [Game.onZombieKilled, hxp]
  norm_num [standGameHit, standGameMoved, standGame, shotWalker, nearWalker, Zombie.new,
    Zombie.takeDamage, Game.new, ZombieManager.new, BulletManager.new, PowerUpManager.new,
    fullCanvas, quietKill, PowerUpManager.trySpawnPowerUp, BulletManager.checkPlayerCollisions,
    tickMath, BulletManager.checkPlayerCollisionsFrom, Game.zombiePlayerPass,
    PowerUpManager.checkCollisions, PowerUpManager.collectFrom, leveledPlayer, standPlayer,
    Player.new]

/-- The method `Game.update` in the worked tick, up to the closing checks. -/
theorem standGame_update (health : ℚ) :
    (standGameTimed health).update tickMath standDraws
      = .ok ((standGameHit health).closeTick List.reverse) := by
  obtain ⟨zombieManager, hz, he⟩ := standGame_entities health
  have hp : (standGameTimed health).player.update tickMath standDraws.now
      (standGameTimed health).deltaTime (standGameTimed health).keys
      (standGameTimed health).mouse = standPlayer health := standPlayer_update health
  have hw : (((standGameTimed health).wave : ℕ) : ℚ) = 1 := by
    norm_num [standGameTimed, standGame, Game.new]
  have hz1 : (standGameTimed health).zombieManager.update tickMath (standGameTimed health).canvas
      standDraws.now (standGameTimed health).deltaTime
      ((standGameTimed health).player.update tickMath standDraws.now
        (standGameTimed health).deltaTime (standGameTimed health).keys
        (standGameTimed health).mouse)
      (standGameTimed health).wave standDraws.spawn = .ok zombieManager := by
    rw [hp, hw]
    exact hz
  have hc : ((standGameTimed health).entitiesUpdated tickMath standDraws
      zombieManager).checkCollisions tickMath standDraws.now standDraws.kill standDraws.pickup
        = standGameHit health := by
    have he1 : (standGameTimed health).entitiesUpdated tickMath standDraws zombieManager
        = standGameMoved health := he
    rw [he1]
    exact standGame_collisions health
  have hwave : (standGameHit health).updateWaveProgression standDraws.bossSide
      standDraws.bossCoord = .ok (standGameHit health) := by
    norm_num [Game.updateWaveProgression, standGameHit, standGame, Game.new]
  exact Game.update_of_stages tickMath (standGameTimed health) standDraws zombieManager
    (standGameHit health) (standGameHit health) hz1 hc hwave

/-- The method `Game.gameLoop(5000)` on `standGame health`: the 5 s since the last frame are
clamped to 1/30 s and the tick is run. -/
theorem standGame_gameLoop (health : ℚ) :
    (standGame health).gameLoop tickMath 5000 standDraws
      = .ok ((standGameHit health).closeTick List.reverse) := by
  have hdt : min (((5000 : ℚ) - (standGame health).lastTime) / 1000) (1/30) = 1/30 := by
    norm_num [standGame, Game.new]
  have hplay : (standGame health).gameState = GameState.playing := rfl
  unfold Game.gameLoop
  simp only [hdt, hplay, if_true]
  exact standGame_update health

/-- The closing checks of the worked tick for a player at full health: the level-up screen
is shown with a draw of its own and the session enters the level-up phase. -/
theorem standGame_close_healthy :
    (standGameHit 100).closeTick List.reverse
      = (standGameEnd 100 GameState.levelUp, some standShown) := by
  have hpending : (standGameHit 100).player.levelUpPending = true := by
    norm_num [standGameHit, leveledPlayer, standPlayer, Player.new, Player.takeDamage]
  have hhealth : ¬ (standGameHit 100).player.health ≤ 0 := by
    norm_num [standGameHit, leveledPlayer, standPlayer, Player.new, Player.takeDamage]
  simp only [Game.closeTick, Game.showLevelUpScreen, hpending, if_true]
  rw [if_neg hhealth]
  rfl

/-- The closing checks of the worked tick for a player with health 1/4: the level-up screen
is shown, and the contact damage ends the game in the same tick. -/
theorem standGame_close_fallen :
    (standGameHit (1/4)).closeTick List.reverse
      = (standGameEnd (1/4) GameState.gameOver, some standShown) := by
  have hpending : (standGameHit (1/4)).player.levelUpPending = true := by
    norm_num [standGameHit, leveledPlayer, standPlayer, Player.new, Player.takeDamage]
  have hhealth : (standGameHit (1/4)).player.health ≤ 0 := by
    norm_num [standGameHit, leveledPlayer, standPlayer, Player.new, Player.takeDamage]
  simp only [Game.closeTick, Game.showLevelUpScreen, hpending, if_true]
  rw [if_pos hhealth]
  rfl

/-! ## C21: the drop chance by wave -/

/-- C21 (counterexample): the session after the first wave advance of a new game is
reachable and in wave 2; its drop chance is `min(0.15, 0.05 + 2 * 0.01) = 0.07`, not
`min(0.15, 0.05 + 0.01 * (2 - 1)) = 0.06`: the first advance raises the chance by two
points. -/
theorem C21_counterexample :
    waveTwoGame.Reachable ∧ (Game.new fullCanvas).powerUpManager.spawnRate = 1/20 ∧
    waveTwoGame.wave = 2 ∧ waveTwoGame.powerUpManager.spawnRate = 7/100 ∧
    waveTwoGame.powerUpManager.spawnRate
      ≠ min (3/20) (1/20 + (1/100) * (((waveTwoGame.wave : ℕ) : ℚ) - 1)) := by
  have hr : waveTwoGame.powerUpManager.spawnRate = 7/100 := by
    norm_num [waveTwoGame, PowerUpManager.adjustSpawnRate, PowerUpManager.new]
  refine ⟨Game.Reachable.nextWave 0 (1/2) (Game.Reachable.new fullCanvas) Game.nextWave_new,
    rfl, rfl, hr, ?_⟩
  rw [hr]
  norm_num [waveTwoGame]

/-- C21 (as amended): in every reachable session the drop chance is 5% in wave 1 and
`min(0.15, 0.05 + 0.01 * w)` in every wave `w >= 2`: 7% in wave 2 (the first advance adds two
points), one point more per further wave, and 15% from wave 10 on; the power-up cap is 10, and
`trySpawnPowerUp` on a manager with cap 10 adds nothing and returns `false` when 10 power-ups
that are not collected are in the array, whatever the draws. -/
theorem C21_spawn_rate (g : Game) (h : g.Reachable) (M : JsMath) (pm : PowerUpManager)
    (hcap : pm.maxPowerUps = 10) (x y : ℚ) (d : DropDraws) :
    ((g.wave = 1 ∧ g.powerUpManager.spawnRate = 1/20) ∨
      (2 ≤ g.wave ∧
        g.powerUpManager.spawnRate = min (3/20) (1/20 + (1/100) * (g.wave : ℚ)))) ∧
    (g.wave = 2 → g.powerUpManager.spawnRate = 7/100) ∧
    (2 ≤ g.wave → g.wave ≤ 10 → g.powerUpManager.spawnRate = 1/20 + (1/100) * (g.wave : ℚ)) ∧
    (10 ≤ g.wave → g.powerUpManager.spawnRate = 3/20) ∧
    g.powerUpManager.maxPowerUps = 10 ∧
    (10 ≤ (pm.powerUps.filter fun powerUp => !powerUp.collected).length →
      pm.trySpawnPowerUp M x y d = (false, pm)) := by
  have hinv := h.director
  have hrate : (g.wave = 1 ∧ g.powerUpManager.spawnRate = 1/20) ∨
      (2 ≤ g.wave ∧
        g.powerUpManager.spawnRate = min (3/20) (1/20 + (1/100) * (g.wave : ℚ))) := by
    rcases hinv.1 with ⟨h1, _, h3⟩ | ⟨h1, _, h3⟩
    · exact Or.inl ⟨h1, h3⟩
    · exact Or.inr ⟨h1, by rw [h3, mul_comm]⟩
  refine ⟨hrate, ?_, ?_, ?_, hinv.2, ?_⟩
  · intro hw
    rcases hrate with ⟨h1, _⟩ | ⟨_, h3⟩
    · omega
    · rw [h3, hw]
      norm_num
  · intro h2 h10
    rcases hrate with ⟨h1, _⟩ | ⟨_, h3⟩
    · omega
    · rw [h3]
      apply min_eq_right
      have : (g.wave : ℚ) ≤ 10 := by exact_mod_cast h10
      linarith
  · intro h10
    rcases hrate with ⟨h1, _⟩ | ⟨_, h3⟩
    · omega
    · rw [h3]
      apply min_eq_left
      have : (10 : ℚ) ≤ (g.wave : ℚ) := by exact_mod_cast h10
      linarith
  · intro hfull
    have hlen : 10 ≤ pm.powerUps.length :=
      le_trans hfull (List.length_filter_le _ _)
    have hno : ¬ (d.spawnDraw < pm.spawnRate ∧ pm.powerUps.length < pm.maxPowerUps) := by
      rw [hcap]
      intro hc
      omega
    simp only [PowerUpManager.trySpawnPowerUp, if_neg hno]

/-- C21 (worked inputs): the session after the first wave advance has drop chance 7%, and a
manager that holds ten uncollected health packs spawns nothing even on the draw 0. -/
theorem C21_spawn_rate_witness :
    waveTwoGame.Reachable ∧ fullManager.maxPowerUps = 10 ∧
    waveTwoGame.powerUpManager.spawnRate = 7/100 ∧
    10 ≤ (fullManager.powerUps.filter fun powerUp => !powerUp.collected).length ∧
    fullManager.trySpawnPowerUp tableMath 0 0
      { spawnDraw := 0, typeDraw := 0, offsetXDraw := 0, offsetYDraw := 0, floatDraw := 0 }
      = (false, fullManager) := by
  have hreach : waveTwoGame.Reachable :=
    Game.Reachable.nextWave 0 (1/2) (Game.Reachable.new fullCanvas) Game.nextWave_new
  have hfull : 10 ≤ (fullManager.powerUps.filter fun powerUp => !powerUp.collected).length := by
    simp [fullManager, healthPack, PowerUp.new, PowerUpManager.new]
  have h := C21_spawn_rate waveTwoGame hreach tableMath fullManager rfl 0 0
    { spawnDraw := 0, typeDraw := 0, offsetXDraw := 0, offsetYDraw := 0, floatDraw := 0 }
  exact ⟨hreach, rfl, h.2.1 rfl, hfull, h.2.2.2.2.2 hfull⟩

/-! ## C24: the game-over phase -/

/-- In the game-over phase the guarded operations change nothing: `togglePause` and every
key press return the session as it is, and `gameLoop` only advances the frame clock. -/
theorem Game.gameOver_guarded (M : JsMath) (g : Game) (now currentTime : ℚ) (code : KeyCode)
    (t : TickDraws) (h : g.gameState = GameState.gameOver) :
    g.togglePause = g ∧ g.handleKeyPress now code = g ∧
    g.gameLoop M currentTime t
      = .ok ({ g with
               deltaTime := min ((currentTime - g.lastTime) / 1000) (1/30)
               lastTime := currentTime
               frameCount := g.frameCount + 1 }, none) := by
  have htoggle : g.togglePause = g := by
    simp [Game.togglePause, h]
  refine ⟨htoggle, ?_, ?_⟩
  · cases code <;> simp [Game.handleKeyPress, htoggle, h]
  · simp [Game.gameLoop, h]

/-- The methods `Game.resume` and `Game.selectPerk` set the phase to `playing` whatever the
phase was. -/
theorem Game.resume_selectPerk_state (g : Game) (index : ℕ) :
    g.resume.gameState = GameState.playing ∧
    (g.selectPerk index).gameState = GameState.playing :=
  ⟨rfl, rfl⟩

/-- C24 (failing input): `gameLoop(5000)` on a session whose player (health 1/4, 95 XP)
touches a walker while a bullet kills a second walker.  The kill levels the player up, the
level-up screen is shown, and the contact damage ends the game in the same tick: the phase is
`gameOver`, health 0, three perks on offer.  `togglePause`, the Escape key and `gameLoop` leave
the phase at `gameOver`, but `selectPerk(0)` (a click on the first perk) sets it to `playing`
and applies Health Boost (health 25), and `resume()` sets it to `playing` too. -/
theorem C24_game_over_not_terminal :
    (standGame (1/4)).gameLoop tickMath 5000 standDraws
      = .ok (standGameEnd (1/4) GameState.gameOver, some standShown) ∧
    (standGameEnd (1/4) GameState.gameOver).gameState = GameState.gameOver ∧
    (standGameEnd (1/4) GameState.gameOver).player.health = 0 ∧
    (standGameEnd (1/4) GameState.gameOver).player.availablePerks
      = some [Perk.healthBoost, Perk.speedBoost, Perk.damageBoost] ∧
    (standGameEnd (1/4) GameState.gameOver).togglePause.gameState = GameState.gameOver ∧
    ((standGameEnd (1/4) GameState.gameOver).handleKeyPress 6000 KeyCode.escape).gameState
      = GameState.gameOver ∧
    ((standGameEnd (1/4) GameState.gameOver).gameLoop tickMath 6000 standDraws).map
      (fun r => r.1.gameState) = .ok GameState.gameOver ∧
    ((standGameEnd (1/4) GameState.gameOver).selectPerk 0).gameState = GameState.playing ∧
    ((standGameEnd (1/4) GameState.gameOver).selectPerk 0).player.health = 25 ∧
    (standGameEnd (1/4) GameState.gameOver).resume.gameState = GameState.playing := by
  have hover : (standGameEnd (1/4) GameState.gameOver).gameState = GameState.gameOver := rfl
  have hg := Game.gameOver_guarded tickMath (standGameEnd (1/4) GameState.gameOver) 6000 6000
    KeyCode.escape standDraws hover
  have hplayer : (standGameEnd (1/4) GameState.gameOver).player
      = { leveledPlayer (1/4) with health := 0, lastDamageTime := 5000,
                                   levelUpPending := false } := by
    norm_num [standGameEnd, standGameHit, leveledPlayer, standPlayer, Player.new,
      Player.takeDamage]
  refine ⟨?_, hover, ?_, ?_, ?_, ?_, ?_, rfl, ?_, rfl⟩
  · rw [standGame_gameLoop, standGame_close_fallen]
  · rw [hplayer]
  · rw [hplayer]
    rfl
  · rw [hg.1]
    exact hover
  · rw [hg.2.1]
    exact hover
  · rw [hg.2.2]
    rfl
  · show ((standGameEnd (1/4) GameState.gameOver).player.selectPerk 0).health = 25
    rw [hplayer]
    norm_num [Player.selectPerk, leveledPlayer, Perk.effect]

/-! ## C28: the perks on the level-up screen -/

/-- The level-up screen shows the first three perks of a draw of its own; the perks stored in
`player.availablePerks` are not read. -/
theorem Game.showLevelUpScreen_shown (g : Game) (shuffle : List Perk → List Perk) :
    (g.showLevelUpScreen shuffle).2 = (shuffle allPerks).take 3 ∧
    (g.showLevelUpScreen shuffle).1.player = g.player :=
  ⟨rfl, rfl⟩

/-- C28 (failing input): `gameLoop(5000)` on a session whose player (full health, 95 XP)
kills a walker.  `Player.levelUp` draws the catalog in its order and stores Health Boost,
Speed Boost, Damage Boost in `availablePerks`; `Game.showLevelUpScreen` draws again, gets the
reversed catalog and shows Unlock Rifle, Unlock Shotgun, Health Regen.  `selectPerk(0)`, the
click on the perk shown as Unlock Rifle, applies Health Boost: maximum health 125, and the
assault rifle stays locked. -/
theorem C28_shown_perk_differs :
    (standGame 100).gameLoop tickMath 5000 standDraws
      = .ok (standGameEnd 100 GameState.levelUp, some standShown) ∧
    standShown.map Perk.name = ["Unlock Rifle", "Unlock Shotgun", "Health Regen"] ∧
    (standGameEnd 100 GameState.levelUp).player.availablePerks
      = some [Perk.healthBoost, Perk.speedBoost, Perk.damageBoost] ∧
    ((standGameEnd 100 GameState.levelUp).selectPerk 0).player.perks.map Perk.name
      = ["Health Boost"] ∧
    ((standGameEnd 100 GameState.levelUp).selectPerk 0).player.maxHealth = 125 ∧
    (((standGameEnd 100 GameState.levelUp).selectPerk 0).player.weapons 2).unlocked = false := by
  have hplayer : (standGameEnd 100 GameState.levelUp).player
      = { leveledPlayer 100 with health := 199/2, lastDamageTime := 5000,
                                 levelUpPending := false } := by
    norm_num [standGameEnd, standGameHit, leveledPlayer, standPlayer, Player.new,
      Player.takeDamage]
  have hpick : ((standGameEnd 100 GameState.levelUp).selectPerk 0).player
      = (standGameEnd 100 GameState.levelUp).player.selectPerk 0 := rfl
  refine ⟨?_, rfl, ?_, ?_, ?_, ?_⟩
  · rw [standGame_gameLoop, standGame_close_healthy]
  · rw [hplayer]
    rfl
  · rw [hpick, hplayer]
    simp [Player.selectPerk, leveledPlayer, Perk.effect, standPlayer, Player.new, Perk.name]
  · rw [hpick, hplayer]
    norm_num [Player.selectPerk, leveledPlayer, Perk.effect, standPlayer, Player.new]
  · rw [hpick, hplayer]
    simp [Player.selectPerk, leveledPlayer, Perk.effect, standPlayer, Player.new,
      initialWeapons]

/-! ## C25: the clamped time step -/

/-- A completed `Game.updateWaveProgression` keeps `deltaTime` and the kill counter. -/
theorem Game.updateWaveProgression_frame (g g1 : Game) (sideDraw coordDraw : ℚ)
    (h : g.updateWaveProgression sideDraw coordDraw = .ok g1) :
    g1.deltaTime = g.deltaTime ∧ g1.kills = g.kills := by
  unfold Game.updateWaveProgression Game.nextWave at h
  dsimp only at h
  split_ifs at h
  · split at h
    · simp at h
    · injection h with h
      subst h
      exact ⟨rfl, rfl⟩
  · injection h with h
    subst h
    exact ⟨rfl, rfl⟩
  · injection h with h
    subst h
    exact ⟨rfl, rfl⟩

/-- A completed `Game.update` keeps `deltaTime`. -/
theorem Game.update_deltaTime (M : JsMath) (g : Game) (t : TickDraws)
    (r : Game × Option (List Perk)) (h : g.update M t = .ok r) :
    r.1.deltaTime = g.deltaTime := by
  obtain ⟨zombieManager, g2, _, hw, hr⟩ := Game.update_stages M g t r h
  rw [hr, (Game.closeTick_frame g2 t.display).2.2.2.2.2,
    (Game.updateWaveProgression_frame _ g2 t.bossSide t.bossCoord hw).1,
    (Game.checkCollisions_rate M _ t.now t.kill t.pickup).1]
  rfl

/-- C25: `Game.gameLoop(currentTime)` sets `deltaTime` to
`dt = min((currentTime - lastTime) / 1000, 1/30)`, which is at most 1/30, and the session it
returns still has this `deltaTime`.  Outside the `playing` phase nothing else happens but the
frame clock.  In the `playing` phase the tick is run with `dt` passed to `Player.update`,
`ZombieManager.update`, `BulletManager.update` and `PowerUpManager.update`, and
`checkCollisions` (contact damage `zombie.damage * deltaTime`) runs on a session whose
`deltaTime` is `dt`. -/
theorem C25_clamped_delta (M : JsMath) (g : Game) (currentTime dt : ℚ) (t : TickDraws)
    (hdt : dt = min ((currentTime - g.lastTime) / 1000) (1/30)) :
    dt ≤ 1/30 ∧
    (∀ r : Game × Option (List Perk), g.gameLoop M currentTime t = .ok r → r.1.deltaTime = dt) ∧
    (g.gameState ≠ GameState.playing →
      g.gameLoop M currentTime t
        = .ok ({ g with deltaTime := dt, lastTime := currentTime,
                        frameCount := g.frameCount + 1 }, none)) ∧
    (g.gameState = GameState.playing →
      g.gameLoop M currentTime t =
        match g.zombieManager.update M g.canvas t.now dt
            (g.player.update M t.now dt g.keys g.mouse) g.wave t.spawn with
        | .error e => .error e
        | .ok zombieManager =>
          match (Game.checkCollisions M
              { g with
                deltaTime := dt
                lastTime := currentTime
                frameCount := g.frameCount + 1
                player := g.player.update M t.now dt g.keys g.mouse
                zombieManager := zombieManager
                bulletManager := g.bulletManager.update dt g.canvas
                powerUpManager := g.powerUpManager.update dt }
              t.now t.kill t.pickup).updateWaveProgression t.bossSide t.bossCoord with
          | .error e => .error e
          | .ok g2 => .ok (g2.closeTick t.display)) := by
  subst hdt
  refine ⟨min_le_right _ _, ?_, ?_, ?_⟩
  · intro r hr
    unfold Game.gameLoop at hr
    dsimp only at hr
    split_ifs at hr
    · rw [Game.update_deltaTime M _ t r hr]
    · injection hr with hr
      subst hr
      rfl
  · intro hstate
    unfold Game.gameLoop
    dsimp only
    rw [if_neg hstate]
  · intro hstate
    unfold Game.gameLoop
    dsimp only
    rw [if_pos hstate, Game.update_eq]
    rfl

/-- C25 (worked input): `gameLoop(5000)` on `standGame 100`, whose last frame was at time 0:
the 5 s are clamped to 1/30 s, and the session returned has `deltaTime = 1/30`. -/
theorem C25_clamped_delta_witness :
    (1/30 : ℚ) = min (((5000 : ℚ) - (standGame 100).lastTime) / 1000) (1/30) ∧
    (standGame 100).gameLoop tickMath 5000 standDraws
      = .ok (standGameEnd 100 GameState.levelUp, some standShown) ∧
    (standGameEnd 100 GameState.levelUp).deltaTime = 1/30 := by
  have hdt : (1/30 : ℚ) = min (((5000 : ℚ) - (standGame 100).lastTime) / 1000) (1/30) := by
    norm_num [standGame, Game.new]
  have hloop : (standGame 100).gameLoop tickMath 5000 standDraws
      = .ok (standGameEnd 100 GameState.levelUp, some standShown) := by
    rw [standGame_gameLoop, standGame_close_healthy]
  exact ⟨hdt, hloop,
    (C25_clamped_delta tickMath (standGame 100) 5000 (1/30) standDraws hdt).2.1 _ hloop⟩

/-! ## C26: dead zombies in the array -/

/-- Every zombie that the loop of `ZombieManager.update` keeps is alive. -/
theorem ZombieManager.updateZombies_alive (M : JsMath) (now deltaTime : ℚ) (player : Player) :
    ∀ (zombies kept : List Zombie),
      ZombieManager.updateZombies M now deltaTime player zombies = .ok kept →
      ∀ z ∈ kept, z.alive = true := by
  intro zombies
  induction zombies with
  | nil =>
    intro kept h z hz
    simp only [ZombieManager.updateZombies] at h
    injection h with h
    subst h
    cases hz
  | cons zombie rest ih =>
    intro kept h z hz
    unfold ZombieManager.updateZombies at h
    split at h
    · cases h
    · next rest1 hrest =>
      split at h
      · cases h
      · next zombie1 _ _ =>
        injection h with h
        subst h
        by_cases ha : zombie1.alive = true
        · rw [if_pos ha] at hz
          rcases List.mem_cons.mp hz with h1 | h1
          · rw [h1]
            exact ha
          · exact ih rest1 hrest z h1
        · rw [if_neg ha] at hz
          exact ih rest1 hrest z hz

/-- Every zombie in the array after a completed `ZombieManager.update` is alive. -/
theorem ZombieManager.update_alive (M : JsMath) (zm zm1 : ZombieManager) (canvas : Canvas)
    (now deltaTime : ℚ) (player : Player) (wave : ℚ) (d : SpawnDraws)
    (h : zm.update M canvas now deltaTime player wave d = .ok zm1) :
    ∀ z ∈ zm1.zombies, z.alive = true := by
  unfold ZombieManager.update at h
  dsimp only at h
  split at h
  · cases h
  · next zm2 _ =>
    split at h
    · cases h
    · next kept hkept =>
      injection h with h
      subst h
      intro z hz
      simp only [ZombieManager.cleanupDistantZombies] at hz
      exact ZombieManager.updateZombies_alive M now deltaTime player _ kept hkept z
        (List.mem_of_mem_filter hz)

/-- An array of live zombies holds no dead one. -/
theorem deadCount_eq_zero (zombies : List Zombie) (h : ∀ z ∈ zombies, z.alive = true) :
    deadCount zombies = 0 := by
  unfold deadCount
  rw [List.countP_eq_zero]
  intro z hz
  simp [h z hz]

/-- A completed `Game.updateWaveProgression` adds no dead zombie to the array. -/
theorem Game.updateWaveProgression_dead (g g1 : Game) (sideDraw coordDraw : ℚ)
    (h : g.updateWaveProgression sideDraw coordDraw = .ok g1) :
    deadCount g1.zombieManager.zombies = deadCount g.zombieManager.zombies := by
  unfold Game.updateWaveProgression at h
  split_ifs at h with hdone
  · have hempty : g.zombieManager.zombies = [] := List.length_eq_zero.mp hdone.2
    unfold Game.nextWave at h
    dsimp only at h
    split_ifs at h
    · cases hpos : ZombieManager.getRandomSpawnPosition g.canvas sideDraw coordDraw with
      | none => simp [ZombieManager.spawnBoss, hpos] at h
      | some pos =>
        simp only [ZombieManager.spawnBoss, hpos] at h
        injection h with h
        subst h
        simp [deadCount, ZombieManager.increaseDifficulty, hempty, Zombie.new]
    · injection h with h
      subst h
      rfl
  · injection h with h
    subst h
    rfl

/-- C26 (counterexample): in the worked tick on `standGame 100` every zombie is alive with
health 50 at the start; the bullet kills the far walker in `checkCollisions`; `Game.update`
completes, and at its end the array still holds the killed walker, `alive = false`, health
0. -/
theorem C26_counterexample :
    (∀ z ∈ (standGameTimed 100).zombieManager.zombies, z.alive = true ∧ z.health = 50) ∧
    (standGameTimed 100).update tickMath standDraws
      = .ok (standGameEnd 100 GameState.levelUp, some standShown) ∧
    (standGameEnd 100 GameState.levelUp).zombieManager.zombies = [nearWalker, shotWalker] ∧
    shotWalker.alive = false ∧ shotWalker.health = 0 ∧
    ¬ (∀ z ∈ (standGameEnd 100 GameState.levelUp).zombieManager.zombies, z.alive = true) := by
  have hshot : shotWalker.alive = false ∧ shotWalker.health = 0 := by
    norm_num [shotWalker, Zombie.takeDamage, Zombie.new]
  refine ⟨?_, ?_, rfl, hshot.1, hshot.2, ?_⟩
  · intro z hz
    have : z = nearWalker ∨ z = Zombie.new 800 350 ZombieType.walker := by
      simpa [standGameTimed, standGame, ZombieManager.new] using hz
    rcases this with h | h <;> rw [h] <;> exact ⟨rfl, rfl⟩
  · rw [standGame_update, standGame_close_healthy]
  · intro hall
    have := hall shotWalker (by simp [standGameEnd, standGameHit])
    rw [hshot.1] at this
    exact Bool.false_ne_true this

/-- C26 (as amended): in every completed `Game.update` tick, `ZombieManager.update`, which
runs before `checkCollisions`, returns an array in which every zombie is alive, so a zombie
that was not alive at the start of the tick is gone; and at the end of the tick the number of
zombies with `alive = false` in the array is the number of kills counted in this tick.  A
zombie killed by `checkCollisions` therefore stays in the array, not alive, until the
`ZombieManager.update` of the next tick. -/
theorem C26_dead_zombies (M : JsMath) (g g1 : Game) (t : TickDraws)
    (shown : Option (List Perk)) (h : g.update M t = .ok (g1, shown)) :
    ∃ zombieManager : ZombieManager,
      g.zombieManager.update M g.canvas t.now g.deltaTime
        (g.player.update M t.now g.deltaTime g.keys g.mouse) g.wave t.spawn
          = .ok zombieManager ∧
      (∀ z ∈ zombieManager.zombies, z.alive = true) ∧
      g1.kills = g.kills + deadCount g1.zombieManager.zombies := by
  obtain ⟨zombieManager, g2, hz, hw, hr⟩ := Game.update_stages M g t (g1, shown) h
  have halive := ZombieManager.update_alive M _ _ _ _ _ _ _ _ hz
  refine ⟨zombieManager, hz, halive, ?_⟩
  have hledger : Game.KillLedger (g.entitiesUpdated M t zombieManager)
      ((g.entitiesUpdated M t zombieManager).checkCollisions M t.now t.kill t.pickup) :=
    (Game.bulletZombiePass_ledger M t.kill _ (g.entitiesUpdated M t zombieManager)).of_eq
      rfl rfl rfl rfl rfl rfl
  have hk := hledger.2.2.2.1
  have h0 : deadCount (g.entitiesUpdated M t zombieManager).zombieManager.zombies = 0 :=
    deadCount_eq_zero _ halive
  have hk0 : (g.entitiesUpdated M t zombieManager).kills = g.kills := rfl
  have hf := Game.updateWaveProgression_frame _ g2 t.bossSide t.bossCoord hw
  have hd := Game.updateWaveProgression_dead _ g2 t.bossSide t.bossCoord hw
  have hc := Game.closeTick_frame g2 t.display
  have h1 : g1 = (g2.closeTick t.display).1 := by rw [← hr]
  rw [h1, hc.2.2.2.2.1, hc.2.2.2.1, hf.2, hd]
  omega

/-- C26 (worked input): the worked tick on `standGame 100` completes; its zombie-manager
update returns two live walkers, and at the end one kill is counted and one zombie in the
array is not alive. -/
theorem C26_dead_zombies_witness :
    (standGameTimed 100).update tickMath standDraws
      = .ok (standGameEnd 100 GameState.levelUp, some standShown) ∧
    (standGameEnd 100 GameState.levelUp).kills = 1 ∧
    deadCount (standGameEnd 100 GameState.levelUp).zombieManager.zombies = 1 ∧
    (standGameEnd 100 GameState.levelUp).kills
      = (standGameTimed 100).kills
        + deadCount (standGameEnd 100 GameState.levelUp).zombieManager.zombies := by
  have hupd : (standGameTimed 100).update tickMath standDraws
      = .ok (standGameEnd 100 GameState.levelUp, some standShown) := by
    rw [standGame_update, standGame_close_healthy]
  obtain ⟨_, _, _, hk⟩ := C26_dead_zombies tickMath (standGameTimed 100)
    (standGameEnd 100 GameState.levelUp) standDraws (some standShown) hupd
  refine ⟨hupd, rfl, ?_, hk⟩
  have : (standGameTimed 100).kills = 0 := rfl
  have h1 : (standGameEnd 100 GameState.levelUp).kills = 1 := rfl
  omega

end ZombieShooter
